import Mathlib

/-!
# Token lifecycle engine of the auth service

A shallow embedding of `internal/service/service.go`, `internal/models/models.go`,
`internal/repository/postgres/postgres.go` and `pkg/er/er.go`.

Modelling conventions:

* `time.Time` is an integer count of nanoseconds since the Unix epoch, `time.Duration`
  an integer count of nanoseconds.  One service call reads one clock value.
* A `uuid.UUID` is its sixteen bytes; `UUID.String` writes its text and
  `uuid.ParseBytes` reads text back.
* Go `error` values are a small tree (`Err`): package-level sentinels, errors created by
  code outside the modelled packages, and `fmt.Errorf("...%w...")` wrappers.
* The libraries the service calls (golang-jwt v5, encoding/json, google/uuid, bcrypt,
  crypto/hmac, crypto/rand, resty, pgx) are not part of the repository.  Their keyed and
  salted primitives are parameters (`Crypto`), their outcomes that depend on the outside
  world are fields of the per-call environment (`Env`, `Faults`), and their control flow
  is transcribed as far as the service depends on it.
-/

namespace AuthService

/-! ## Errors -/

/-- Go error values. -/
inductive Err where
  /-- A package-level `errors.New(text)` variable of package `pkg`. -/
  | sentinel (pkg text : String)
  /-- An error created by a driver, transport or library, equal to no sentinel. -/
  | foreign (text : String)
  /-- The value of `fmt.Errorf(msg + ": %w", cause)`. -/
  | errorf (msg : String) (cause : Err)
  /-- The value of `fmt.Errorf` with two `%w` verbs. -/
  | errorf2 (msg : String) (first second : Err)
  deriving DecidableEq, Repr

/-- Go `errors.Is(err, target)`: equality somewhere along the unwrap tree. -/
def errors.Is : Err → Err → Bool
  | .sentinel p t, target => decide (Err.sentinel p t = target)
  | .foreign t, target => decide (Err.foreign t = target)
  | .errorf m c, target => decide (Err.errorf m c = target) || errors.Is c target
  | .errorf2 m a b, target =>
      decide (Err.errorf2 m a b = target) || errors.Is a target || errors.Is b target

/-- Sentinel `er.ErrNotFound`. -/
abbrev er.ErrNotFound : Err := .sentinel "er" "not found"
/-- Sentinel `er.ErrInvalidToken`. -/
abbrev er.ErrInvalidToken : Err := .sentinel "er" "invalid token"
/-- Sentinel `er.ErrUserAgentMismatch`. -/
abbrev er.ErrUserAgentMismatch : Err := .sentinel "er" "user agent mismatch"
/-- Sentinel `er.ErrTokenExpired` (declared in `pkg/er`, returned nowhere). -/
abbrev er.ErrTokenExpired : Err := .sentinel "er" "token expired"

/-- Sentinel `jwt.ErrTokenMalformed`. -/
abbrev jwt.ErrTokenMalformed : Err := .sentinel "jwt" "token is malformed"
/-- Sentinel `jwt.ErrTokenUnverifiable`. -/
abbrev jwt.ErrTokenUnverifiable : Err := .sentinel "jwt" "token is unverifiable"
/-- Sentinel `jwt.ErrTokenSignatureInvalid`. -/
abbrev jwt.ErrTokenSignatureInvalid : Err := .sentinel "jwt" "token signature is invalid"
/-- Sentinel `jwt.ErrTokenInvalidClaims`. -/
abbrev jwt.ErrTokenInvalidClaims : Err := .sentinel "jwt" "token has invalid claims"
/-- Sentinel `jwt.ErrTokenExpired`. -/
abbrev jwt.ErrTokenExpired : Err := .sentinel "jwt" "token is expired"
/-- Sentinel `jwt.ErrTokenNotValidYet`. -/
abbrev jwt.ErrTokenNotValidYet : Err := .sentinel "jwt" "token is not valid yet"
/-- Sentinel `jwt.ErrSignatureInvalid`. -/
abbrev jwt.ErrSignatureInvalid : Err := .sentinel "jwt" "signature is invalid"
/-- Sentinel `jwt.ErrInvalidKeyType`. -/
abbrev jwt.ErrInvalidKeyType : Err := .sentinel "jwt" "key is of invalid type"

/-! ## Data model (`internal/models`) -/

/-- Type `uuid.UUID`, a `[16]byte`. -/
structure UUID where
  bytes : List (Fin 256)
  size : bytes.length = 16
  deriving DecidableEq, Repr

/-- Value `uuid.Nil`, the zero value of the array. -/
def uuid.Nil : UUID := ⟨List.replicate 16 0, rfl⟩

/-- Assignment `uuid[i] = v`. -/
def UUID.set (u : UUID) (i : Nat) (v : Fin 256) : UUID :=
  ⟨u.bytes.set i v, by rw [List.length_set]; exact u.size⟩

/-- Sentinel `uuid.ErrInvalidUUIDFormat`. -/
abbrev uuid.ErrInvalidUUIDFormat : Err := .sentinel "uuid" "invalid UUID format"

/-- The table `hextable` of `encoding/hex`, by index. -/
def hex.hextable (v : Nat) : Char := "0123456789abcdef".toList.getD (v % 16) '0'

/-- Go `hex.Encode`: two characters per byte, high half first. -/
def hex.Encode : List (Fin 256) → List Char
  | [] => []
  | b :: rest => hex.hextable (b.val / 16) :: hex.hextable b.val :: hex.Encode rest

/-- Method `UUID.String` (`encodeHex`): the form `xxxxxxxx-xxxx-xxxx-xxxx-xxxxxxxxxxxx`,
which is also what `UUID.MarshalText` writes and what the verb `%s` prints. -/
def UUID.String (u : UUID) : String :=
  String.mk (hex.Encode (u.bytes.take 4) ++ '-' :: hex.Encode ((u.bytes.drop 4).take 2)
    ++ '-' :: hex.Encode ((u.bytes.drop 6).take 2) ++ '-' :: hex.Encode ((u.bytes.drop 8).take 2)
    ++ '-' :: hex.Encode (u.bytes.drop 10))

/-- Go `[]byte(s)`: the bytes of the UTF-8 encoding of a string. -/
def utf8 (s : String) : List Nat :=
  (s.toList.flatMap String.utf8EncodeChar).map UInt8.toNat

/-- The table `xvalues` of package uuid, by index: the value of a hexadecimal digit, 255
for every other byte. -/
def uuid.xvalues (x : Nat) : Nat :=
  if 48 ≤ x ∧ x ≤ 57 then x - 48
  else if 65 ≤ x ∧ x ≤ 70 then x - 55
  else if 97 ≤ x ∧ x ≤ 102 then x - 87
  else 255

/-- Function `xtob`: the byte written with two hexadecimal digits. -/
def uuid.xtob (x1 x2 : Nat) : Option (Fin 256) :=
  if uuid.xvalues x1 ≠ 255 ∧ uuid.xvalues x2 ≠ 255 then
    some (Fin.ofNat (uuid.xvalues x1 * 16 % 256 ||| uuid.xvalues x2))
  else none

/-- The loop of `uuid.ParseBytes` over pairs of an array index and a text offset, which
stores into the array until a pair of bytes is not two hexadecimal digits. -/
def uuid.fill (b : List Nat) : List (Nat × Nat) → UUID → Except Err UUID
  | [], u => .ok u
  | (i, x) :: rest, u =>
    match uuid.xtob (b.getD x 0) (b.getD (x + 1) 0) with
    | none => .error uuid.ErrInvalidUUIDFormat
    | some v => uuid.fill b rest (u.set i v)

/-- The tail of `uuid.ParseBytes`, for text of the form
`xxxxxxxx-xxxx-xxxx-xxxx-xxxxxxxxxxxx`. -/
def uuid.hyphenated (b : List Nat) : Except Err UUID :=
  if b.getD 8 0 ≠ 45 ∨ b.getD 13 0 ≠ 45 ∨ b.getD 18 0 ≠ 45 ∨ b.getD 23 0 ≠ 45 then
    .error uuid.ErrInvalidUUIDFormat
  else
    uuid.fill b [(0, 0), (1, 2), (2, 4), (3, 6), (4, 9), (5, 11), (6, 14), (7, 16), (8, 19),
      (9, 21), (10, 24), (11, 26), (12, 28), (13, 30), (14, 32), (15, 34)] uuid.Nil

/-- ASCII case folding of one byte, which is what `bytes.EqualFold` amounts to against
the ASCII text `urn:uuid:`. -/
def uuid.lower (x : Nat) : Nat := if 65 ≤ x ∧ x ≤ 90 then x + 32 else x

/-- Go `uuid.ParseBytes`, selected by the length of the text: the form
`xxxxxxxx-xxxx-xxxx-xxxx-xxxxxxxxxxxx`, the same behind `urn:uuid:`, the same between
two bytes that are not looked at, and 32 hexadecimal digits. -/
def uuid.ParseBytes (b : List Nat) : Except Err UUID :=
  if b.length = 36 then uuid.hyphenated b
  else if b.length = 36 + 9 then
    if (b.take 9).map uuid.lower ≠ [117, 114, 110, 58, 117, 117, 105, 100, 58] then
      .error (.foreign "invalid urn prefix")
    else uuid.hyphenated (b.drop 9)
  else if b.length = 36 + 2 then uuid.hyphenated (b.drop 1)
  else if b.length = 32 then
    uuid.fill b ((List.range 16).map fun i => (i, 2 * i)) uuid.Nil
  else .error (.foreign ("invalid UUID length: " ++ toString b.length))

/-- A `time.Time`: nanoseconds since the Unix epoch. -/
abbrev Time := Int
/-- A `time.Duration`: nanoseconds. -/
abbrev Duration := Int

/-- Go `t.Unix()`: whole seconds since the epoch, rounded down. -/
def Time.Unix (t : Time) : Int := t / 1000000000

/-- Go `time.Unix(sec, 0)`. -/
def Time.ofUnix (sec : Int) : Time := sec * 1000000000

/-- Go `t.Add(d)`. -/
def Time.Add (t : Time) (d : Duration) : Time := t + d

/-- Go `t.Before(u)`. -/
def Time.Before (t u : Time) : Bool := decide (t < u)

/-- Row type `models.User`. -/
structure User where
  ID : UUID
  CreatedAt : Time
  UpdatedAt : Time
  deriving DecidableEq, Repr

/-- Row type `models.RefreshToken`: one persisted session. -/
structure RefreshToken where
  ID : Nat
  UserID : UUID
  TokenHash : String
  UserAgent : String
  IP : String
  IssuedAt : Time
  ExpiresAt : Time
  IsValid : Bool
  deriving DecidableEq, Repr

/-- Struct `jwt.RegisteredClaims`, restricted to the fields the default validator
reads.  Each is a `*NumericDate` (whole seconds), `none` for a nil pointer. -/
structure jwt.RegisteredClaims where
  ExpiresAt : Option Int
  NotBefore : Option Int
  IssuedAt : Option Int
  deriving DecidableEq, Repr

/-- Struct `models.AccessTokenClaims`: its own `UserID` and `ExpiresAt` fields and the
embedded `jwt.RegisteredClaims`. -/
structure AccessTokenClaims where
  UserID : UUID
  ExpiresAt : Int
  RegisteredClaims : jwt.RegisteredClaims
  deriving DecidableEq, Repr

/-- Struct `service.WebhookRequest`, with its JSON keys `new_ip`, `guid`, `ts`. -/
structure WebhookRequest where
  NewIP : String
  UserID : UUID
  Ts : Int
  deriving DecidableEq, Repr

/-! ## JSON, as far as the claims codec needs it -/

/-- A JSON value.  `other` stands for every value that is neither null, an integer
number nor a string. -/
inductive JSONValue where
  | null
  | num (n : Int)
  | str (s : String)
  | other
  deriving DecidableEq, Repr

/-- A JSON object in document order. -/
abbrev JSONObject := List (String × JSONValue)

/-- Optional member of a JSON object for a `*NumericDate` field tagged `omitempty`. -/
def numericDateMember (key : String) : Option Int → JSONObject
  | none => []
  | some t => [(key, JSONValue.num t)]

/-- Go `json.Marshal` of a `models.AccessTokenClaims`.  Two fields carry the key
`exp`: the struct's own `ExpiresAt int64` and the `ExpiresAt` promoted from the embedded
`jwt.RegisteredClaims`.  encoding/json keeps the least nested one, so the member `exp`
is written from the struct's own field and the embedded one is not written. -/
def AccessTokenClaims.Marshal (c : AccessTokenClaims) : JSONObject :=
  [("user_id", JSONValue.str c.UserID.String), ("exp", JSONValue.num c.ExpiresAt)]
    ++ numericDateMember "nbf" c.RegisteredClaims.NotBefore
    ++ numericDateMember "iat" c.RegisteredClaims.IssuedAt

/-- The member `user_id` stored into the `UserID uuid.UUID` field: a JSON string goes
through `UUID.UnmarshalText`, that is `uuid.ParseBytes`, whose error is the error of the
decoder. -/
def AccessTokenClaims.setUserID (c : AccessTokenClaims) : JSONValue → Except Err AccessTokenClaims
  | .str s =>
      match uuid.ParseBytes (utf8 s) with
      | .error e => .error e
      | .ok id => .ok { c with UserID := id }
  | .null => .ok c
  | .num _ => .error (.foreign "json: cannot unmarshal number into Go struct field user_id")
  | .other => .error (.foreign "json: cannot unmarshal into Go struct field user_id")

/-- The member `exp` stored into the struct's own `ExpiresAt int64` field. -/
def AccessTokenClaims.setExp (c : AccessTokenClaims) : JSONValue → Except Err AccessTokenClaims
  | .num n => .ok { c with ExpiresAt := n }
  | .null => .ok c
  | .str _ => .error (.foreign "json: cannot unmarshal string into Go struct field exp")
  | .other => .error (.foreign "json: cannot unmarshal into Go struct field exp")

/-- The member `nbf` stored into the embedded `NotBefore *NumericDate` field. -/
def AccessTokenClaims.setNbf (c : AccessTokenClaims) : JSONValue → Except Err AccessTokenClaims
  | .num n => .ok { c with RegisteredClaims := { c.RegisteredClaims with NotBefore := some n } }
  | .null => .ok { c with RegisteredClaims := { c.RegisteredClaims with NotBefore := none } }
  | .str _ => .error (.foreign "json: cannot unmarshal string into Go struct field nbf")
  | .other => .error (.foreign "json: cannot unmarshal into Go struct field nbf")

/-- The member `iat` stored into the embedded `IssuedAt *NumericDate` field. -/
def AccessTokenClaims.setIat (c : AccessTokenClaims) : JSONValue → Except Err AccessTokenClaims
  | .num n => .ok { c with RegisteredClaims := { c.RegisteredClaims with IssuedAt := some n } }
  | .null => .ok { c with RegisteredClaims := { c.RegisteredClaims with IssuedAt := none } }
  | .str _ => .error (.foreign "json: cannot unmarshal string into Go struct field iat")
  | .other => .error (.foreign "json: cannot unmarshal into Go struct field iat")

/-- One member of the payload stored into a `models.AccessTokenClaims` by
`json.Unmarshal`.  By the same dominance rule the member `exp` is stored into the
struct's own `ExpiresAt`; the embedded `RegisteredClaims.ExpiresAt` is never assigned.
A value of the wrong JSON type is an unmarshal error; an unknown member is skipped. -/
def AccessTokenClaims.setMember (c : AccessTokenClaims) (key : String) (v : JSONValue) :
    Except Err AccessTokenClaims :=
  if key = "user_id" then c.setUserID v
  else if key = "exp" then c.setExp v
  else if key = "nbf" then c.setNbf v
  else if key = "iat" then c.setIat v
  else .ok c

/-- Go `json.Unmarshal(payload, &claims)`, member by member in document order. -/
def AccessTokenClaims.Unmarshal : JSONObject → AccessTokenClaims → Except Err AccessTokenClaims
  | [], c => .ok c
  | (k, v) :: rest, c =>
      match AccessTokenClaims.setMember c k v with
      | .error e => .error e
      | .ok c1 => AccessTokenClaims.Unmarshal rest c1

/-- The zero value `&models.AccessTokenClaims{}` handed to the parser. -/
def AccessTokenClaims.zero : AccessTokenClaims :=
  { UserID := uuid.Nil, ExpiresAt := 0,
    RegisteredClaims := { ExpiresAt := none, NotBefore := none, IssuedAt := none } }

/-! ## Keyed and salted primitives -/

/-- The cryptographic primitives, as functions.
* `hmac hash key header payload` is the HMAC digest, under the named hash, of the signing
  string `base64url(header) + "." + base64url(payload)`.
* `GenerateFromPassword salt password` is `bcrypt.GenerateFromPassword(password,
  bcrypt.DefaultCost)` when the salt drawn is `salt`: the hash, or the text of the
  library's error.
* `CompareHashAndPassword hash password` is true when
  `bcrypt.CompareHashAndPassword(hash, password)` returns nil. -/
structure Crypto where
  hmac : String → String → JSONObject → JSONObject → String
  GenerateFromPassword : String → String → Except String String
  CompareHashAndPassword : String → String → Bool

/-! ## Access token codec (golang-jwt v5, as driven by the service) -/

/-- A token string as the JWT parser sees it: either text that does not split into
three base64url segments with JSON in the first two, or the decoded segments. -/
inductive TokenString where
  | garbage (text : String)
  | compact (header payload : JSONObject) (signature : String)
  deriving DecidableEq, Repr

/-- The signing method families registered in golang-jwt. -/
inductive jwt.SigningMethod where
  | HMAC (hash : String)
  | RSA (hash : String)
  | RSAPSS (hash : String)
  | ECDSA (hash : String)
  | Ed25519
  | none
  deriving DecidableEq, Repr

/-- Go `jwt.GetSigningMethod(alg)`: the registry of signing methods by `alg` name. -/
def jwt.GetSigningMethod (alg : String) : Option jwt.SigningMethod :=
  if alg = "HS256" then some (.HMAC "SHA256")
  else if alg = "HS384" then some (.HMAC "SHA384")
  else if alg = "HS512" then some (.HMAC "SHA512")
  else if alg = "RS256" then some (.RSA "SHA256")
  else if alg = "RS384" then some (.RSA "SHA384")
  else if alg = "RS512" then some (.RSA "SHA512")
  else if alg = "PS256" then some (.RSAPSS "SHA256")
  else if alg = "PS384" then some (.RSAPSS "SHA384")
  else if alg = "PS512" then some (.RSAPSS "SHA512")
  else if alg = "ES256" then some (.ECDSA "SHA256")
  else if alg = "ES384" then some (.ECDSA "SHA384")
  else if alg = "ES512" then some (.ECDSA "SHA512")
  else if alg = "EdDSA" then some .Ed25519
  else if alg = "none" then some .none
  else Option.none

/-- The type assertion `token.Method.(*jwt.SigningMethodHMAC)`. -/
def jwt.SigningMethod.isHMAC : jwt.SigningMethod → Bool
  | .HMAC _ => true
  | _ => false

/-- Go `token.Header["alg"].(string)`: the last member `alg`, when it is a string. -/
def jwt.headerAlg (header : JSONObject) : Option String :=
  match header.reverse.lookup "alg" with
  | some (.str s) => some s
  | _ => Option.none

/-- Struct `jwt.Token` after parsing. -/
structure jwt.Token where
  Header : JSONObject
  Method : jwt.SigningMethod
  Claims : AccessTokenClaims
  Signature : String
  Valid : Bool
  deriving DecidableEq, Repr

/-- Go `token.Method.Verify(signingString, sig, key)` with a `[]byte` key, which is
what the service's key function returns.  Every method other than HMAC refuses a
`[]byte` key. -/
def jwt.SigningMethod.Verify (C : Crypto) (m : jwt.SigningMethod)
    (header payload : JSONObject) (sig key : String) : Except Err Unit :=
  match m with
  | .HMAC hash =>
      if C.hmac hash key header payload = sig then .ok () else .error jwt.ErrSignatureInvalid
  | _ => .error jwt.ErrInvalidKeyType

/-- Go `jwt.Validator.Validate(claims)` with the default options (no leeway, `exp` not
required, `iat` not verified, no expected audience, issuer or subject).  The claims type
has no `Validate` method of its own.  The expiry and not-before are read through
`GetExpirationTime` and `GetNotBefore`, methods promoted from the embedded
`jwt.RegisteredClaims`, so they read the embedded fields. -/
def jwt.Validate (now : Time) (claims : AccessTokenClaims) : Except Err Unit :=
  let expErr : Option Err :=
    match claims.RegisteredClaims.ExpiresAt with
    | Option.none => Option.none
    | some exp => if Time.Before now (Time.ofUnix exp) then Option.none else some jwt.ErrTokenExpired
  let nbfErr : Option Err :=
    match claims.RegisteredClaims.NotBefore with
    | Option.none => Option.none
    | some nbf => if Time.Before now (Time.ofUnix nbf) then some jwt.ErrTokenNotValidYet else Option.none
  match expErr, nbfErr with
  | Option.none, Option.none => .ok ()
  | some e, Option.none => .error e
  | Option.none, some e => .error e
  | some e1, some e2 => .error (.errorf2 "" e1 e2)

/-- Go `jwt.ParseWithClaims(tokenStr, &models.AccessTokenClaims{}, keyFunc)` with a
default parser, evaluated at clock value `now`. -/
def jwt.ParseWithClaims (C : Crypto) (now : Time) (tokenStr : TokenString)
    (keyFunc : jwt.Token → Except Err String) : Except Err jwt.Token :=
  match tokenStr with
  | .garbage _ => .error (.errorf "token contains an invalid number of segments" jwt.ErrTokenMalformed)
  | .compact header payload signature =>
    match AccessTokenClaims.Unmarshal payload AccessTokenClaims.zero with
    | .error e => .error (.errorf2 "could not JSON decode claim" jwt.ErrTokenMalformed e)
    | .ok claims =>
      match jwt.headerAlg header with
      | Option.none => .error (.errorf "signing method (alg) is unspecified" jwt.ErrTokenUnverifiable)
      | some alg =>
        match jwt.GetSigningMethod alg with
        | Option.none => .error (.errorf "signing method (alg) is unavailable" jwt.ErrTokenUnverifiable)
        | some method =>
          let token : jwt.Token :=
            { Header := header, Method := method, Claims := claims,
              Signature := signature, Valid := false }
          match keyFunc token with
          | .error e => .error (.errorf2 "error while executing keyfunc" jwt.ErrTokenUnverifiable e)
          | .ok key =>
            match jwt.SigningMethod.Verify C method header payload signature key with
            | .error e => .error (.errorf2 "" jwt.ErrTokenSignatureInvalid e)
            | .ok _ =>
              match jwt.Validate now claims with
              | .error e => .error (.errorf2 "" jwt.ErrTokenInvalidClaims e)
              | .ok _ => .ok { token with Valid := true }

/-- Construction `jwt.NewWithClaims(jwt.SigningMethodHS512, claims).SignedString(key)`. -/
def jwt.SignedString (C : Crypto) (claims : AccessTokenClaims) (key : String) : TokenString :=
  let header : JSONObject := [("alg", JSONValue.str "HS512"), ("typ", JSONValue.str "JWT")]
  let payload := claims.Marshal
  .compact header payload (C.hmac "SHA512" key header payload)

/-! ## Session store (`internal/repository`) -/

/-- Interface `repository.Repository` over a store state `σ`, restricted to the methods
the service calls.  Reads return a result; writes return a result and the next state. -/
structure Repository (σ : Type) where
  GetUserByID : σ → UUID → Except Err User
  CreateRefreshToken : σ → RefreshToken → Except Err Unit × σ
  InvalidateRefreshToken : σ → String → Except Err Unit × σ
  InvalidateAllUserTokens : σ → UUID → Except Err Unit × σ
  GetValidUserRefreshTokens : σ → UUID → Except Err (List RefreshToken)

/-- The two tables the Postgres store reads and writes. -/
structure DB where
  users : List User
  refresh_tokens : List RefreshToken
  deriving DecidableEq, Repr

/-- Driver errors of one service call: for each store method, the text of the pgx
error its query fails with, or `none` when the query runs.  A failed query changes no
row. -/
structure Faults where
  GetUserByID : Option String
  CreateRefreshToken : Option String
  InvalidateRefreshToken : Option String
  InvalidateAllUserTokens : Option String
  GetValidUserRefreshTokens : Option String
  deriving DecidableEq, Repr

/-- No query fails. -/
def Faults.healthy : Faults :=
  { GetUserByID := none, CreateRefreshToken := none, InvalidateRefreshToken := none,
    InvalidateAllUserTokens := none, GetValidUserRefreshTokens := none }

/-- Method `Postgres.GetUserByID`: no row is `er.ErrNotFound`. -/
def Postgres.GetUserByID (f : Faults) (db : DB) (id : UUID) : Except Err User :=
  match f.GetUserByID with
  | some e => .error (.errorf ("failed to get user by id " ++ id.String) (.foreign e))
  | none =>
    match db.users.find? (fun u => decide (u.ID = id)) with
    | none => .error er.ErrNotFound
    | some user => .ok user

/-- Statement `INSERT INTO refresh_tokens (user_id, token_hash, user_agent, ip,
issued_at, expires_at, is_valid) VALUES (...)`: every column but `id`, which the table
numbers serially. -/
def DB.insert (db : DB) (token : RefreshToken) : DB :=
  { db with
    refresh_tokens := db.refresh_tokens ++ [{ token with ID := db.refresh_tokens.length + 1 }] }

/-- Statement `UPDATE refresh_tokens SET is_valid = false WHERE token_hash = $1`. -/
def DB.invalidateHash (db : DB) (tokenHash : String) : DB :=
  { db with
    refresh_tokens := db.refresh_tokens.map fun t =>
      if t.TokenHash = tokenHash then { t with IsValid := false } else t }

/-- Statement `UPDATE refresh_tokens SET is_valid = false WHERE user_id = $1`. -/
def DB.invalidateUser (db : DB) (userID : UUID) : DB :=
  { db with
    refresh_tokens := db.refresh_tokens.map fun t =>
      if t.UserID = userID then { t with IsValid := false } else t }

/-- Method `Postgres.CreateRefreshToken`. -/
def Postgres.CreateRefreshToken (f : Faults) (db : DB) (token : RefreshToken) :
    Except Err Unit × DB :=
  match f.CreateRefreshToken with
  | some e =>
      (.error (.errorf ("failed to create refresh token for user " ++ token.UserID.String)
          (.foreign e)), db)
  | none => (.ok (), db.insert token)

/-- Method `Postgres.InvalidateRefreshToken`: the UPDATE by hash, and `er.ErrNotFound`
when it affected no row. -/
def Postgres.InvalidateRefreshToken (f : Faults) (db : DB) (tokenHash : String) :
    Except Err Unit × DB :=
  match f.InvalidateRefreshToken with
  | some e => (.error (.errorf "failed to invalidate refresh token" (.foreign e)), db)
  | none =>
    if (db.refresh_tokens.filter fun t => decide (t.TokenHash = tokenHash)).length = 0 then
      (.error er.ErrNotFound, db.invalidateHash tokenHash)
    else (.ok (), db.invalidateHash tokenHash)

/-- Method `Postgres.InvalidateAllUserTokens`: the UPDATE by user. -/
def Postgres.InvalidateAllUserTokens (f : Faults) (db : DB) (userID : UUID) :
    Except Err Unit × DB :=
  match f.InvalidateAllUserTokens with
  | some e => (.error (.errorf ("failed to invalidate all tokens for user " ++ userID.String)
      (.foreign e)), db)
  | none => (.ok (), db.invalidateUser userID)

/-- The WHERE clause of `GetValidUserRefreshTokens`:
`user_id = $1 AND is_valid = true AND expires_at > NOW()`. -/
def RefreshToken.isLive (now : Time) (userID : UUID) (t : RefreshToken) : Bool :=
  decide (t.UserID = userID) && t.IsValid && decide (t.ExpiresAt > now)

/-- Method `Postgres.GetValidUserRefreshTokens` when the database clock reads `now`;
rows come back in table order. -/
def Postgres.GetValidUserRefreshTokens (f : Faults) (now : Time) (db : DB) (userID : UUID) :
    Except Err (List RefreshToken) :=
  match f.GetValidUserRefreshTokens with
  | some e =>
      .error (.errorf ("failed to get valid refresh tokens for user " ++ userID.String)
          (.foreign e))
  | none => .ok (db.refresh_tokens.filter (RefreshToken.isLive now userID))

/-- The Postgres store as a `Repository`, for one service call with driver errors `f`
and database clock `now`. -/
def Postgres (f : Faults) (now : Time) : Repository DB :=
  { GetUserByID := Postgres.GetUserByID f
    CreateRefreshToken := Postgres.CreateRefreshToken f
    InvalidateRefreshToken := Postgres.InvalidateRefreshToken f
    InvalidateAllUserTokens := Postgres.InvalidateAllUserTokens f
    GetValidUserRefreshTokens := Postgres.GetValidUserRefreshTokens f now }

/-! ## The world of one service call -/

/-- Everything outside the service that one call observes: the store, the clock, the
random source (`crypto/rand`), the salt bcrypt draws, and the answer of the webhook
endpoint (the text of a transport error, or an HTTP status code). -/
structure Env (σ : Type) where
  repo : Repository σ
  now : Time
  randErr : Option String
  randByte : Nat → Fin 256
  salt : String
  post : WebhookRequest → Except String Nat

/-- Calls made to collaborators, in call order. -/
inductive Event where
  | GetUserByID (id : UUID)
  | CreateRefreshToken (token : RefreshToken)
  | InvalidateRefreshToken (tokenHash : String)
  | InvalidateAllUserTokens (userID : UUID)
  | GetValidUserRefreshTokens (userID : UUID)
  | Post (req : WebhookRequest)
  | GenerateTokens (userID : UUID) (userAgent ip : String)
  deriving DecidableEq, Repr

/-- What a service call leaves behind: its return value, the store state and the calls
it made. -/
structure Outcome (σ α : Type) where
  result : Except Err α
  state : σ
  trace : List Event

/-! ## Base64 (`encoding/base64`, `RawURLEncoding`) -/

/-- The URL-safe alphabet `encodeURL`. -/
def base64.encodeURL : List Char :=
  "ABCDEFGHIJKLMNOPQRSTUVWXYZabcdefghijklmnopqrstuvwxyz0123456789-_".toList

/-- The character of a 6-bit value. -/
def base64.digit (v : Nat) : Char := base64.encodeURL.getD (v % 64) 'A'

/-- Unpadded encoding: three bytes to four characters, a trailing byte to two, two
trailing bytes to three. -/
def base64.encode : List (Fin 256) → List Char
  | a :: b :: c :: rest =>
      let v := a.val * 65536 + b.val * 256 + c.val
      base64.digit (v / 262144) :: base64.digit (v / 4096) :: base64.digit (v / 64)
        :: base64.digit v :: base64.encode rest
  | [a, b] =>
      let v := a.val * 65536 + b.val * 256
      [base64.digit (v / 262144), base64.digit (v / 4096), base64.digit (v / 64)]
  | [a] =>
      let v := a.val * 65536
      [base64.digit (v / 262144), base64.digit (v / 4096)]
  | [] => []

/-- Go `base64.RawURLEncoding.EncodeToString`. -/
def base64.RawURLEncoding.EncodeToString (b : List (Fin 256)) : String :=
  String.mk (base64.encode b)

/-! ## The service (`internal/service/service.go`) -/

/-- Struct `service.Service` without its collaborators (store and HTTP client), which
are supplied per call by `Env`. -/
structure Service where
  jwtSecret : String
  accessTTL : Duration
  refreshTTL : Duration
  deriving DecidableEq, Repr

/-- Method `Service.generateAccessToken`. -/
def Service.generateAccessToken (C : Crypto) (s : Service) (userID : UUID) (expiresAt : Time) :
    Except Err TokenString :=
  let claims : AccessTokenClaims :=
    { UserID := userID
      ExpiresAt := expiresAt.Unix
      RegisteredClaims :=
        { ExpiresAt := some expiresAt.Unix, NotBefore := Option.none, IssuedAt := Option.none } }
  .ok (jwt.SignedString C claims s.jwtSecret)

/-- The key function closure of `Service.parseAccessToken`. -/
def Service.keyFunc (s : Service) (token : jwt.Token) : Except Err String :=
  if token.Method.isHMAC then .ok s.jwtSecret
  else .error (.foreign ("unexpected signing method: " ++ (jwt.headerAlg token.Header).getD ""))

/-- Method `Service.parseAccessToken`, evaluated at clock value `now`. -/
def Service.parseAccessToken (C : Crypto) (s : Service) (now : Time) (tokenStr : TokenString) :
    Except Err AccessTokenClaims :=
  match jwt.ParseWithClaims C now tokenStr s.keyFunc with
  | .error err => .error (.errorf "failed to parse access token" err)
  | .ok token =>
      if !token.Valid then .error er.ErrInvalidToken
      else .ok token.Claims

/-- Method `Service.GetCurrentUserID`, evaluated at clock value `now`. -/
def Service.GetCurrentUserID (C : Crypto) (s : Service) (now : Time) (accessToken : TokenString) :
    Except Err UUID :=
  match s.parseAccessToken C now accessToken with
  | .error err =>
      if errors.Is err er.ErrInvalidToken then .error er.ErrInvalidToken
      else .error (.errorf "failed to parse access token" err)
  | .ok claims => .ok claims.UserID

/-- Function `generateRandomBase64`. -/
def generateRandomBase64 {σ : Type} (env : Env σ) (n : Nat) : Except Err String :=
  match env.randErr with
  | some e => .error (.errorf "failed to generate random bytes" (.foreign e))
  | none => .ok (base64.RawURLEncoding.EncodeToString ((List.range n).map env.randByte))

/-- The request body built by `Service.Webhook`. -/
def Service.webhookRequest {σ : Type} (env : Env σ) (userID : UUID) (ip : String) :
    WebhookRequest :=
  { NewIP := ip, UserID := userID, Ts := env.now.Unix }

/-- Method `Service.Webhook`: one POST; a transport error or a status outside 200..299
is an error. -/
def Service.Webhook {σ : Type} (env : Env σ) (userID : UUID) (ip : String) : Except Err Unit :=
  match env.post (Service.webhookRequest env userID ip) with
  | .error err => .error (.errorf "failed to send webhook" (.foreign err))
  | .ok status =>
      if status < 200 ∨ status ≥ 300 then
        .error (.foreign ("webhook returned non-success status: " ++ toString status))
      else .ok ()

/-- Method `Service.GenerateTokens`. -/
def Service.GenerateTokens {σ : Type} (C : Crypto) (s : Service) (env : Env σ) (db : σ)
    (userID : UUID) (userAgent ip : String) : Outcome σ (TokenString × String) :=
  let t0 : List Event := [.GenerateTokens userID userAgent ip, .GetUserByID userID]
  match env.repo.GetUserByID db userID with
  | .error err =>
      if errors.Is err er.ErrNotFound then ⟨.error er.ErrNotFound, db, t0⟩
      else ⟨.error (.errorf ("failed to get user by id " ++ userID.String) err), db, t0⟩
  | .ok _ =>
    let expiresAt := env.now.Add s.accessTTL
    match s.generateAccessToken C userID expiresAt with
    | .error err => ⟨.error (.errorf "failed to generate access token" err), db, t0⟩
    | .ok accessToken =>
      match generateRandomBase64 env 32 with
      | .error err => ⟨.error (.errorf "failed to generate random refresh token" err), db, t0⟩
      | .ok refreshTokenRaw =>
        match C.GenerateFromPassword env.salt refreshTokenRaw with
        | .error err => ⟨.error (.errorf "failed to hash refresh token" (.foreign err)), db, t0⟩
        | .ok refreshTokenHash =>
          let rt : RefreshToken :=
            { ID := 0
              UserID := userID
              TokenHash := refreshTokenHash
              UserAgent := userAgent
              IP := ip
              IssuedAt := env.now
              ExpiresAt := env.now.Add s.refreshTTL
              IsValid := true }
          match env.repo.CreateRefreshToken db rt with
          | (.error err, db1) =>
              ⟨.error (.errorf "failed to create refresh token" err), db1,
                t0 ++ [.CreateRefreshToken rt]⟩
          | (.ok _, db1) =>
              ⟨.ok (accessToken, refreshTokenRaw), db1, t0 ++ [.CreateRefreshToken rt]⟩

/-- The scan of `Service.RefreshTokens`: the first fetched session whose hash verifies
against the presented secret. -/
def Service.findMatch (C : Crypto) (refreshTokens : List RefreshToken) (refreshTokenRaw : String) :
    Option RefreshToken :=
  refreshTokens.find? fun t => C.CompareHashAndPassword t.TokenHash refreshTokenRaw

/-- Method `Service.RefreshTokens`. -/
def Service.RefreshTokens {σ : Type} (C : Crypto) (s : Service) (env : Env σ) (db : σ)
    (userID : UUID) (refreshTokenRaw userAgent ip : String) : Outcome σ (TokenString × String) :=
  let t0 : List Event := [.GetValidUserRefreshTokens userID]
  match env.repo.GetValidUserRefreshTokens db userID with
  | .error err =>
      if errors.Is err er.ErrNotFound then ⟨.error er.ErrNotFound, db, t0⟩
      else
        ⟨.error (.errorf ("failed to get valid refresh tokens for user " ++ userID.String) err),
          db, t0⟩
  | .ok refreshTokens =>
    match Service.findMatch C refreshTokens refreshTokenRaw with
    | none => ⟨.error er.ErrInvalidToken, db, t0⟩
    | some refreshToken =>
      if refreshToken.UserAgent ≠ userAgent then
        ⟨.error er.ErrUserAgentMismatch, (env.repo.InvalidateAllUserTokens db refreshToken.UserID).2,
          t0 ++ [.InvalidateAllUserTokens refreshToken.UserID]⟩
      else
        let hook : Except Err Unit × List Event :=
          if refreshToken.IP ≠ ip then
            (Service.Webhook env userID ip, [.Post (Service.webhookRequest env userID ip)])
          else (.ok (), [])
        match hook.1 with
        | .error err => ⟨.error (.errorf "failed to send webhook" err), db, t0 ++ hook.2⟩
        | .ok _ =>
          let db1 := (env.repo.InvalidateRefreshToken db refreshToken.TokenHash).2
          let t1 := t0 ++ hook.2 ++ [.InvalidateRefreshToken refreshToken.TokenHash]
          let issued := s.GenerateTokens C env db1 refreshToken.UserID userAgent ip
          match issued.result with
          | .error err =>
              ⟨.error (.errorf "failed to generate new tokens" err), issued.state, t1 ++ issued.trace⟩
          | .ok pair => ⟨.ok pair, issued.state, t1 ++ issued.trace⟩

/-- Method `Service.Logout`, evaluated at clock value `env.now`. -/
def Service.Logout {σ : Type} (C : Crypto) (s : Service) (env : Env σ) (db : σ)
    (accessToken : TokenString) : Outcome σ Unit :=
  match s.parseAccessToken C env.now accessToken with
  | .error err =>
      if errors.Is err er.ErrInvalidToken then ⟨.error er.ErrInvalidToken, db, []⟩
      else ⟨.error (.errorf "failed to parse access token" err), db, []⟩
  | .ok claims =>
    match env.repo.InvalidateAllUserTokens db claims.UserID with
    | (.error err, db1) =>
        ⟨.error (.errorf "failed to invalidate all user tokens" err), db1,
          [.InvalidateAllUserTokens claims.UserID]⟩
    | (.ok _, db1) => ⟨.ok (), db1, [.InvalidateAllUserTokens claims.UserID]⟩

/-- The store and world of one call against Postgres: driver errors `f`, one clock
value for the service and the database, random bytes, bcrypt salt, webhook answer. -/
def world (f : Faults) (now : Time) (randErr : Option String) (randByte : Nat → Fin 256)
    (salt : String) (post : WebhookRequest → Except String Nat) : Env DB :=
  { repo := Postgres f now, now := now, randErr := randErr, randByte := randByte,
    salt := salt, post := post }

/-! ## Names for the values the service builds -/

/-- The claims `Service.generateAccessToken` signs. -/
def issuedClaims (userID : UUID) (expiresAt : Time) : AccessTokenClaims :=
  { UserID := userID
    ExpiresAt := expiresAt.Unix
    RegisteredClaims :=
      { ExpiresAt := some expiresAt.Unix, NotBefore := Option.none, IssuedAt := Option.none } }

/-- The access token `Service.GenerateTokens` returns at clock value `now`. -/
def issuedAccessToken (C : Crypto) (s : Service) (now : Time) (userID : UUID) : TokenString :=
  jwt.SignedString C (issuedClaims userID (now.Add s.accessTTL)) s.jwtSecret

/-- The refresh secret `Service.GenerateTokens` draws from random bytes `randByte`. -/
def refreshSecret (randByte : Nat → Fin 256) : String :=
  base64.RawURLEncoding.EncodeToString ((List.range 32).map randByte)

/-- The session `Service.GenerateTokens` hands to `CreateRefreshToken`. -/
def newSession (s : Service) (now : Time) (userID : UUID) (hash userAgent ip : String) :
    RefreshToken :=
  { ID := 0, UserID := userID, TokenHash := hash, UserAgent := userAgent, IP := ip,
    IssuedAt := now, ExpiresAt := now.Add s.refreshTTL, IsValid := true }

/-- The calls `Service.RefreshTokens` makes before re-issuing, for matched session `t`. -/
def rotateTrace {σ : Type} (env : Env σ) (userID : UUID) (ip : String) (t : RefreshToken) :
    List Event :=
  [Event.GetValidUserRefreshTokens userID]
    ++ (if t.IP ≠ ip then [Event.Post (Service.webhookRequest env userID ip)] else [])
    ++ [Event.InvalidateRefreshToken t.TokenHash]

/-- The calls of a successful `Service.GenerateTokens`. -/
def issueTrace (s : Service) (now : Time) (userID : UUID) (hash userAgent ip : String) :
    List Event :=
  [Event.GenerateTokens userID userAgent ip, Event.GetUserByID userID,
   Event.CreateRefreshToken (newSession s now userID hash userAgent ip)]

/-- The webhook requests among the calls of a trace. -/
def posts : List Event → List WebhookRequest
  | [] => []
  | Event.Post req :: rest => req :: posts rest
  | Event.GetUserByID _ :: rest => posts rest
  | Event.CreateRefreshToken _ :: rest => posts rest
  | Event.InvalidateRefreshToken _ :: rest => posts rest
  | Event.InvalidateAllUserTokens _ :: rest => posts rest
  | Event.GetValidUserRefreshTokens _ :: rest => posts rest
  | Event.GenerateTokens _ _ _ :: rest => posts rest

/-- The issuer invocations among the calls of a trace. -/
def issues : List Event → List Event
  | [] => []
  | Event.GenerateTokens u a i :: rest => Event.GenerateTokens u a i :: issues rest
  | Event.Post _ :: rest => issues rest
  | Event.GetUserByID _ :: rest => issues rest
  | Event.CreateRefreshToken _ :: rest => issues rest
  | Event.InvalidateRefreshToken _ :: rest => issues rest
  | Event.InvalidateAllUserTokens _ :: rest => issues rest
  | Event.GetValidUserRefreshTokens _ :: rest => issues rest

/-! ## Terminal states of a rotation -/

/-- The outcome kinds of a rotation as the transport layer can tell them apart. -/
inductive Terminal where
  | Success
  | NotFound
  | InvalidToken
  | UserAgentMismatch
  | NotificationFailure
  | InternalFailure
  deriving DecidableEq, Repr

/-- The error `Service.RefreshTokens` builds when `Service.Webhook` fails:
`fmt.Errorf("failed to send webhook: %w", err)`. -/
def Err.isWebhookFailure : Err → Bool
  | .errorf msg _ => decide (msg = "failed to send webhook")
  | .errorf2 _ _ _ => false
  | .sentinel _ _ => false
  | .foreign _ => false

/-- The kind of a result, tested in the order of the `RefreshTokens` handler
(`errors.Is` against `er.ErrNotFound`, `er.ErrInvalidToken`, `er.ErrUserAgentMismatch`);
what is left is a notification failure when it is the webhook error and an internal
failure otherwise. -/
def terminal {α : Type} : Except Err α → Terminal
  | .ok _ => .Success
  | .error e =>
    if errors.Is e er.ErrNotFound then .NotFound
    else if errors.Is e er.ErrInvalidToken then .InvalidToken
    else if errors.Is e er.ErrUserAgentMismatch then .UserAgentMismatch
    else if e.isWebhookFailure then .NotificationFailure
    else .InternalFailure

/-- Whether the webhook endpoint accepts a request: an answer with a 2xx status. -/
def accepted (post : WebhookRequest → Except String Nat) (req : WebhookRequest) : Bool :=
  match post req with
  | .ok status => decide (200 ≤ status ∧ status < 300)
  | .error _ => false

/-- The terminal state of the issuer (spec 4.2) against Postgres, read off the store and
the world: `NotFound` when the user lookup finds no row, `InternalFailure` when a query,
the random source or the hash fails, `Success` otherwise. -/
def issueKind (C : Crypto) (f : Faults) (randErr : Option String) (randByte : Nat → Fin 256)
    (salt : String) (db : DB) (userID : UUID) : Terminal :=
  match f.GetUserByID with
  | some _ => .InternalFailure
  | none =>
    match db.users.find? (fun u => decide (u.ID = userID)) with
    | none => .NotFound
    | some _ =>
      match randErr with
      | some _ => .InternalFailure
      | none =>
        match C.GenerateFromPassword salt (base64.RawURLEncoding.EncodeToString
            ((List.range 32).map randByte)) with
        | .error _ => .InternalFailure
        | .ok _ =>
          match f.CreateRefreshToken with
          | some _ => .InternalFailure
          | none => .Success

/-- The terminal state of the rotation state machine (spec 4.3, steps 1 to 6) against
Postgres, with the issuer's `NotFound` added to the five states the spec lists. -/
def rotateKind (C : Crypto) (f : Faults) (now : Time) (randErr : Option String)
    (randByte : Nat → Fin 256) (salt : String) (post : WebhookRequest → Except String Nat)
    (db : DB) (userID : UUID) (raw userAgent ip : String) : Terminal :=
  match f.GetValidUserRefreshTokens with
  | some _ => .InternalFailure
  | none =>
    match (db.refresh_tokens.filter (RefreshToken.isLive now userID)).find?
        (fun t => C.CompareHashAndPassword t.TokenHash raw) with
    | none => .InvalidToken
    | some t =>
      if t.UserAgent ≠ userAgent then .UserAgentMismatch
      else if t.IP ≠ ip ∧ accepted post { NewIP := ip, UserID := userID, Ts := now.Unix } = false
      then .NotificationFailure
      else issueKind C f randErr randByte salt db t.UserID

/-- The user `00000000-0000-0000-0000-000000000001`. -/
def u1 : UUID := ⟨[0, 0, 0, 0, 0, 0, 0, 0, 0, 0, 0, 0, 0, 0, 0, 1], rfl⟩

/-- The user `00000000-0000-0000-0000-000000000002`. -/
def u2 : UUID := ⟨[0, 0, 0, 0, 0, 0, 0, 0, 0, 0, 0, 0, 0, 0, 0, 2], rfl⟩

/-- A store holding a live session of `u1` and no user row for `u1`. -/
def orphanDB : DB :=
  { users := []
    refresh_tokens :=
      [{ ID := 1, UserID := u1, TokenHash := "AQEBAQEBAQEBAQEBAQEBAQEBAQEBAQEBAQEBAQEBAQE$s0",
         UserAgent := "Mozilla", IP := "1.2.3.4", IssuedAt := 0, ExpiresAt := 3600000000000,
         IsValid := true }] }

/-! ## A small concrete instance -/

/-- A stand-in for the primitives: a digest that spells out its inputs, and a hash
that writes the salt behind the password and a separator. -/
def exampleCrypto : Crypto :=
  { hmac := fun hash key _ payload => hash ++ ":" ++ key ++ ":" ++ toString payload.length
    GenerateFromPassword := fun salt p => .ok (p ++ "$" ++ salt)
    CompareHashAndPassword := fun h p => (p ++ "$").toList.isPrefixOf h.toList }

/-- A service with a one-minute access lifetime and a one-hour refresh lifetime. -/
def exampleService : Service :=
  { jwtSecret := "k", accessTTL := 60000000000, refreshTTL := 3600000000000 }

/-- A store holding user `u1` and no session. -/
def exampleDB : DB :=
  { users := [{ ID := u1, CreatedAt := 0, UpdatedAt := 0 }], refresh_tokens := [] }

/-- A healthy world at clock value `now` whose random source repeats byte `b`, whose
bcrypt salt is `salt` and whose webhook endpoint answers with status `status`. -/
def exampleWorld (now : Time) (b : Fin 256) (salt : String) (status : Nat) : Env DB :=
  world Faults.healthy now none (fun _ => b) salt (fun _ => .ok status)

/-- The refresh secret drawn when every random byte is 1. -/
def exampleSecret : String := "AQEBAQEBAQEBAQEBAQEBAQEBAQEBAQEBAQEBAQEBAQE"

/-- The store after issuing for `u1` with user-agent `Mozilla` from `1.2.3.4` at time 0. -/
def exampleIssued : DB :=
  { users := [{ ID := u1, CreatedAt := 0, UpdatedAt := 0 }]
    refresh_tokens :=
      [{ ID := 1, UserID := u1, TokenHash := "AQEBAQEBAQEBAQEBAQEBAQEBAQEBAQEBAQEBAQEBAQE$s0",
         UserAgent := "Mozilla", IP := "1.2.3.4", IssuedAt := 0, ExpiresAt := 3600000000000,
         IsValid := true }] }

/-! ## Base64 decoding (`encoding/base64`, `RawURLEncoding`) -/

/-- The 6-bit value of a character of the URL-safe alphabet, `none` for any other
character (the decode map of the encoding). -/
def base64.value (c : Char) : Option Nat :=
  if base64.encodeURL.indexOf c < 64 then some (base64.encodeURL.indexOf c) else none

/-- The low eight bits of a number, as a byte. -/
def base64.byte (n : Nat) : Fin 256 := ⟨n % 256, Nat.mod_lt n (by decide)⟩

/-- Unpadded decoding: four characters to three bytes, two trailing characters to one
byte, three to two; one trailing character, or a character outside the alphabet, is
an error. -/
def base64.decode : List Char → Option (List (Fin 256))
  | c0 :: c1 :: c2 :: c3 :: rest =>
      match base64.value c0, base64.value c1, base64.value c2, base64.value c3,
        base64.decode rest with
      | some v0, some v1, some v2, some v3, some tail =>
          let v := v0 * 262144 + v1 * 4096 + v2 * 64 + v3
          some (base64.byte (v / 65536) :: base64.byte (v / 256) :: base64.byte v :: tail)
      | _, _, _, _, _ => none
  | [c0, c1, c2] =>
      match base64.value c0, base64.value c1, base64.value c2 with
      | some v0, some v1, some v2 =>
          let v := v0 * 262144 + v1 * 4096 + v2 * 64
          some [base64.byte (v / 65536), base64.byte (v / 256)]
      | _, _, _ => none
  | [c0, c1] =>
      match base64.value c0, base64.value c1 with
      | some v0, some v1 =>
          let v := v0 * 262144 + v1 * 4096
          some [base64.byte (v / 65536)]
      | _, _ => none
  | [_] => none
  | [] => some []

/-- Go `base64.RawURLEncoding.DecodeString`. -/
def base64.RawURLEncoding.DecodeString (s : String) : Option (List (Fin 256)) :=
  base64.decode s.toList

/-- The character class `[A-Za-z0-9_-]`. -/
def base64.isURLSafe (c : Char) : Bool :=
  c.isAlphanum || c == '-' || c == '_'

/-! ## Sequences of calls -/

/-- One call of the service against Postgres, together with the world it runs in. -/
inductive Call where
  | GenerateTokens (f : Faults) (now : Time) (randErr : Option String)
      (randByte : Nat → Fin 256) (salt : String) (post : WebhookRequest → Except String Nat)
      (userID : UUID) (userAgent ip : String)
  | RefreshTokens (f : Faults) (now : Time) (randErr : Option String)
      (randByte : Nat → Fin 256) (salt : String) (post : WebhookRequest → Except String Nat)
      (userID : UUID) (refreshTokenRaw userAgent ip : String)
  | GetCurrentUserID (now : Time) (accessToken : TokenString)
  | Logout (f : Faults) (now : Time) (randErr : Option String)
      (randByte : Nat → Fin 256) (salt : String) (post : WebhookRequest → Except String Nat)
      (accessToken : TokenString)

/-- The store after one call.  `GetCurrentUserID` takes no store. -/
def Call.run (C : Crypto) (s : Service) (db : DB) : Call → DB
  | .GenerateTokens f now randErr randByte salt post userID userAgent ip =>
      (s.GenerateTokens C (world f now randErr randByte salt post) db userID userAgent ip).state
  | .RefreshTokens f now randErr randByte salt post userID raw userAgent ip =>
      (s.RefreshTokens C (world f now randErr randByte salt post) db userID raw userAgent ip).state
  | .GetCurrentUserID _ _ => db
  | .Logout f now randErr randByte salt post accessToken =>
      (s.Logout C (world f now randErr randByte salt post) db accessToken).state

/-- The store after a sequence of calls, first call first. -/
def runAll (C : Crypto) (s : Service) (db : DB) (calls : List Call) : DB :=
  calls.foldl (Call.run C s) db

/-- Session `b` is session `a` at a later time: every field but `IsValid` is the same,
and `b` is valid only if `a` was. -/
def RefreshToken.ages (a b : RefreshToken) : Prop :=
  b.ID = a.ID ∧ b.UserID = a.UserID ∧ b.TokenHash = a.TokenHash ∧ b.UserAgent = a.UserAgent
    ∧ b.IP = a.IP ∧ b.IssuedAt = a.IssuedAt ∧ b.ExpiresAt = a.ExpiresAt
    ∧ (b.IsValid = true → a.IsValid = true)

/-- Every session of `db` is still stored in `db2`, at its place, aged. -/
def DB.evolves (db db2 : DB) : Prop :=
  ∀ (i : Nat) (a : RefreshToken), db.refresh_tokens[i]? = some a →
    ∃ b, db2.refresh_tokens[i]? = some b ∧ a.ages b

/-- Every session of `db2` that `db` does not hold is valid. -/
def DB.creates (db db2 : DB) : Prop :=
  ∀ (i : Nat) (b : RefreshToken), db.refresh_tokens.length ≤ i →
    db2.refresh_tokens[i]? = some b → b.IsValid = true

/-- The store changes one call can make: none, one of the two UPDATE statements, the
INSERT of a valid session, or the UPDATE by hash followed by that INSERT. -/
inductive DB.Step : DB → DB → Prop where
  | same (db : DB) : DB.Step db db
  | user (db : DB) (userID : UUID) : DB.Step db (db.invalidateUser userID)
  | hash (db : DB) (tokenHash : String) : DB.Step db (db.invalidateHash tokenHash)
  | insert (db : DB) (token : RefreshToken) :
      token.IsValid = true → DB.Step db (db.insert token)
  | hashInsert (db : DB) (tokenHash : String) (token : RefreshToken) :
      token.IsValid = true → DB.Step db ((db.invalidateHash tokenHash).insert token)

/-- The same driver errors with both invalidation queries running. -/
def Faults.invalidating (f : Faults) : Faults :=
  { f with InvalidateRefreshToken := none, InvalidateAllUserTokens := none }

/-- A world in which only the UPDATE by hash fails. -/
def brokenHashUpdate : Faults :=
  { Faults.healthy with InvalidateRefreshToken := some "connection reset" }

/-- A world in which only the UPDATE by user fails. -/
def brokenUserUpdate : Faults :=
  { Faults.healthy with InvalidateAllUserTokens := some "connection reset" }

/-- The sessions of user `userID`, in table order. -/
def DB.sessionsOf (db : DB) (userID : UUID) : List RefreshToken :=
  db.refresh_tokens.filter fun x => decide (x.UserID = userID)

/-- A store holding users `u1` and `u2`, each with one live session. -/
def twoUsers : DB :=
  { users := [{ ID := u1, CreatedAt := 0, UpdatedAt := 0 },
              { ID := u2, CreatedAt := 0, UpdatedAt := 0 }]
    refresh_tokens :=
      [{ ID := 1, UserID := u1, TokenHash := "AQEBAQEBAQEBAQEBAQEBAQEBAQEBAQEBAQEBAQEBAQE$s0",
         UserAgent := "Mozilla", IP := "1.2.3.4", IssuedAt := 0, ExpiresAt := 3600000000000,
         IsValid := true },
       { ID := 2, UserID := u2, TokenHash := "AwMDAwMDAwMDAwMDAwMDAwMDAwMDAwMDAwMDAwMDAwM$s3",
         UserAgent := "Safari", IP := "9.9.9.9", IssuedAt := 0, ExpiresAt := 3600000000000,
         IsValid := true }] }

/-- A world in which only the INSERT fails. -/
def brokenInsert : Faults :=
  { Faults.healthy with CreateRefreshToken := some "disk full" }

/-! ## Path lemmas for `Service.RefreshTokens` -/

theorem RefreshTokens_of_no_match {σ : Type} (C : Crypto) (s : Service) (env : Env σ) (db : σ)
    (userID : UUID) (refreshTokenRaw userAgent ip : String) (ts : List RefreshToken)
    (hread : env.repo.GetValidUserRefreshTokens db userID = .ok ts)
    (hnone : Service.findMatch C ts refreshTokenRaw = none) :
    s.RefreshTokens C env db userID refreshTokenRaw userAgent ip
      = ⟨.error er.ErrInvalidToken, db, [.GetValidUserRefreshTokens userID]⟩ := by
  unfold Service.RefreshTokens
  simp only [hread, hnone]

theorem RefreshTokens_of_mismatch {σ : Type} (C : Crypto) (s : Service) (env : Env σ) (db : σ)
    (userID : UUID) (refreshTokenRaw userAgent ip : String) (ts : List RefreshToken)
    (t : RefreshToken)
    (hread : env.repo.GetValidUserRefreshTokens db userID = .ok ts)
    (hsome : Service.findMatch C ts refreshTokenRaw = some t)
    (hua : t.UserAgent ≠ userAgent) :
    s.RefreshTokens C env db userID refreshTokenRaw userAgent ip
      = ⟨.error er.ErrUserAgentMismatch, (env.repo.InvalidateAllUserTokens db t.UserID).2,
          [.GetValidUserRefreshTokens userID, .InvalidateAllUserTokens t.UserID]⟩ := by
  unfold Service.RefreshTokens
  simp only [hread, hsome, hua, ne_eq, not_false_eq_true, if_true, List.singleton_append]

theorem RefreshTokens_of_hook_error {σ : Type} (C : Crypto) (s : Service) (env : Env σ) (db : σ)
    (userID : UUID) (refreshTokenRaw userAgent ip : String) (ts : List RefreshToken)
    (t : RefreshToken)
    (err : Err)
    (hread : env.repo.GetValidUserRefreshTokens db userID = .ok ts)
    (hsome : Service.findMatch C ts refreshTokenRaw = some t)
    (hua : t.UserAgent = userAgent) (hip : t.IP ≠ ip)
    (hhook : Service.Webhook env userID ip = .error err) :
    s.RefreshTokens C env db userID refreshTokenRaw userAgent ip
      = ⟨.error (.errorf "failed to send webhook" err), db,
          [.GetValidUserRefreshTokens userID, .Post (Service.webhookRequest env userID ip)]⟩ := by
  unfold Service.RefreshTokens
  simp only [hread, hsome, hua, hip, hhook, ne_eq, not_true_eq_false, not_false_eq_true, if_true,
    if_false, List.singleton_append]

theorem RefreshTokens_of_rotate {σ : Type} (C : Crypto) (s : Service) (env : Env σ) (db : σ)
    (userID : UUID) (refreshTokenRaw userAgent ip : String) (ts : List RefreshToken)
    (t : RefreshToken)
    (hread : env.repo.GetValidUserRefreshTokens db userID = .ok ts)
    (hsome : Service.findMatch C ts refreshTokenRaw = some t)
    (hua : t.UserAgent = userAgent)
    (hhook : t.IP ≠ ip → Service.Webhook env userID ip = .ok ()) :
    s.RefreshTokens C env db userID refreshTokenRaw userAgent ip
      = ⟨match (s.GenerateTokens C env (env.repo.InvalidateRefreshToken db t.TokenHash).2
                  t.UserID userAgent ip).result with
          | .error err => .error (.errorf "failed to generate new tokens" err)
          | .ok pair => .ok pair,
         (s.GenerateTokens C env (env.repo.InvalidateRefreshToken db t.TokenHash).2
            t.UserID userAgent ip).state,
         rotateTrace env userID ip t
           ++ (s.GenerateTokens C env (env.repo.InvalidateRefreshToken db t.TokenHash).2
                t.UserID userAgent ip).trace⟩ := by
  unfold Service.RefreshTokens rotateTrace
  simp only [hread, hsome, hua]
  by_cases hip : t.IP = ip
  · simp only [hip, ne_eq, not_true_eq_false, if_false]
    cases h : (s.GenerateTokens C env (env.repo.InvalidateRefreshToken db t.TokenHash).2
                  t.UserID userAgent ip).result <;> simp
  · have hw := hhook hip
    simp only [hip, ne_eq, not_false_eq_true, if_true, hw, not_true_eq_false, if_false]
    cases h : (s.GenerateTokens C env (env.repo.InvalidateRefreshToken db t.TokenHash).2
                  t.UserID userAgent ip).result <;> simp

/-! ## The access token codec on issued tokens -/

/-! ## The text form of a `uuid.UUID` -/

theorem utf8EncodeChar_digit (v : Nat) :
    (String.utf8EncodeChar (hex.hextable v)).map UInt8.toNat = [(hex.hextable v).toNat] := by
  unfold hex.hextable
  have h : v % 16 < 16 := Nat.mod_lt _ (by decide)
  generalize v % 16 = k at h
  interval_cases k <;> decide

set_option maxRecDepth 100000 in
theorem xtob_digit (b : Fin 256) :
    uuid.xtob (hex.hextable (b.val / 16)).toNat (hex.hextable b.val).toNat = some b := by
  revert b
  decide

theorem bytes_sixteen (l : List (Fin 256)) (h : l.length = 16) :
    ∃ b0 b1 b2 b3 b4 b5 b6 b7 b8 b9 b10 b11 b12 b13 b14 b15,
      l = [b0, b1, b2, b3, b4, b5, b6, b7, b8, b9, b10, b11, b12, b13, b14, b15] := by
  match l, h with
  | [b0, b1, b2, b3, b4, b5, b6, b7, b8, b9, b10, b11, b12, b13, b14, b15], _ =>
    exact ⟨b0, b1, b2, b3, b4, b5, b6, b7, b8, b9, b10, b11, b12, b13, b14, b15, rfl⟩

theorem utf8_cons_digit (v : Nat) (cs : List Char) :
    utf8 (String.mk (hex.hextable v :: cs)) = (hex.hextable v).toNat :: utf8 (String.mk cs) := by
  unfold utf8
  simp only [String.toList, List.flatMap_cons, List.map_append, utf8EncodeChar_digit,
    List.singleton_append]

theorem utf8_cons_dash (cs : List Char) :
    utf8 (String.mk ('-' :: cs)) = 45 :: utf8 (String.mk cs) := by
  unfold utf8
  simp only [String.toList, List.flatMap_cons, List.map_append]
  rfl

theorem utf8_nil : utf8 (String.mk []) = [] := rfl

/-- The text `UUID.String` writes is read back by `uuid.ParseBytes` as the same value. -/
theorem ParseBytes_String (u : UUID) : uuid.ParseBytes (utf8 u.String) = .ok u := by
  obtain ⟨l, h⟩ := u
  obtain ⟨b0, b1, b2, b3, b4, b5, b6, b7, b8, b9, b10, b11, b12, b13, b14, b15, rfl⟩ :=
    bytes_sixteen l h
  simp only [UUID.String, List.take, List.drop, hex.Encode, List.cons_append, List.nil_append,
    utf8_cons_digit, utf8_cons_dash, utf8_nil]
  simp only [uuid.ParseBytes, List.length_cons, List.length_nil, uuid.hyphenated,
    List.getD_cons_succ, List.getD_cons_zero]
  simp [uuid.fill, xtob_digit, uuid.Nil, UUID.set]

theorem fill_error (b : List Nat) (pairs : List (Nat × Nat)) (u : UUID) (e : Err)
    (h : uuid.fill b pairs u = .error e) : e = uuid.ErrInvalidUUIDFormat := by
  induction pairs generalizing u with
  | nil => simp [uuid.fill] at h
  | cons p rest ih =>
    obtain ⟨i, x⟩ := p
    unfold uuid.fill at h
    cases hx : uuid.xtob (b.getD x 0) (b.getD (x + 1) 0) with
    | none =>
      simp only [hx, Except.error.injEq] at h
      exact h.symm
    | some v =>
      simp only [hx] at h
      exact ih _ h

theorem hyphenated_error (b : List Nat) (e : Err) (h : uuid.hyphenated b = .error e) :
    e = uuid.ErrInvalidUUIDFormat := by
  unfold uuid.hyphenated at h
  split at h
  · simp only [Except.error.injEq] at h
    exact h.symm
  · exact fill_error _ _ _ e h

theorem ParseBytes_error (b : List Nat) (e : Err) (h : uuid.ParseBytes b = .error e) :
    (∃ text, e = .foreign text) ∨ e = uuid.ErrInvalidUUIDFormat := by
  unfold uuid.ParseBytes at h
  split at h
  · exact Or.inr (hyphenated_error _ e h)
  · split at h
    · split at h
      · simp only [Except.error.injEq] at h
        exact Or.inl ⟨_, h.symm⟩
      · exact Or.inr (hyphenated_error _ e h)
    · split at h
      · exact Or.inr (hyphenated_error _ e h)
      · split at h
        · exact Or.inr (fill_error _ _ _ e h)
        · simp only [Except.error.injEq] at h
          exact Or.inl ⟨_, h.symm⟩

/-- A payload whose `user_id` is not the text of a UUID does not decode: the token is
rejected as malformed before its signing method is looked at. -/
theorem parseAccessToken_user_id_text :
    exampleService.parseAccessToken exampleCrypto 0
        (.compact [("alg", .str "none")] [("user_id", .str "u1")] "")
      = .error (.errorf "failed to parse access token"
          (.errorf2 "could not JSON decode claim" jwt.ErrTokenMalformed
            (.foreign "invalid UUID length: 2"))) := rfl

theorem headerAlg_HS512 :
    jwt.headerAlg [("alg", JSONValue.str "HS512"), ("typ", JSONValue.str "JWT")] = some "HS512" := by
  decide

theorem GetSigningMethod_HS512 : jwt.GetSigningMethod "HS512" = some (.HMAC "SHA512") := by
  decide

theorem parse_signed (C : Crypto) (s : Service) (now : Time) (userID : UUID) (expiresAt : Time) :
    s.parseAccessToken C now (jwt.SignedString C (issuedClaims userID expiresAt) s.jwtSecret)
      = .ok { UserID := userID, ExpiresAt := expiresAt.Unix,
              RegisteredClaims := { ExpiresAt := none, NotBefore := none, IssuedAt := none } } := by
  simp [Service.parseAccessToken, jwt.ParseWithClaims, jwt.SignedString, issuedClaims,
    AccessTokenClaims.Marshal, numericDateMember, AccessTokenClaims.Unmarshal,
    AccessTokenClaims.setMember, AccessTokenClaims.setUserID, AccessTokenClaims.setExp,
    AccessTokenClaims.zero, headerAlg_HS512, GetSigningMethod_HS512, ParseBytes_String,
    Service.keyFunc, jwt.SigningMethod.isHMAC, jwt.SigningMethod.Verify, jwt.Validate]

/-! ## `Service.GenerateTokens` -/

theorem GenerateTokens_access {σ : Type} (C : Crypto) (s : Service) (env : Env σ) (db : σ)
    (userID : UUID) (userAgent ip : String) (accessToken : TokenString) (refresh : String)
    (h : (s.GenerateTokens C env db userID userAgent ip).result = .ok (accessToken, refresh)) :
    accessToken = issuedAccessToken C s env.now userID := by
  unfold Service.GenerateTokens at h
  simp only [Service.generateAccessToken] at h
  split at h
  · split at h <;> simp at h
  · split at h
    · simp at h
    · split at h
      · simp at h
      · split at h
        · simp at h
        · simp only [Except.ok.injEq, Prod.mk.injEq] at h
          exact h.1.symm

theorem GenerateTokens_world (C : Crypto) (s : Service) (f : Faults) (now : Time)
    (randByte : Nat → Fin 256) (salt : String) (post : WebhookRequest → Except String Nat)
    (db : DB) (userID : UUID) (userAgent ip hash : String) (user : User)
    (hf1 : f.GetUserByID = none) (hf2 : f.CreateRefreshToken = none)
    (huser : db.users.find? (fun u => decide (u.ID = userID)) = some user)
    (hhash : C.GenerateFromPassword salt (refreshSecret randByte) = .ok hash) :
    s.GenerateTokens C (world f now none randByte salt post) db userID userAgent ip
      = ⟨.ok (issuedAccessToken C s now userID, refreshSecret randByte),
         db.insert (newSession s now userID hash userAgent ip),
         issueTrace s now userID hash userAgent ip⟩ := by
  unfold refreshSecret at hhash
  simp [Service.GenerateTokens, world, Postgres, Postgres.GetUserByID, hf1, huser,
    Service.generateAccessToken, generateRandomBase64, hhash, Postgres.CreateRefreshToken, hf2,
    issuedClaims, issuedAccessToken, refreshSecret, newSession, issueTrace]

theorem GenerateTokens_world_inv (C : Crypto) (s : Service) (f : Faults) (now : Time)
    (randErr : Option String)
    (randByte : Nat → Fin 256) (salt : String) (post : WebhookRequest → Except String Nat)
    (db : DB) (userID : UUID) (userAgent ip : String) (pair : TokenString × String)
    (h : (s.GenerateTokens C (world f now randErr randByte salt post) db userID userAgent ip).result
          = .ok pair) :
    f.GetUserByID = none ∧ f.CreateRefreshToken = none ∧ randErr = none
      ∧ (∃ user, db.users.find? (fun u => decide (u.ID = userID)) = some user)
      ∧ ∃ hash, C.GenerateFromPassword salt (refreshSecret randByte) = .ok hash := by
  unfold Service.GenerateTokens at h
  simp only [world, Postgres, Postgres.GetUserByID, Service.generateAccessToken,
    generateRandomBase64, Postgres.CreateRefreshToken] at h
  cases hf1 : f.GetUserByID with
  | some e => simp [hf1, errors.Is] at h
  | none =>
    cases hu : db.users.find? (fun u => decide (u.ID = userID)) with
    | none => simp [hf1, hu, errors.Is] at h
    | some user =>
      cases hr : randErr with
      | some e => simp [hf1, hu, hr] at h
      | none =>
        cases hh : C.GenerateFromPassword salt (refreshSecret randByte) with
        | error e =>
          unfold refreshSecret at hh
          simp [hf1, hu, hr, hh] at h
        | ok hash =>
          cases hf2 : f.CreateRefreshToken with
          | some e =>
            unfold refreshSecret at hh
            simp [hf1, hu, hr, hh, hf2] at h
          | none => exact ⟨rfl, rfl, rfl, ⟨user, rfl⟩, ⟨hash, rfl⟩⟩

/-! ## The Postgres store in a world -/

theorem world_GetValid (f : Faults) (now : Time) (randErr : Option String)
    (randByte : Nat → Fin 256) (salt : String) (post : WebhookRequest → Except String Nat)
    (db : DB) (userID : UUID) (hf : f.GetValidUserRefreshTokens = none) :
    (world f now randErr randByte salt post).repo.GetValidUserRefreshTokens db userID
      = .ok (db.refresh_tokens.filter (RefreshToken.isLive now userID)) := by
  simp [world, Postgres, Postgres.GetValidUserRefreshTokens, hf]

theorem world_InvalidateRefreshToken (f : Faults) (now : Time) (randErr : Option String)
    (randByte : Nat → Fin 256) (salt : String) (post : WebhookRequest → Except String Nat)
    (db : DB) (tokenHash : String) (hf : f.InvalidateRefreshToken = none) :
    ((world f now randErr randByte salt post).repo.InvalidateRefreshToken db tokenHash).2
      = db.invalidateHash tokenHash := by
  simp only [world, Postgres, Postgres.InvalidateRefreshToken, hf]
  split <;> rfl

theorem world_InvalidateAllUserTokens (f : Faults) (now : Time) (randErr : Option String)
    (randByte : Nat → Fin 256) (salt : String) (post : WebhookRequest → Except String Nat)
    (db : DB) (userID : UUID) (hf : f.InvalidateAllUserTokens = none) :
    (world f now randErr randByte salt post).repo.InvalidateAllUserTokens db userID
      = (.ok (), db.invalidateUser userID) := by
  simp [world, Postgres, Postgres.InvalidateAllUserTokens, hf]

theorem isLive_userID {now : Time} {userID : UUID} {t : RefreshToken}
    (h : RefreshToken.isLive now userID t = true) : t.UserID = userID := by
  simp [RefreshToken.isLive] at h
  exact h.1.1

theorem isLive_valid {now : Time} {userID : UUID} {t : RefreshToken}
    (h : RefreshToken.isLive now userID t = true) : t.IsValid = true := by
  simp [RefreshToken.isLive] at h
  exact h.1.2

/-! ## The scan -/

theorem findMatch_eq_none (C : Crypto) (ts : List RefreshToken) (raw : String) :
    Service.findMatch C ts raw = none
      ↔ ∀ t ∈ ts, C.CompareHashAndPassword t.TokenHash raw = false := by
  unfold Service.findMatch
  simp [List.find?_eq_none]

theorem findMatch_some (C : Crypto) (ts : List RefreshToken) (raw : String) (t : RefreshToken)
    (h : Service.findMatch C ts raw = some t) :
    t ∈ ts ∧ C.CompareHashAndPassword t.TokenHash raw = true := by
  unfold Service.findMatch at h
  refine ⟨List.mem_of_find?_eq_some h, ?_⟩
  exact @List.find?_some RefreshToken
    (fun x => C.CompareHashAndPassword x.TokenHash raw) t ts h

theorem findMatch_live_none (C : Crypto) (now : Time) (userID : UUID) (raw : String)
    (rows : List RefreshToken)
    (h : ∀ t ∈ rows, RefreshToken.isLive now userID t = true →
      C.CompareHashAndPassword t.TokenHash raw = false) :
    Service.findMatch C (rows.filter (RefreshToken.isLive now userID)) raw = none := by
  rw [findMatch_eq_none]
  intro t ht
  rw [List.mem_filter] at ht
  exact h t ht.1 ht.2

theorem findMatch_append_last (C : Crypto) (ts : List RefreshToken) (t : RefreshToken)
    (raw : String)
    (hnone : ∀ x ∈ ts, C.CompareHashAndPassword x.TokenHash raw = false)
    (hlast : C.CompareHashAndPassword t.TokenHash raw = true) :
    Service.findMatch C (ts ++ [t]) raw = some t := by
  have h0 : Service.findMatch C ts raw = none := (findMatch_eq_none C ts raw).2 hnone
  unfold Service.findMatch at h0 ⊢
  rw [List.find?_append, h0]
  simp [List.find?_cons, hlast]

/-! ## Rotation against Postgres -/

theorem RefreshTokens_world_rotate (C : Crypto) (s : Service) (f : Faults) (now : Time)
    (randByte : Nat → Fin 256) (salt : String) (post : WebhookRequest → Except String Nat)
    (db : DB) (userID : UUID) (raw userAgent ip hash : String) (t : RefreshToken) (user : User)
    (hf1 : f.GetValidUserRefreshTokens = none) (hf2 : f.InvalidateRefreshToken = none)
    (hf3 : f.GetUserByID = none) (hf4 : f.CreateRefreshToken = none)
    (hsome : Service.findMatch C (db.refresh_tokens.filter (RefreshToken.isLive now userID)) raw
      = some t)
    (hua : t.UserAgent = userAgent)
    (hhook : t.IP ≠ ip →
      Service.Webhook (world f now none randByte salt post) userID ip = .ok ())
    (huser : db.users.find? (fun u => decide (u.ID = userID)) = some user)
    (hhash : C.GenerateFromPassword salt (refreshSecret randByte) = .ok hash) :
    s.RefreshTokens C (world f now none randByte salt post) db userID raw userAgent ip
      = ⟨.ok (issuedAccessToken C s now userID, refreshSecret randByte),
         (db.invalidateHash t.TokenHash).insert (newSession s now userID hash userAgent ip),
         rotateTrace (world f now none randByte salt post) userID ip t
           ++ issueTrace s now userID hash userAgent ip⟩ := by
  have hmem := findMatch_some C _ raw t hsome
  have hU : t.UserID = userID := isLive_userID (List.mem_filter.1 hmem.1).2
  have hrot := RefreshTokens_of_rotate C s (world f now none randByte salt post) db userID raw
    userAgent ip _ t (world_GetValid f now none randByte salt post db userID hf1) hsome hua hhook
  rw [world_InvalidateRefreshToken f now none randByte salt post db t.TokenHash hf2, hU] at hrot
  have hgen := GenerateTokens_world C s f now randByte salt post (db.invalidateHash t.TokenHash)
    userID userAgent ip hash user hf3 hf4 huser hhash
  rw [hgen] at hrot
  exact hrot

theorem mem_invalidateHash_live (db : DB) (tokenHash : String) (now : Time) (userID : UUID)
    (t : RefreshToken) (ht : t ∈ (db.invalidateHash tokenHash).refresh_tokens)
    (hl : RefreshToken.isLive now userID t = true) :
    t ∈ db.refresh_tokens ∧ t.TokenHash ≠ tokenHash := by
  unfold DB.invalidateHash at ht
  simp only [List.mem_map] at ht
  obtain ⟨x, hx, rfl⟩ := ht
  by_cases hh : x.TokenHash = tokenHash
  · simp [hh, RefreshToken.isLive] at hl
  · simp only [hh, if_false]
    exact ⟨hx, hh⟩

/-- C1: in a healthy Postgres world, a secret `S` returned by `GenerateTokens` for user
`U` whose session is still live rotates once: the first `RefreshTokens(U, S, ua, ip)`
returns a pair and a second one right after fails with `er.ErrInvalidToken`.  The
hypotheses beyond the claim's words are the idealisations of the primitives: a hash
verifies its own password, the hash of the replacement secret can be computed, and no
other stored hash of `U` (before the issue, or the replacement's) verifies `S`. -/
theorem C1_single_use_rotation (C : Crypto) (s : Service) (db : DB) (U : UUID) (ua ip : String)
    (now0 now1 now2 : Time) (rand0 rand1 rand2 : Nat → Fin 256) (randErr2 : Option String)
    (salt0 salt1 salt2 : String) (post0 post1 post2 : WebhookRequest → Except String Nat)
    (accessToken : TokenString) (S hash1 : String)
    (hbcrypt : ∀ salt p h, C.GenerateFromPassword salt p = .ok h →
      C.CompareHashAndPassword h p = true)
    (hissue : (s.GenerateTokens C (world Faults.healthy now0 none rand0 salt0 post0)
      db U ua ip).result = .ok (accessToken, S))
    (hlive : now1 < now0.Add s.refreshTTL)
    (hunique : ∀ t ∈ db.refresh_tokens, t.UserID = U →
      C.CompareHashAndPassword t.TokenHash S = false)
    (hhash1 : C.GenerateFromPassword salt1 (refreshSecret rand1) = .ok hash1)
    (hfresh : C.CompareHashAndPassword hash1 S = false) :
    (∃ pair, (s.RefreshTokens C (world Faults.healthy now1 none rand1 salt1 post1)
        (s.GenerateTokens C (world Faults.healthy now0 none rand0 salt0 post0) db U ua ip).state
        U S ua ip).result = .ok pair)
    ∧ (s.RefreshTokens C (world Faults.healthy now2 randErr2 rand2 salt2 post2)
        (s.RefreshTokens C (world Faults.healthy now1 none rand1 salt1 post1)
          (s.GenerateTokens C (world Faults.healthy now0 none rand0 salt0 post0) db U ua ip).state
          U S ua ip).state
        U S ua ip).result = .error er.ErrInvalidToken := by
  obtain ⟨-, -, -, ⟨user, huser⟩, ⟨hash0, hhash0⟩⟩ :=
    GenerateTokens_world_inv C s Faults.healthy now0 none rand0 salt0 post0 db U ua ip _ hissue
  have hgen0 := GenerateTokens_world C s Faults.healthy now0 rand0 salt0 post0 db U ua ip hash0 user
    rfl rfl huser hhash0
  rw [hgen0] at hissue ⊢
  simp only [Except.ok.injEq, Prod.mk.injEq] at hissue
  obtain ⟨-, hS⟩ := hissue
  have hver0 : C.CompareHashAndPassword hash0 S = true := by
    rw [← hS]; exact hbcrypt _ _ _ hhash0
  -- the session just stored
  obtain ⟨row0, hrow0, hrowU, hrowH, hrowA, hrowI, hrowL⟩ :
      ∃ row0 : RefreshToken,
        (db.insert (newSession s now0 U hash0 ua ip)).refresh_tokens = db.refresh_tokens ++ [row0]
        ∧ row0.UserID = U ∧ row0.TokenHash = hash0 ∧ row0.UserAgent = ua ∧ row0.IP = ip
        ∧ RefreshToken.isLive now1 U row0 = true :=
    ⟨_, rfl, rfl, rfl, rfl, rfl, by simp [RefreshToken.isLive, newSession, hlive]⟩
  have husers : (db.insert (newSession s now0 U hash0 ua ip)).users = db.users := rfl
  generalize db.insert (newSession s now0 U hash0 ua ip) = db1 at hrow0 husers ⊢
  -- the first rotation
  have hmatch1 : Service.findMatch C (db1.refresh_tokens.filter (RefreshToken.isLive now1 U)) S
      = some row0 := by
    rw [hrow0, List.filter_append]
    simp only [List.filter_cons, hrowL, if_true, List.filter_nil]
    apply findMatch_append_last
    · intro x hx
      rw [List.mem_filter] at hx
      exact hunique x hx.1 (isLive_userID hx.2)
    · rw [hrowH]; exact hver0
  have hrot := RefreshTokens_world_rotate C s Faults.healthy now1 rand1 salt1 post1 db1 U S ua ip
    hash1 row0 user rfl rfl rfl rfl hmatch1 hrowA (fun h => absurd hrowI h)
    (by rw [husers]; exact huser) hhash1
  rw [hrot]
  refine ⟨⟨_, rfl⟩, ?_⟩
  -- the second rotation
  have hnone2 := findMatch_live_none C now2 U S
    ((db1.invalidateHash row0.TokenHash).insert (newSession s now1 U hash1 ua ip)).refresh_tokens
    (by
      intro t ht hl
      have ht2 : t ∈ (db1.invalidateHash row0.TokenHash).refresh_tokens
          ∨ t.TokenHash = hash1 := by
        simp only [DB.insert, List.mem_append, List.mem_singleton] at ht
        rcases ht with ht | ht
        · exact Or.inl ht
        · right; rw [ht]; rfl
      rcases ht2 with ht2 | ht2
      · obtain ⟨hmem, hne⟩ := mem_invalidateHash_live db1 row0.TokenHash now2 U t ht2 hl
        rw [hrow0, List.mem_append, List.mem_singleton] at hmem
        rcases hmem with hmem | hmem
        · exact hunique t hmem (isLive_userID hl)
        · rw [hmem] at hne; exact absurd rfl hne
      · rw [ht2]; exact hfresh)
  exact congrArg Outcome.result
    (RefreshTokens_of_no_match C s _ _ U S ua ip _
      (world_GetValid Faults.healthy now2 randErr2 rand2 salt2 post2 _ U rfl) hnone2)

theorem exampleCrypto_law (salt p h : String)
    (hh : exampleCrypto.GenerateFromPassword salt p = .ok h) :
    exampleCrypto.CompareHashAndPassword h p = true := by
  simp only [exampleCrypto, Except.ok.injEq] at hh ⊢
  subst hh
  simp [String.toList, String.data_append]

theorem exampleIssue :
    exampleService.GenerateTokens exampleCrypto (exampleWorld 0 1 "s0" 200) exampleDB
        u1 "Mozilla" "1.2.3.4"
      = ⟨.ok (issuedAccessToken exampleCrypto exampleService 0 u1, exampleSecret),
         exampleIssued,
         issueTrace exampleService 0 u1 "AQEBAQEBAQEBAQEBAQEBAQEBAQEBAQEBAQEBAQEBAQE$s0"
           "Mozilla" "1.2.3.4"⟩ := by
  rfl

/-- Witness for C1: issue for `u1` (Mozilla, 1.2.3.4) at time 0, rotate at time 5,
rotate again at time 6. -/
theorem C1_single_use_rotation_witness :
    (∃ pair, (exampleService.RefreshTokens exampleCrypto (exampleWorld 5 2 "s1" 200)
        (exampleService.GenerateTokens exampleCrypto (exampleWorld 0 1 "s0" 200) exampleDB
          u1 "Mozilla" "1.2.3.4").state
        u1 exampleSecret "Mozilla" "1.2.3.4").result = .ok pair)
    ∧ (exampleService.RefreshTokens exampleCrypto (exampleWorld 6 3 "s2" 200)
        (exampleService.RefreshTokens exampleCrypto (exampleWorld 5 2 "s1" 200)
          (exampleService.GenerateTokens exampleCrypto (exampleWorld 0 1 "s0" 200) exampleDB
            u1 "Mozilla" "1.2.3.4").state
          u1 exampleSecret "Mozilla" "1.2.3.4").state
        u1 exampleSecret "Mozilla" "1.2.3.4").result = .error er.ErrInvalidToken :=
  C1_single_use_rotation exampleCrypto exampleService exampleDB u1 "Mozilla" "1.2.3.4"
    0 5 6 (fun _ => 1) (fun _ => 2) (fun _ => 3) none "s0" "s1" "s2"
    (fun _ => .ok 200) (fun _ => .ok 200) (fun _ => .ok 200)
    (issuedAccessToken exampleCrypto exampleService 0 u1) exampleSecret
    "AgICAgICAgICAgICAgICAgICAgICAgICAgICAgICAgI$s1"
    exampleCrypto_law rfl (by decide) (by intro t ht; simp [exampleDB] at ht) rfl (by decide)

theorem invalidateUser_not_live (db : DB) (userID : UUID) (now : Time) (t : RefreshToken)
    (ht : t ∈ (db.invalidateUser userID).refresh_tokens) :
    RefreshToken.isLive now userID t = false := by
  unfold DB.invalidateUser at ht
  simp only [List.mem_map] at ht
  obtain ⟨x, -, rfl⟩ := ht
  by_cases hu : x.UserID = userID
  · simp [hu, RefreshToken.isLive]
  · simp [hu, RefreshToken.isLive]

theorem invalidateUser_invalid (db : DB) (userID : UUID) (t : RefreshToken)
    (ht : t ∈ (db.invalidateUser userID).refresh_tokens) (hu : t.UserID = userID) :
    t.IsValid = false := by
  unfold DB.invalidateUser at ht
  simp only [List.mem_map] at ht
  obtain ⟨x, -, rfl⟩ := ht
  by_cases hx : x.UserID = userID
  · simp [hx]
  · simp only [hx, if_false] at hu

theorem RefreshTokens_world_dead (C : Crypto) (s : Service) (f : Faults) (now : Time)
    (randErr : Option String) (randByte : Nat → Fin 256) (salt : String)
    (post : WebhookRequest → Except String Nat)
    (db : DB) (userID : UUID) (raw userAgent ip : String)
    (hf : f.GetValidUserRefreshTokens = none)
    (hdead : ∀ t ∈ db.refresh_tokens, RefreshToken.isLive now userID t = true →
      C.CompareHashAndPassword t.TokenHash raw = false) :
    s.RefreshTokens C (world f now randErr randByte salt post) db userID raw userAgent ip
      = ⟨.error er.ErrInvalidToken, db, [.GetValidUserRefreshTokens userID]⟩ :=
  RefreshTokens_of_no_match C s _ db userID raw userAgent ip _
    (world_GetValid f now randErr randByte salt post db userID hf)
    (findMatch_live_none C now userID raw db.refresh_tokens hdead)

/-- A failed webhook call: a transport error, or a status outside 200..299. -/
theorem Webhook_error {σ : Type} (env : Env σ) (userID : UUID) (ip : String)
    (hfail : (∃ e, env.post (Service.webhookRequest env userID ip) = .error e)
      ∨ ∃ status, env.post (Service.webhookRequest env userID ip) = .ok status
          ∧ (status < 200 ∨ status ≥ 300)) :
    ∃ text, Service.Webhook env userID ip = .error (.errorf "failed to send webhook" (.foreign text))
      ∨ Service.Webhook env userID ip = .error (.foreign text) := by
  unfold Service.Webhook
  rcases hfail with ⟨e, he⟩ | ⟨status, hs, hr⟩
  · exact ⟨e, Or.inl (by rw [he])⟩
  · refine ⟨"webhook returned non-success status: " ++ toString status, Or.inr ?_⟩
    rw [hs]
    simp only [hr, if_true]

/-- C3: when the presented secret matches a live session with the same user-agent and a
different IP, and the webhook call fails (transport error or status outside 200..299),
`RefreshTokens` fails with the notification failure
`fmt.Errorf("failed to send webhook: %w", err)`, returns no pair, makes no call after
the POST (no store write, no issuer call) and leaves the store as it was, so the
same read still returns the sessions among which the secret was matched. -/
theorem C3_notifier_failure_atomic {σ : Type} (C : Crypto) (s : Service) (env : Env σ) (db : σ)
    (U : UUID) (S ua ip : String) (ts : List RefreshToken) (t : RefreshToken)
    (hread : env.repo.GetValidUserRefreshTokens db U = .ok ts)
    (hmatch : Service.findMatch C ts S = some t)
    (hua : t.UserAgent = ua) (hip : t.IP ≠ ip)
    (hfail : (∃ e, env.post (Service.webhookRequest env U ip) = .error e)
      ∨ ∃ status, env.post (Service.webhookRequest env U ip) = .ok status
          ∧ (status < 200 ∨ status ≥ 300)) :
    (∃ err, (s.RefreshTokens C env db U S ua ip).result
        = .error (.errorf "failed to send webhook" err))
    ∧ terminal (s.RefreshTokens C env db U S ua ip).result = .NotificationFailure
    ∧ (s.RefreshTokens C env db U S ua ip).state = db
    ∧ (s.RefreshTokens C env db U S ua ip).trace
        = [.GetValidUserRefreshTokens U, .Post (Service.webhookRequest env U ip)]
    ∧ env.repo.GetValidUserRefreshTokens (s.RefreshTokens C env db U S ua ip).state U = .ok ts := by
  obtain ⟨text, hw | hw⟩ := Webhook_error env U ip hfail
  · rw [RefreshTokens_of_hook_error C s env db U S ua ip ts t _ hread hmatch hua hip hw]
    exact ⟨⟨_, rfl⟩, by simp [terminal, errors.Is, Err.isWebhookFailure], rfl, rfl, hread⟩
  · rw [RefreshTokens_of_hook_error C s env db U S ua ip ts t _ hread hmatch hua hip hw]
    exact ⟨⟨_, rfl⟩, by simp [terminal, errors.Is, Err.isWebhookFailure], rfl, rfl, hread⟩

/-- Witness for C3: the session issued for `u1` from `1.2.3.4` is presented from
`5.6.7.8` while the webhook endpoint answers 500. -/
theorem C3_notifier_failure_atomic_witness :
    terminal (exampleService.RefreshTokens exampleCrypto (exampleWorld 5 2 "s1" 500) exampleIssued
        u1 exampleSecret "Mozilla" "5.6.7.8").result = .NotificationFailure
    ∧ (exampleService.RefreshTokens exampleCrypto (exampleWorld 5 2 "s1" 500) exampleIssued
        u1 exampleSecret "Mozilla" "5.6.7.8").state = exampleIssued :=
  have h := C3_notifier_failure_atomic exampleCrypto exampleService (exampleWorld 5 2 "s1" 500)
    exampleIssued u1 exampleSecret "Mozilla" "5.6.7.8" exampleIssued.refresh_tokens
    { ID := 1, UserID := u1, TokenHash := "AQEBAQEBAQEBAQEBAQEBAQEBAQEBAQEBAQEBAQEBAQE$s0",
      UserAgent := "Mozilla", IP := "1.2.3.4", IssuedAt := 0, ExpiresAt := 3600000000000,
      IsValid := true }
    rfl (by decide) rfl (by decide) (Or.inr ⟨500, rfl, Or.inr (by decide)⟩)
  ⟨h.2.1, h.2.2.1⟩

/-! ## Counting webhook calls -/

theorem posts_append (a b : List Event) : posts (a ++ b) = posts a ++ posts b := by
  induction a with
  | nil => rfl
  | cons e rest ih => cases e <;> simp [posts, ih]

theorem posts_GenerateTokens {σ : Type} (C : Crypto) (s : Service) (env : Env σ) (db : σ)
    (userID : UUID) (userAgent ip : String) :
    posts (s.GenerateTokens C env db userID userAgent ip).trace = [] := by
  unfold Service.GenerateTokens
  simp only [Service.generateAccessToken]
  repeat' split
  all_goals simp [posts]

theorem posts_RefreshTokens {σ : Type} (C : Crypto) (s : Service) (env : Env σ) (db : σ)
    (U : UUID) (S ua ip : String) :
    posts (s.RefreshTokens C env db U S ua ip).trace
      = (match env.repo.GetValidUserRefreshTokens db U with
         | .error _ => []
         | .ok ts =>
           match Service.findMatch C ts S with
           | none => []
           | some t =>
             if t.UserAgent = ua ∧ t.IP ≠ ip then [Service.webhookRequest env U ip] else []) := by
  cases hread : env.repo.GetValidUserRefreshTokens db U with
  | error err =>
    unfold Service.RefreshTokens
    simp only [hread]
    split <;> simp [posts]
  | ok ts =>
    cases hm : Service.findMatch C ts S with
    | none =>
      rw [RefreshTokens_of_no_match C s env db U S ua ip ts hread hm]
      simp [posts, hm]
    | some t =>
      by_cases hua : t.UserAgent = ua
      · by_cases hip : t.IP = ip
        · rw [RefreshTokens_of_rotate C s env db U S ua ip ts t hread hm hua
            (fun h => absurd hip h)]
          simp [posts_append, posts_GenerateTokens, rotateTrace, hip, hua, posts, hm]
        · cases hw : Service.Webhook env U ip with
          | error err =>
            rw [RefreshTokens_of_hook_error C s env db U S ua ip ts t err hread hm hua hip hw]
            simp [posts, hua, hip, hm]
          | ok u =>
            rw [RefreshTokens_of_rotate C s env db U S ua ip ts t hread hm hua (fun _ => hw)]
            simp [posts_append, posts_GenerateTokens, rotateTrace, hip, hua, posts, hm]
      · rw [RefreshTokens_of_mismatch C s env db U S ua ip ts t hread hm hua]
        simp [posts, hua, hm]

theorem Webhook_ok {σ : Type} (env : Env σ) (userID : UUID) (ip : String) (status : Nat)
    (hpost : env.post (Service.webhookRequest env userID ip) = .ok status)
    (hlo : 200 ≤ status) (hhi : status < 300) :
    Service.Webhook env userID ip = .ok () := by
  unfold Service.Webhook
  rw [hpost]
  have : ¬ (status < 200 ∨ status ≥ 300) := by omega
  simp only [this, if_false]

theorem mem_invalidateHash (db : DB) (t : RefreshToken) (ht : t ∈ db.refresh_tokens) :
    { t with IsValid := false } ∈ (db.invalidateHash t.TokenHash).refresh_tokens := by
  unfold DB.invalidateHash
  simp only [List.mem_map]
  exact ⟨t, ht, by simp⟩

/-! ## Identity resolution on issued tokens -/

theorem GetCurrentUserID_signed (C : Crypto) (s : Service) (now : Time) (userID : UUID)
    (expiresAt : Time) :
    s.GetCurrentUserID C now (jwt.SignedString C (issuedClaims userID expiresAt) s.jwtSecret)
      = .ok userID := by
  unfold Service.GetCurrentUserID
  rw [parse_signed]

theorem RefreshTokens_ok_inv {σ : Type} (C : Crypto) (s : Service) (env : Env σ) (db : σ)
    (U : UUID) (S ua ip : String) (pair : TokenString × String)
    (h : (s.RefreshTokens C env db U S ua ip).result = .ok pair) :
    ∃ ts t, env.repo.GetValidUserRefreshTokens db U = .ok ts
      ∧ Service.findMatch C ts S = some t ∧ t.UserAgent = ua
      ∧ (t.IP ≠ ip → Service.Webhook env U ip = .ok ())
      ∧ (s.GenerateTokens C env (env.repo.InvalidateRefreshToken db t.TokenHash).2
          t.UserID ua ip).result = .ok pair := by
  cases hread : env.repo.GetValidUserRefreshTokens db U with
  | error err =>
    unfold Service.RefreshTokens at h
    simp only [hread] at h
    split at h <;> simp at h
  | ok ts =>
    cases hm : Service.findMatch C ts S with
    | none =>
      rw [RefreshTokens_of_no_match C s env db U S ua ip ts hread hm] at h
      simp at h
    | some t =>
      by_cases hua : t.UserAgent = ua
      · have hhook : t.IP ≠ ip → Service.Webhook env U ip = .ok () := by
          intro hip
          cases hw : Service.Webhook env U ip with
          | error err =>
            rw [RefreshTokens_of_hook_error C s env db U S ua ip ts t err hread hm hua hip hw] at h
            simp at h
          | ok u => rfl
        rw [RefreshTokens_of_rotate C s env db U S ua ip ts t hread hm hua hhook] at h
        refine ⟨ts, t, rfl, hm, hua, hhook, ?_⟩
        simp only at h
        split at h
        · simp at h
        · rename_i p hp
          rw [hp, ← h]
      · rw [RefreshTokens_of_mismatch C s env db U S ua ip ts t hread hm hua] at h
        simp at h

theorem world_read_ok (f : Faults) (now : Time) (randErr : Option String)
    (randByte : Nat → Fin 256) (salt : String) (post : WebhookRequest → Except String Nat)
    (db : DB) (userID : UUID) (ts : List RefreshToken)
    (h : (world f now randErr randByte salt post).repo.GetValidUserRefreshTokens db userID
      = .ok ts) :
    f.GetValidUserRefreshTokens = none
      ∧ ts = db.refresh_tokens.filter (RefreshToken.isLive now userID) := by
  simp only [world, Postgres, Postgres.GetValidUserRefreshTokens] at h
  cases hf : f.GetValidUserRefreshTokens with
  | some e => simp [hf] at h
  | none =>
    simp only [hf, Except.ok.injEq] at h
    exact ⟨rfl, h.symm⟩

/-- C5, the code at the failing input: an access token generated for `u1` with expiry at
second 1 is parsed at second 2, after its expiry, and `parseAccessToken` returns its
claims and `GetCurrentUserID` returns `u1`; no expiry error is raised.  The parsed
claims carry the expiry only in the struct's own `ExpiresAt`; the embedded
`RegisteredClaims.ExpiresAt`, the field the validator reads, is nil. -/
theorem C5_expired_token_accepted :
    exampleService.generateAccessToken exampleCrypto u1 1000000000
      = .ok (.compact [("alg", .str "HS512"), ("typ", .str "JWT")]
              [("user_id", .str "00000000-0000-0000-0000-000000000001"), ("exp", .num 1)] "SHA512:k:2")
    ∧ exampleService.parseAccessToken exampleCrypto 2000000000
        (.compact [("alg", .str "HS512"), ("typ", .str "JWT")]
          [("user_id", .str "00000000-0000-0000-0000-000000000001"), ("exp", .num 1)] "SHA512:k:2")
      = .ok { UserID := u1, ExpiresAt := 1,
              RegisteredClaims := { ExpiresAt := none, NotBefore := none, IssuedAt := none } }
    ∧ exampleService.GetCurrentUserID exampleCrypto 2000000000
        (.compact [("alg", .str "HS512"), ("typ", .str "JWT")]
          [("user_id", .str "00000000-0000-0000-0000-000000000001"), ("exp", .num 1)] "SHA512:k:2")
      = .ok u1 := by
  refine ⟨?_, ?_, ?_⟩ <;> rfl

/-- C6: the access token returned by a successful `GenerateTokens(U, ua, ip)`, and the
one returned by a successful `RefreshTokens` for `U` against the Postgres store,
resolves to `U` without error under the same key at any time before its expiry, the
issuing clock value plus `accessTTL`. -/
theorem C6_access_token_round_trip {σ : Type} (C : Crypto) (s : Service) (env : Env σ) (db : σ)
    (f : Faults) (now : Time) (randErr : Option String) (randByte : Nat → Fin 256)
    (salt : String) (post : WebhookRequest → Except String Nat) (db2 : DB)
    (U : UUID) (S ua ip : String) (issued rotated : TokenString × String) (verifiedAt : Time) :
    ((s.GenerateTokens C env db U ua ip).result = .ok issued →
      verifiedAt < env.now.Add s.accessTTL →
      s.GetCurrentUserID C verifiedAt issued.1 = .ok U)
    ∧ ((s.RefreshTokens C (world f now randErr randByte salt post) db2 U S ua ip).result
        = .ok rotated →
      verifiedAt < now.Add s.accessTTL →
      s.GetCurrentUserID C verifiedAt rotated.1 = .ok U) := by
  constructor
  · intro h _
    have := GenerateTokens_access C s env db U ua ip issued.1 issued.2 h
    rw [this]
    exact GetCurrentUserID_signed C s verifiedAt U _
  · intro h _
    obtain ⟨ts, t, hread, hm, -, -, hgen⟩ := RefreshTokens_ok_inv C s _ db2 U S ua ip rotated h
    obtain ⟨-, hts⟩ := world_read_ok f now randErr randByte salt post db2 U ts hread
    have hmem := (findMatch_some C ts S t hm).1
    rw [hts] at hmem
    have hU : t.UserID = U := isLive_userID (List.mem_filter.1 hmem).2
    have := GenerateTokens_access C s _ _ t.UserID ua ip rotated.1 rotated.2 hgen
    rw [this, hU]
    exact GetCurrentUserID_signed C s verifiedAt U _

/-- Witness for C6: the token issued for `u1` at time 0 and the token rotated at time 5
both resolve to `u1` at time 7, before either expires. -/
theorem C6_access_token_round_trip_witness :
    exampleService.GetCurrentUserID exampleCrypto 7
        (issuedAccessToken exampleCrypto exampleService 0 u1) = .ok u1
    ∧ exampleService.GetCurrentUserID exampleCrypto 7
        (issuedAccessToken exampleCrypto exampleService 5 u1) = .ok u1 :=
  have h := C6_access_token_round_trip exampleCrypto exampleService (exampleWorld 0 1 "s0" 200)
    exampleDB Faults.healthy 5 none (fun _ => 2) "s1" (fun _ => .ok 200) exampleIssued
    u1 exampleSecret "Mozilla" "1.2.3.4"
    (issuedAccessToken exampleCrypto exampleService 0 u1, exampleSecret)
    (issuedAccessToken exampleCrypto exampleService 5 u1,
      "AgICAgICAgICAgICAgICAgICAgICAgICAgICAgICAgI") 7
  ⟨h.1 rfl (by decide), h.2 rfl (by decide)⟩

/-- C7: when the read succeeds and no live session of `U` (valid, unexpired) has a hash
that verifies against `S`, `RefreshTokens` fails with exactly `er.ErrInvalidToken`,
leaves the store as it was and makes no call besides the read: no webhook call and no
issuer call.  The hypothesis does not tell whether `S` was never issued, belongs to an
expired session or to an invalidated one, so the three cases give this same outcome. -/
theorem C7_uniform_rejection (C : Crypto) (s : Service) (f : Faults) (now : Time)
    (randErr : Option String) (randByte : Nat → Fin 256) (salt : String)
    (post : WebhookRequest → Except String Nat) (db : DB) (U : UUID) (S ua ip : String)
    (hread : f.GetValidUserRefreshTokens = none)
    (hnone : ∀ t ∈ db.refresh_tokens, t.UserID = U → t.IsValid = true → t.ExpiresAt > now →
      C.CompareHashAndPassword t.TokenHash S = false) :
    (s.RefreshTokens C (world f now randErr randByte salt post) db U S ua ip).result
        = .error er.ErrInvalidToken
    ∧ (s.RefreshTokens C (world f now randErr randByte salt post) db U S ua ip).state = db
    ∧ (s.RefreshTokens C (world f now randErr randByte salt post) db U S ua ip).trace
        = [.GetValidUserRefreshTokens U]
    ∧ posts (s.RefreshTokens C (world f now randErr randByte salt post) db U S ua ip).trace = []
    ∧ issues (s.RefreshTokens C (world f now randErr randByte salt post) db U S ua ip).trace = [] := by
  have h := RefreshTokens_world_dead C s f now randErr randByte salt post db U S ua ip hread
    (by
      intro t ht hl
      simp only [RefreshToken.isLive, Bool.and_eq_true, decide_eq_true_eq] at hl
      exact hnone t ht hl.1.1 hl.1.2 hl.2)
  rw [h]
  exact ⟨rfl, rfl, rfl, rfl, rfl⟩

/-- Witness for C7: the secret issued for `u1` is presented after its session expired. -/
theorem C7_uniform_rejection_witness :
    (exampleService.RefreshTokens exampleCrypto (exampleWorld 3600000000000 2 "s1" 200)
        exampleIssued u1 exampleSecret "Mozilla" "1.2.3.4").result = .error er.ErrInvalidToken
    ∧ (exampleService.RefreshTokens exampleCrypto (exampleWorld 3600000000000 2 "s1" 200)
        exampleIssued u1 exampleSecret "Mozilla" "1.2.3.4").state = exampleIssued :=
  have h := C7_uniform_rejection exampleCrypto exampleService Faults.healthy 3600000000000
    none (fun _ => 2) "s1" (fun _ => .ok 200) exampleIssued u1 exampleSecret "Mozilla" "1.2.3.4"
    rfl
    (by
      intro t ht _ _ hexp
      simp only [exampleIssued, List.mem_singleton] at ht
      subst ht
      exact absurd hexp (by decide))
  ⟨h.1, h.2.1⟩

theorem Logout_world_ok (C : Crypto) (s : Service) (f : Faults) (now : Time)
    (randErr : Option String) (randByte : Nat → Fin 256) (salt : String)
    (post : WebhookRequest → Except String Nat) (db : DB) (accessToken : TokenString)
    (claims : AccessTokenClaims)
    (hparse : s.parseAccessToken C now accessToken = .ok claims)
    (hok : (s.Logout C (world f now randErr randByte salt post) db accessToken).result = .ok ()) :
    s.Logout C (world f now randErr randByte salt post) db accessToken
      = ⟨.ok (), db.invalidateUser claims.UserID, [.InvalidateAllUserTokens claims.UserID]⟩ := by
  unfold Service.Logout at hok ⊢
  have hnow : (world f now randErr randByte salt post).now = now := rfl
  rw [hnow] at hok ⊢
  simp only [hparse] at hok ⊢
  cases hf : f.InvalidateAllUserTokens with
  | some e =>
    simp [world, Postgres, Postgres.InvalidateAllUserTokens, hf] at hok
  | none =>
    rw [world_InvalidateAllUserTokens f now randErr randByte salt post db claims.UserID hf]

theorem Logout_parse_error {σ : Type} (C : Crypto) (s : Service) (env : Env σ) (db : σ)
    (accessToken : TokenString) (err : Err)
    (hparse : s.parseAccessToken C env.now accessToken = .error err) :
    (∃ e, (s.Logout C env db accessToken).result = .error e)
      ∧ (s.Logout C env db accessToken).state = db
      ∧ (s.Logout C env db accessToken).trace = [] := by
  unfold Service.Logout
  simp only [hparse]
  split
  · exact ⟨⟨_, rfl⟩, rfl, rfl⟩
  · exact ⟨⟨_, rfl⟩, rfl, rfl⟩

/-- C8: for an access token that verifies to user `U`, a successful `Logout` leaves
every session of `U` invalid, and a later `RefreshTokens` for `U` whose read succeeds
fails with `er.ErrInvalidToken` whatever secret is presented; if the access token fails
verification, `Logout` returns an error, makes no store call and leaves the store as it
was. -/
theorem C8_account_wide_revocation (C : Crypto) (s : Service) (f f2 : Faults) (now now2 : Time)
    (randErr randErr2 : Option String) (randByte randByte2 : Nat → Fin 256) (salt salt2 : String)
    (post post2 : WebhookRequest → Except String Nat) (db : DB) (accessToken : TokenString)
    (U : UUID) (S ua ip : String) :
    (∀ claims, s.parseAccessToken C now accessToken = .ok claims → claims.UserID = U →
      (s.Logout C (world f now randErr randByte salt post) db accessToken).result = .ok () →
      (∀ x ∈ (s.Logout C (world f now randErr randByte salt post) db accessToken).state.refresh_tokens,
          x.UserID = U → x.IsValid = false)
      ∧ (f2.GetValidUserRefreshTokens = none →
          (s.RefreshTokens C (world f2 now2 randErr2 randByte2 salt2 post2)
            (s.Logout C (world f now randErr randByte salt post) db accessToken).state
            U S ua ip).result = .error er.ErrInvalidToken))
    ∧ (∀ err, s.parseAccessToken C now accessToken = .error err →
        (∃ e, (s.Logout C (world f now randErr randByte salt post) db accessToken).result
          = .error e)
        ∧ (s.Logout C (world f now randErr randByte salt post) db accessToken).state = db
        ∧ (s.Logout C (world f now randErr randByte salt post) db accessToken).trace = []) := by
  constructor
  · intro claims hparse hU hok
    rw [Logout_world_ok C s f now randErr randByte salt post db accessToken claims hparse hok, hU]
    refine ⟨fun x hx hxu => invalidateUser_invalid db U x hx hxu, fun hf2 => ?_⟩
    exact congrArg Outcome.result
      (RefreshTokens_world_dead C s f2 now2 randErr2 randByte2 salt2 post2
        (db.invalidateUser U) U S ua ip hf2
        (by
          intro x hx hl
          rw [invalidateUser_not_live db U now2 x hx] at hl
          exact absurd hl (by decide)))
  · intro err hparse
    exact Logout_parse_error C s (world f now randErr randByte salt post) db accessToken err hparse

/-- Witness for C8: `u1` logs out at time 5 with the access token issued at time 0; the
refresh secret issued at time 0 is rejected at time 6; a token that is no JWS is
refused by `Logout`, which leaves the store alone. -/
theorem C8_account_wide_revocation_witness :
    (exampleService.RefreshTokens exampleCrypto (exampleWorld 6 3 "s2" 200)
        (exampleService.Logout exampleCrypto (exampleWorld 5 2 "s1" 200) exampleIssued
          (issuedAccessToken exampleCrypto exampleService 0 u1)).state
        u1 exampleSecret "Mozilla" "1.2.3.4").result = .error er.ErrInvalidToken
    ∧ (exampleService.Logout exampleCrypto (exampleWorld 5 2 "s1" 200) exampleIssued
        (.garbage "x")).state = exampleIssued :=
  have h := C8_account_wide_revocation exampleCrypto exampleService Faults.healthy Faults.healthy
    5 6 none none (fun _ => 2) (fun _ => 3) "s1" "s2" (fun _ => .ok 200) (fun _ => .ok 200)
    exampleIssued (issuedAccessToken exampleCrypto exampleService 0 u1)
    u1 exampleSecret "Mozilla" "1.2.3.4"
  have g := C8_account_wide_revocation exampleCrypto exampleService Faults.healthy Faults.healthy
    5 6 none none (fun _ => 2) (fun _ => 3) "s1" "s2" (fun _ => .ok 200) (fun _ => .ok 200)
    exampleIssued (.garbage "x") u1 exampleSecret "Mozilla" "1.2.3.4"
  ⟨(h.1 _ rfl rfl rfl).2 rfl, (g.2 _ rfl).2.1⟩

/-! ## Errors without a sentinel inside -/

theorem Is_errorf (msg : String) (c : Err) (p t : String) :
    errors.Is (.errorf msg c) (.sentinel p t) = errors.Is c (.sentinel p t) := by
  simp [errors.Is]

theorem read_msg_ne (U : UUID) :
    ("failed to get valid refresh tokens for user " ++ U.String = "failed to send webhook")
      = False := by
  apply eq_false
  intro h
  have := congrArg String.length h
  rw [String.length_append] at this
  have h1 : ("failed to get valid refresh tokens for user ").length = 44 := by decide
  have h2 : ("failed to send webhook").length = 22 := by decide
  omega

theorem terminal_internal {α : Type} (msg : String) (c : Err)
    (hmsg : (msg = "failed to send webhook") = False)
    (h1 : errors.Is c er.ErrNotFound = false) (h2 : errors.Is c er.ErrInvalidToken = false)
    (h3 : errors.Is c er.ErrUserAgentMismatch = false) :
    terminal (.error (.errorf msg c) : Except Err α) = .InternalFailure := by
  simp only [terminal, Is_errorf, h1, h2, h3, Err.isWebhookFailure, hmsg, decide_False]
  simp

theorem Webhook_accepted {σ : Type} (env : Env σ) (userID : UUID) (ip : String)
    (h : accepted env.post (Service.webhookRequest env userID ip) = true) :
    Service.Webhook env userID ip = .ok () := by
  unfold accepted at h
  cases hp : env.post (Service.webhookRequest env userID ip) with
  | error e => simp [hp] at h
  | ok status =>
    simp only [hp, decide_eq_true_eq] at h
    exact Webhook_ok env userID ip status hp h.1 h.2

theorem Webhook_refused {σ : Type} (env : Env σ) (userID : UUID) (ip : String)
    (h : accepted env.post (Service.webhookRequest env userID ip) = false) :
    ∃ text, Service.Webhook env userID ip
        = .error (.errorf "failed to send webhook" (.foreign text))
      ∨ Service.Webhook env userID ip = .error (.foreign text) := by
  apply Webhook_error
  unfold accepted at h
  cases hp : env.post (Service.webhookRequest env userID ip) with
  | error e => exact Or.inl ⟨e, rfl⟩
  | ok status =>
    simp only [hp, decide_eq_false_iff_not] at h
    exact Or.inr ⟨status, rfl, by omega⟩

theorem terminal_reissue (C : Crypto) (s : Service) (f : Faults) (now : Time)
    (randErr : Option String) (randByte : Nat → Fin 256) (salt : String)
    (post : WebhookRequest → Except String Nat) (db : DB) (userID : UUID) (userAgent ip : String) :
    terminal (match (s.GenerateTokens C (world f now randErr randByte salt post) db
        userID userAgent ip).result with
      | .error err => .error (.errorf "failed to generate new tokens" err)
      | .ok pair => (.ok pair : Except Err (TokenString × String)))
      = issueKind C f randErr randByte salt db userID := by
  unfold Service.GenerateTokens issueKind
  simp only [world, Postgres, Postgres.GetUserByID, Service.generateAccessToken,
    generateRandomBase64, Postgres.CreateRefreshToken]
  cases h1 : f.GetUserByID with
  | some e => simp [terminal, errors.Is, Err.isWebhookFailure]
  | none =>
    cases h2 : db.users.find? (fun u => decide (u.ID = userID)) with
    | none => simp [terminal, errors.Is, Err.isWebhookFailure]
    | some user =>
      cases h3 : randErr with
      | some e => simp [terminal, errors.Is, Err.isWebhookFailure]
      | none =>
        cases h4 : C.GenerateFromPassword salt
            (base64.RawURLEncoding.EncodeToString ((List.range 32).map randByte)) with
        | error e => simp [h4, terminal, errors.Is, Err.isWebhookFailure]
        | ok hash =>
          cases h5 : f.CreateRefreshToken with
          | some e => simp [h4, terminal, errors.Is, Err.isWebhookFailure]
          | none => simp [h4, terminal]

/-- C9, as stated, fails: against a store that holds a live session of `u1` and no
user row for `u1`, `RefreshTokens` with the matching secret, user-agent and IP returns
the issuer's `er.ErrNotFound` wrapped once, an error that satisfies
`errors.Is(err, er.ErrNotFound)`; its kind is `NotFound`, none of the five listed. -/
theorem C9_not_found_counterexample :
    (exampleService.RefreshTokens exampleCrypto (exampleWorld 5 2 "s1" 200) orphanDB
        u1 exampleSecret "Mozilla" "1.2.3.4").result
      = .error (.errorf "failed to generate new tokens" er.ErrNotFound)
    ∧ errors.Is (.errorf "failed to generate new tokens" er.ErrNotFound) er.ErrNotFound = true
    ∧ terminal (exampleService.RefreshTokens exampleCrypto (exampleWorld 5 2 "s1" 200) orphanDB
        u1 exampleSecret "Mozilla" "1.2.3.4").result = .NotFound := by
  refine ⟨?_, ?_, ?_⟩ <;> rfl

/-- C9, amended: against Postgres every `RefreshTokens` call ends in exactly one of
`Success`, `NotFound`, `InvalidToken`, `UserAgentMismatch`, `NotificationFailure` and
`InternalFailure`, the one the rotation state machine `rotateKind` names: the five
states of the spec, and `NotFound` when the issuer's user lookup finds no row. -/
theorem C9_terminal_states (C : Crypto) (s : Service) (f : Faults) (now : Time)
    (randErr : Option String) (randByte : Nat → Fin 256) (salt : String)
    (post : WebhookRequest → Except String Nat) (db : DB) (U : UUID) (S ua ip : String) :
    terminal (s.RefreshTokens C (world f now randErr randByte salt post) db U S ua ip).result
      = rotateKind C f now randErr randByte salt post db U S ua ip := by
  unfold rotateKind
  cases hf : f.GetValidUserRefreshTokens with
  | some e =>
    unfold Service.RefreshTokens
    simp only [world, Postgres, Postgres.GetValidUserRefreshTokens, hf]
    rw [if_neg (by simp [errors.Is])]
    exact terminal_internal _ _ (read_msg_ne U) rfl rfl rfl
  | none =>
    have hread := world_GetValid f now randErr randByte salt post db U hf
    cases hm : Service.findMatch C (db.refresh_tokens.filter (RefreshToken.isLive now U)) S with
    | none =>
      rw [RefreshTokens_of_no_match C s _ db U S ua ip _ hread hm]
      unfold Service.findMatch at hm
      simp only [hm]
      rfl
    | some t =>
      have hm2 := hm
      unfold Service.findMatch at hm2
      simp only [hm2]
      by_cases hua : t.UserAgent = ua
      · have hrot : (t.IP ≠ ip →
              Service.Webhook (world f now randErr randByte salt post) U ip = .ok ()) →
            terminal (s.RefreshTokens C (world f now randErr randByte salt post)
              db U S ua ip).result = issueKind C f randErr randByte salt db t.UserID := by
          intro hhook
          rw [RefreshTokens_of_rotate C s _ db U S ua ip _ t hread hm hua hhook]
          have hk := terminal_reissue C s f now randErr randByte salt post
            ((world f now randErr randByte salt post).repo.InvalidateRefreshToken db
              t.TokenHash).2 t.UserID ua ip
          have hu : ((world f now randErr randByte salt post).repo.InvalidateRefreshToken db
              t.TokenHash).2.users = db.users := by
            simp only [world, Postgres, Postgres.InvalidateRefreshToken]
            cases f.InvalidateRefreshToken with
            | some e => rfl
            | none => simp only []; split <;> rfl
          simp only [issueKind, hu] at hk ⊢
          exact hk
        by_cases hip : t.IP = ip
        · simp only [hua, hip, ne_eq, not_true_eq_false, if_false, false_and]
          exact hrot (fun h => absurd hip h)
        · cases hacc : accepted post { NewIP := ip, UserID := U, Ts := now.Unix } with
          | true =>
            simp only [hua, hip, ne_eq, not_true_eq_false, not_false_eq_true, if_false, true_and,
              Bool.true_eq_false]
            exact hrot (fun _ => Webhook_accepted (world f now randErr randByte salt post) U ip hacc)
          | false =>
            simp only [hua, hip, ne_eq, not_true_eq_false, not_false_eq_true, if_false, true_and,
              if_true]
            obtain ⟨text, hw | hw⟩ :=
              Webhook_refused (world f now randErr randByte salt post) U ip hacc
            · rw [RefreshTokens_of_hook_error C s _ db U S ua ip _ t _ hread hm hua hip hw]
              simp [terminal, errors.Is, Err.isWebhookFailure]
            · rw [RefreshTokens_of_hook_error C s _ db U S ua ip _ t _ hread hm hua hip hw]
              simp [terminal, errors.Is, Err.isWebhookFailure]
      · rw [RefreshTokens_of_mismatch C s _ db U S ua ip _ t hread hm hua]
        simp only [hua, ne_eq, not_false_eq_true, if_true]
        rfl

/-! ## Tokens signed with another algorithm -/

theorem setUserID_error (c : AccessTokenClaims) (v : JSONValue) (e : Err)
    (h : c.setUserID v = .error e) :
    (∃ text, e = .foreign text) ∨ e = uuid.ErrInvalidUUIDFormat := by
  cases v with
  | str t =>
    unfold AccessTokenClaims.setUserID at h
    cases hp : uuid.ParseBytes (utf8 t) with
    | error e1 =>
      simp only [hp, Except.error.injEq] at h
      subst h
      exact ParseBytes_error _ e1 hp
    | ok id => simp [hp] at h
  | null => simp [AccessTokenClaims.setUserID] at h
  | num n =>
    simp only [AccessTokenClaims.setUserID, Except.error.injEq] at h
    exact Or.inl ⟨_, h.symm⟩
  | other =>
    simp only [AccessTokenClaims.setUserID, Except.error.injEq] at h
    exact Or.inl ⟨_, h.symm⟩

theorem setMember_error (c : AccessTokenClaims) (key : String) (v : JSONValue) (e : Err)
    (h : c.setMember key v = .error e) :
    (∃ text, e = .foreign text) ∨ e = uuid.ErrInvalidUUIDFormat := by
  unfold AccessTokenClaims.setMember at h
  split at h
  · exact setUserID_error c v e h
  · split at h
    · cases v <;> simp [AccessTokenClaims.setExp] at h <;> exact Or.inl ⟨_, h.symm⟩
    · split at h
      · cases v <;> simp [AccessTokenClaims.setNbf] at h <;> exact Or.inl ⟨_, h.symm⟩
      · split at h
        · cases v <;> simp [AccessTokenClaims.setIat] at h <;> exact Or.inl ⟨_, h.symm⟩
        · simp at h

theorem Unmarshal_error (payload : JSONObject) (c : AccessTokenClaims) (e : Err)
    (h : AccessTokenClaims.Unmarshal payload c = .error e) :
    (∃ text, e = .foreign text) ∨ e = uuid.ErrInvalidUUIDFormat := by
  induction payload generalizing c with
  | nil => simp [AccessTokenClaims.Unmarshal] at h
  | cons kv rest ih =>
    obtain ⟨k, v⟩ := kv
    unfold AccessTokenClaims.Unmarshal at h
    cases hs : c.setMember k v with
    | error e1 =>
      simp only [hs, Except.error.injEq] at h
      subst h
      exact setMember_error c k v e1 hs
    | ok c1 =>
      simp only [hs] at h
      exact ih c1 h

/-- C10, as stated, fails: a token whose header names `none` is rejected, but the error
is golang-jwt's `ErrTokenUnverifiable` (the key function refused the method); it does
not satisfy `errors.Is(err, jwt.ErrTokenSignatureInvalid)`. -/
theorem C10_kind_counterexample :
    exampleService.parseAccessToken exampleCrypto 0
        (.compact [("alg", .str "none"), ("typ", .str "JWT")]
          [("user_id", .str "00000000-0000-0000-0000-000000000001")] "")
      = .error (.errorf "failed to parse access token"
          (.errorf2 "error while executing keyfunc" jwt.ErrTokenUnverifiable
            (.foreign "unexpected signing method: none")))
    ∧ errors.Is (.errorf "failed to parse access token"
          (.errorf2 "error while executing keyfunc" jwt.ErrTokenUnverifiable
            (.foreign "unexpected signing method: none"))) jwt.ErrTokenSignatureInvalid = false
    ∧ errors.Is (.errorf "failed to parse access token"
          (.errorf2 "error while executing keyfunc" jwt.ErrTokenUnverifiable
            (.foreign "unexpected signing method: none"))) jwt.ErrTokenUnverifiable = true := by
  refine ⟨?_, ?_, ?_⟩ <;> rfl

/-- C10, amended: a token whose header names a signing method that is not of the HMAC
family (a registered method of another family, or a name that is not registered) is
rejected by `parseAccessToken`, hence by `GetCurrentUserID` and by `Logout`, which
leaves the store as it was; its claims are not returned.  The failure is of kind
`jwt.ErrTokenUnverifiable`, or `jwt.ErrTokenMalformed` when the payload does not decode;
it is never of kind `jwt.ErrTokenSignatureInvalid`. -/
theorem C10_algorithm_substitution {σ : Type} (C : Crypto) (s : Service) (env : Env σ) (db : σ)
    (header payload : JSONObject) (signature alg : String)
    (halg : jwt.headerAlg header = some alg)
    (hfamily : ∀ hash, jwt.GetSigningMethod alg ≠ some (.HMAC hash)) :
    (∃ err, s.parseAccessToken C env.now (.compact header payload signature) = .error err
      ∧ (errors.Is err jwt.ErrTokenUnverifiable = true ∨ errors.Is err jwt.ErrTokenMalformed = true)
      ∧ errors.Is err jwt.ErrTokenSignatureInvalid = false)
    ∧ (∃ err, s.GetCurrentUserID C env.now (.compact header payload signature) = .error err)
    ∧ (∃ err, (s.Logout C env db (.compact header payload signature)).result = .error err)
    ∧ (s.Logout C env db (.compact header payload signature)).state = db := by
  have hparse : ∃ err, s.parseAccessToken C env.now (.compact header payload signature) = .error err
      ∧ (errors.Is err jwt.ErrTokenUnverifiable = true ∨ errors.Is err jwt.ErrTokenMalformed = true)
      ∧ errors.Is err jwt.ErrTokenSignatureInvalid = false := by
    unfold Service.parseAccessToken jwt.ParseWithClaims
    cases hu : AccessTokenClaims.Unmarshal payload AccessTokenClaims.zero with
    | error e =>
      simp only [hu]
      rcases Unmarshal_error payload _ e hu with ⟨text, rfl⟩ | rfl
      · exact ⟨_, rfl, Or.inr (by simp [errors.Is]), by simp [errors.Is]⟩
      · exact ⟨_, rfl, Or.inr (by simp [errors.Is]), by simp [errors.Is]⟩
    | ok claims =>
      cases hm : jwt.GetSigningMethod alg with
      | none =>
        simp only [hu, halg, hm]
        exact ⟨_, rfl, Or.inl (by simp [errors.Is]), by simp [errors.Is]⟩
      | some method =>
        have hnot : method.isHMAC = false := by
          cases method with
          | HMAC hash => exact absurd hm (hfamily hash)
          | RSA hash => rfl
          | RSAPSS hash => rfl
          | ECDSA hash => rfl
          | Ed25519 => rfl
          | none => rfl
        simp only [hu, halg, hm, Service.keyFunc, hnot, Bool.false_eq_true, if_false]
        exact ⟨_, rfl, Or.inl (by simp [errors.Is]), by simp [errors.Is]⟩
  obtain ⟨err, herr, hkind, hsig⟩ := hparse
  refine ⟨⟨err, herr, hkind, hsig⟩, ?_, ?_⟩
  · unfold Service.GetCurrentUserID
    rw [herr]
    simp only []
    split
    · exact ⟨_, rfl⟩
    · exact ⟨_, rfl⟩
  · have := Logout_parse_error C s env db _ err herr
    exact ⟨this.1, this.2.1⟩

/-- Witness for C10: a token whose header names `RS256`, presented to `Logout`. -/
theorem C10_algorithm_substitution_witness :
    (∃ err, exampleService.GetCurrentUserID exampleCrypto 5
        (.compact [("alg", .str "RS256")]
          [("user_id", .str "00000000-0000-0000-0000-000000000001")] "sig") = .error err)
    ∧ (exampleService.Logout exampleCrypto (exampleWorld 5 2 "s1" 200) exampleIssued
        (.compact [("alg", .str "RS256")]
          [("user_id", .str "00000000-0000-0000-0000-000000000001")] "sig")).state = exampleIssued :=
  have h := C10_algorithm_substitution exampleCrypto exampleService (exampleWorld 5 2 "s1" 200)
    exampleIssued [("alg", .str "RS256")]
      [("user_id", .str "00000000-0000-0000-0000-000000000001")] "sig" "RS256"
    (by decide)
    (by
      intro hash h
      have e : jwt.GetSigningMethod "RS256" = some (.RSA "SHA256") := by decide
      rw [e] at h
      simp at h)
  ⟨h.2.1, h.2.2.2⟩

/-! ## The refresh secret on the wire -/

theorem base64_value_digit : ∀ k : Fin 64, base64.value (base64.digit k.val) = some k.val := by
  decide

theorem base64_digit_class : ∀ k : Fin 64,
    base64.isURLSafe (base64.digit k.val) = true ∧ base64.digit k.val ≠ '=' := by
  decide

theorem base64_digit_mod (v : Nat) : base64.digit v = base64.digit (v % 64) := by
  simp [base64.digit]

theorem base64_value (v : Nat) : base64.value (base64.digit v) = some (v % 64) := by
  rw [base64_digit_mod]
  exact base64_value_digit ⟨v % 64, Nat.mod_lt v (by decide)⟩

theorem base64_class (v : Nat) :
    base64.isURLSafe (base64.digit v) = true ∧ base64.digit v ≠ '=' := by
  rw [base64_digit_mod]
  exact base64_digit_class ⟨v % 64, Nat.mod_lt v (by decide)⟩

theorem base64_encode_length (bs : List (Fin 256)) :
    (base64.encode bs).length = (4 * bs.length + 2) / 3 := by
  induction bs using base64.encode.induct with
  | case1 a b c rest ih =>
    simp only [base64.encode, List.length_cons, ih]
    omega
  | case2 a b => simp [base64.encode]
  | case3 a => simp [base64.encode]
  | case4 => simp [base64.encode]

theorem base64_encode_class (bs : List (Fin 256)) :
    ∀ c ∈ base64.encode bs, base64.isURLSafe c = true ∧ c ≠ '=' := by
  induction bs using base64.encode.induct with
  | case1 a b c rest ih =>
    intro x hx
    simp only [base64.encode, List.mem_cons] at hx
    rcases hx with rfl | rfl | rfl | rfl | hx
    · exact base64_class _
    · exact base64_class _
    · exact base64_class _
    · exact base64_class _
    · exact ih x hx
  | case2 a b =>
    intro x hx
    simp only [base64.encode, List.mem_cons, List.mem_singleton, List.not_mem_nil, or_false] at hx
    rcases hx with rfl | rfl | rfl <;> exact base64_class _
  | case3 a =>
    intro x hx
    simp only [base64.encode, List.mem_cons, List.mem_singleton, List.not_mem_nil, or_false] at hx
    rcases hx with rfl | rfl <;> exact base64_class _
  | case4 => intro x hx; simp [base64.encode] at hx

theorem base64_decode_encode (bs : List (Fin 256)) :
    base64.decode (base64.encode bs) = some bs := by
  induction bs using base64.encode.induct with
  | case1 a b c rest ih =>
    obtain ⟨a, ha⟩ := a
    obtain ⟨b, hb⟩ := b
    obtain ⟨c, hc⟩ := c
    simp only [base64.encode, base64.decode, base64_value, ih, Option.some.injEq,
      List.cons.injEq, and_true, base64.byte, Fin.mk.injEq]
    refine ⟨?_, ?_, ?_⟩ <;> omega
  | case2 a b =>
    obtain ⟨a, ha⟩ := a
    obtain ⟨b, hb⟩ := b
    simp only [base64.encode, base64.decode, base64_value, Option.some.injEq,
      List.cons.injEq, and_true, base64.byte, Fin.mk.injEq]
    refine ⟨?_, ?_⟩ <;> omega
  | case3 a =>
    obtain ⟨a, ha⟩ := a
    simp only [base64.encode, base64.decode, base64_value, Option.some.injEq,
      List.cons.injEq, and_true, base64.byte, Fin.mk.injEq]
    omega
  | case4 => simp [base64.encode, base64.decode]

theorem GenerateTokens_refresh {σ : Type} (C : Crypto) (s : Service) (env : Env σ) (db : σ)
    (userID : UUID) (userAgent ip : String) (pair : TokenString × String)
    (h : (s.GenerateTokens C env db userID userAgent ip).result = .ok pair) :
    generateRandomBase64 env 32 = .ok pair.2 := by
  unfold Service.GenerateTokens at h
  simp only [Service.generateAccessToken] at h
  split at h
  · split at h <;> simp at h
  · split at h
    · simp at h
    · rename_i raw hraw
      split at h
      · simp at h
      · split at h
        · simp at h
        · simp only [Except.ok.injEq] at h
          rw [hraw, ← h]

theorem generateRandomBase64_ok {σ : Type} (env : Env σ) (n : Nat) (str : String)
    (h : generateRandomBase64 env n = .ok str) :
    str.toList = base64.encode ((List.range n).map env.randByte) := by
  unfold generateRandomBase64 at h
  cases hr : env.randErr with
  | some e => simp [hr] at h
  | none =>
    simp only [hr, Except.ok.injEq] at h
    rw [← h]
    rfl

theorem wire_format_of_encode (n : Nat) (randByte : Nat → Fin 256) (str : String)
    (h : str.toList = base64.encode ((List.range n).map randByte)) :
    str.length = (4 * n + 2) / 3
      ∧ (∀ c ∈ str.toList, base64.isURLSafe c = true ∧ c ≠ '=')
      ∧ base64.RawURLEncoding.DecodeString str = some ((List.range n).map randByte) := by
  refine ⟨?_, ?_, ?_⟩
  · have : str.length = str.toList.length := rfl
    rw [this, h, base64_encode_length]
    simp
  · rw [h]
    exact base64_encode_class _
  · unfold base64.RawURLEncoding.DecodeString
    rw [h]
    exact base64_decode_encode _

/-- C11: when the random source delivers its bytes, `generateRandomBase64(n)` returns a
string of `(4n + 2) / 3` characters, the ceiling of `4n/3`, each in `[A-Za-z0-9_-]` and
none a padding `=`, whose unpadded URL-safe decoding is the `n` random bytes; for
`n = 32` that is 43 characters.  The refresh secret a successful `GenerateTokens`
returns is the result of `generateRandomBase64(32)`, hence such a string. -/
theorem C11_refresh_secret_wire_format {σ : Type} (C : Crypto) (s : Service) (env : Env σ)
    (db : σ) (U : UUID) (ua ip : String) (n : Nat) (hrand : env.randErr = none) :
    (∃ str, generateRandomBase64 env n = .ok str
      ∧ str.length = (4 * n + 2) / 3
      ∧ 4 * n ≤ 3 * str.length ∧ 3 * str.length < 4 * n + 3
      ∧ (n = 32 → str.length = 43)
      ∧ (∀ c ∈ str.toList, base64.isURLSafe c = true ∧ c ≠ '=')
      ∧ base64.RawURLEncoding.DecodeString str = some ((List.range n).map env.randByte))
    ∧ ∀ pair, (s.GenerateTokens C env db U ua ip).result = .ok pair →
        generateRandomBase64 env 32 = .ok pair.2
        ∧ pair.2.length = 43
        ∧ (∀ c ∈ pair.2.toList, base64.isURLSafe c = true ∧ c ≠ '=')
        ∧ base64.RawURLEncoding.DecodeString pair.2 = some ((List.range 32).map env.randByte) := by
  constructor
  · have hok : generateRandomBase64 env n
        = .ok (base64.RawURLEncoding.EncodeToString ((List.range n).map env.randByte)) := by
      simp [generateRandomBase64, hrand]
    obtain ⟨hlen, hclass, hdec⟩ := wire_format_of_encode n env.randByte _
      (generateRandomBase64_ok env n _ hok)
    refine ⟨_, hok, hlen, ?_, ?_, ?_, hclass, hdec⟩
    · rw [hlen]; omega
    · rw [hlen]; omega
    · intro hn; rw [hlen, hn]
  · intro pair hpair
    have hok := GenerateTokens_refresh C s env db U ua ip pair hpair
    obtain ⟨hlen, hclass, hdec⟩ := wire_format_of_encode 32 env.randByte _
      (generateRandomBase64_ok env 32 _ hok)
    exact ⟨hok, hlen, hclass, hdec⟩

/-- Witness for C11: the secret drawn when every random byte is 1. -/
theorem C11_refresh_secret_wire_format_witness :
    generateRandomBase64 (exampleWorld 0 1 "s0" 200) 32 = .ok exampleSecret
    ∧ exampleSecret.length = 43
    ∧ base64.RawURLEncoding.DecodeString exampleSecret
        = some ((List.range 32).map fun _ => 1) :=
  have h := C11_refresh_secret_wire_format exampleCrypto exampleService
    (exampleWorld 0 1 "s0" 200) exampleDB u1 "Mozilla" "1.2.3.4" 32 rfl
  have g := h.2 (issuedAccessToken exampleCrypto exampleService 0 u1, exampleSecret) rfl
  ⟨g.1, g.2.1, g.2.2.2⟩

/-! ## The store after a rotation -/

theorem RefreshTokens_world_ok_inv (C : Crypto) (s : Service) (f : Faults) (now : Time)
    (randErr : Option String) (randByte : Nat → Fin 256) (salt : String)
    (post : WebhookRequest → Except String Nat) (db : DB) (U : UUID) (S ua ip : String)
    (pair : TokenString × String)
    (h : (s.RefreshTokens C (world f now randErr randByte salt post) db U S ua ip).result
      = .ok pair) :
    ∃ t user hash,
      f.GetValidUserRefreshTokens = none ∧ f.GetUserByID = none ∧ f.CreateRefreshToken = none
      ∧ randErr = none
      ∧ Service.findMatch C (db.refresh_tokens.filter (RefreshToken.isLive now U)) S = some t
      ∧ t.UserAgent = ua
      ∧ (t.IP ≠ ip → Service.Webhook (world f now randErr randByte salt post) U ip = .ok ())
      ∧ db.users.find? (fun u => decide (u.ID = U)) = some user
      ∧ C.GenerateFromPassword salt (refreshSecret randByte) = .ok hash := by
  obtain ⟨ts, t, hread, hm, hua, hhook, hgen⟩ := RefreshTokens_ok_inv C s _ db U S ua ip pair h
  obtain ⟨hf, hts⟩ := world_read_ok f now randErr randByte salt post db U ts hread
  subst hts
  have hU : t.UserID = U := isLive_userID (List.mem_filter.1 (findMatch_some C _ S t hm).1).2
  rw [hU] at hgen
  obtain ⟨h1, h2, h3, ⟨user, huser⟩, ⟨hash, hhash⟩⟩ :=
    GenerateTokens_world_inv C s f now randErr randByte salt post _ U ua ip pair hgen
  have husers : ((world f now randErr randByte salt post).repo.InvalidateRefreshToken db
      t.TokenHash).2.users = db.users := by
    simp only [world, Postgres, Postgres.InvalidateRefreshToken]
    cases f.InvalidateRefreshToken with
    | some e => rfl
    | none => simp only []; split <;> rfl
  rw [husers] at huser
  exact ⟨t, user, hash, hf, h1, h2, h3, hm, hua, hhook, huser, hhash⟩

theorem invalidateHash_eq_of_nodup (db : DB) (t : RefreshToken) (ht : t ∈ db.refresh_tokens)
    (hnodup : (db.refresh_tokens.map fun x => x.TokenHash).Nodup) :
    (db.invalidateHash t.TokenHash).refresh_tokens
      = db.refresh_tokens.map fun x => if x = t then { x with IsValid := false } else x := by
  unfold DB.invalidateHash
  apply List.map_congr_left
  intro x hx
  have hinj := List.inj_on_of_nodup_map hnodup
  by_cases hxt : x = t
  · subst hxt; simp
  · have hne : x.TokenHash ≠ t.TokenHash := fun he => hxt (hinj hx ht he)
    simp [hxt, hne]

/-! ## The session lifecycle -/

theorem ages_refl (a : RefreshToken) : a.ages a :=
  ⟨rfl, rfl, rfl, rfl, rfl, rfl, rfl, id⟩

theorem ages_trans {a b c : RefreshToken} (h1 : a.ages b) (h2 : b.ages c) : a.ages c := by
  obtain ⟨a1, a2, a3, a4, a5, a6, a7, a8⟩ := h1
  obtain ⟨b1, b2, b3, b4, b5, b6, b7, b8⟩ := h2
  exact ⟨b1.trans a1, b2.trans a2, b3.trans a3, b4.trans a4, b5.trans a5, b6.trans a6,
    b7.trans a7, fun h => a8 (b8 h)⟩

theorem ages_lower (a : RefreshToken) : a.ages { a with IsValid := false } :=
  ⟨rfl, rfl, rfl, rfl, rfl, rfl, rfl, fun h => absurd h (by simp)⟩

theorem evolves_refl (db : DB) : db.evolves db := by
  intro i a h
  exact ⟨a, h, ages_refl a⟩

theorem evolves_trans {db db2 db3 : DB} (h1 : db.evolves db2) (h2 : db2.evolves db3) :
    db.evolves db3 := by
  intro i a ha
  obtain ⟨b, hb, hab⟩ := h1 i a ha
  obtain ⟨c, hc, hbc⟩ := h2 i b hb
  exact ⟨c, hc, ages_trans hab hbc⟩

theorem evolves_map (db db2 : DB) (g : RefreshToken → RefreshToken)
    (hg : ∀ a : RefreshToken, a.ages (g a)) (h : db2.refresh_tokens = db.refresh_tokens.map g) :
    db.evolves db2 := by
  intro i a ha
  refine ⟨g a, ?_, hg a⟩
  rw [h, List.getElem?_map, ha]
  rfl

theorem evolves_invalidateUser (db : DB) (userID : UUID) :
    db.evolves (db.invalidateUser userID) := by
  apply evolves_map db _ (fun t => if t.UserID = userID then { t with IsValid := false } else t)
  · intro a
    by_cases h : a.UserID = userID
    · rw [if_pos h]; exact ages_lower a
    · rw [if_neg h]; exact ages_refl a
  · rfl

theorem evolves_invalidateHash (db : DB) (tokenHash : String) :
    db.evolves (db.invalidateHash tokenHash) := by
  apply evolves_map db _
    (fun t => if t.TokenHash = tokenHash then { t with IsValid := false } else t)
  · intro a
    by_cases h : a.TokenHash = tokenHash
    · rw [if_pos h]; exact ages_lower a
    · rw [if_neg h]; exact ages_refl a
  · rfl

theorem evolves_insert (db : DB) (token : RefreshToken) : db.evolves (db.insert token) := by
  intro i a ha
  refine ⟨a, ?_, ages_refl a⟩
  have hi : i < db.refresh_tokens.length := by
    by_contra hn
    rw [List.getElem?_eq_none (by omega)] at ha
    cases ha
  simp only [DB.insert]
  rw [List.getElem?_append_left hi]
  exact ha

theorem Step_evolves {db db2 : DB} (h : DB.Step db db2) : db.evolves db2 := by
  cases h with
  | same => exact evolves_refl db
  | user u => exact evolves_invalidateUser db u
  | hash th => exact evolves_invalidateHash db th
  | insert tok _ => exact evolves_insert db tok
  | hashInsert th tok _ =>
    exact evolves_trans (evolves_invalidateHash db th) (evolves_insert _ tok)

theorem creates_of_length (db db2 : DB)
    (h : db2.refresh_tokens.length = db.refresh_tokens.length) : db.creates db2 := by
  intro i b hi hb
  rw [List.getElem?_eq_none (by omega)] at hb
  cases hb

theorem creates_insert (db db1 : DB) (token : RefreshToken)
    (hlen : db1.refresh_tokens.length = db.refresh_tokens.length)
    (hvalid : token.IsValid = true) : db.creates (db1.insert token) := by
  intro i b hi hb
  simp only [DB.insert] at hb
  by_cases hlast : i = db1.refresh_tokens.length
  · subst hlast
    rw [List.getElem?_append_right (le_refl _)] at hb
    simp only [Nat.sub_self, List.getElem?_cons_zero, Option.some.injEq] at hb
    rw [← hb]
    exact hvalid
  · rw [List.getElem?_eq_none (by simp only [List.length_append, List.length_singleton]; omega)] at hb
    cases hb

theorem Step_creates {db db2 : DB} (h : DB.Step db db2) : db.creates db2 := by
  cases h with
  | same => exact creates_of_length db db rfl
  | user u => exact creates_of_length db _ (by simp [DB.invalidateUser])
  | hash th => exact creates_of_length db _ (by simp [DB.invalidateHash])
  | insert tok hv => exact creates_insert db db tok rfl hv
  | hashInsert th tok hv =>
    exact creates_insert db _ tok (by simp [DB.invalidateHash]) hv

theorem world_InvalidateRefreshToken_state (f : Faults) (now : Time) (randErr : Option String)
    (randByte : Nat → Fin 256) (salt : String) (post : WebhookRequest → Except String Nat)
    (db : DB) (tokenHash : String) :
    ((world f now randErr randByte salt post).repo.InvalidateRefreshToken db tokenHash).2 = db
      ∨ ((world f now randErr randByte salt post).repo.InvalidateRefreshToken db tokenHash).2
          = db.invalidateHash tokenHash := by
  cases hf : f.InvalidateRefreshToken with
  | some e => left; simp [world, Postgres, Postgres.InvalidateRefreshToken, hf]
  | none => right; exact world_InvalidateRefreshToken f now randErr randByte salt post db _ hf

theorem world_InvalidateAllUserTokens_state (f : Faults) (now : Time) (randErr : Option String)
    (randByte : Nat → Fin 256) (salt : String) (post : WebhookRequest → Except String Nat)
    (db : DB) (userID : UUID) :
    ((world f now randErr randByte salt post).repo.InvalidateAllUserTokens db userID).2 = db
      ∨ ((world f now randErr randByte salt post).repo.InvalidateAllUserTokens db userID).2
          = db.invalidateUser userID := by
  cases hf : f.InvalidateAllUserTokens with
  | some e => left; simp [world, Postgres, Postgres.InvalidateAllUserTokens, hf]
  | none =>
    right
    rw [world_InvalidateAllUserTokens f now randErr randByte salt post db _ hf]

theorem GenerateTokens_world_state (C : Crypto) (s : Service) (f : Faults) (now : Time)
    (randErr : Option String) (randByte : Nat → Fin 256) (salt : String)
    (post : WebhookRequest → Except String Nat) (db : DB) (userID : UUID) (userAgent ip : String) :
    (s.GenerateTokens C (world f now randErr randByte salt post) db userID userAgent ip).state = db
      ∨ ∃ hash, (s.GenerateTokens C (world f now randErr randByte salt post) db
            userID userAgent ip).state = db.insert (newSession s now userID hash userAgent ip) := by
  unfold Service.GenerateTokens
  simp only [world, Postgres, Postgres.GetUserByID, Service.generateAccessToken,
    generateRandomBase64, Postgres.CreateRefreshToken]
  cases h1 : f.GetUserByID with
  | some e => left; simp [errors.Is]
  | none =>
    cases h2 : db.users.find? (fun u => decide (u.ID = userID)) with
    | none => left; simp [errors.Is]
    | some user =>
      cases h3 : randErr with
      | some e => left; simp
      | none =>
        cases h4 : C.GenerateFromPassword salt
            (base64.RawURLEncoding.EncodeToString ((List.range 32).map randByte)) with
        | error e => left; simp [h4]
        | ok hash =>
          cases h5 : f.CreateRefreshToken with
          | some e => left; simp [h4]
          | none => right; exact ⟨hash, by simp [h4, newSession]⟩

theorem GenerateTokens_world_step (C : Crypto) (s : Service) (f : Faults) (now : Time)
    (randErr : Option String) (randByte : Nat → Fin 256) (salt : String)
    (post : WebhookRequest → Except String Nat) (db : DB) (userID : UUID) (userAgent ip : String) :
    DB.Step db
      (s.GenerateTokens C (world f now randErr randByte salt post) db userID userAgent ip).state := by
  rcases GenerateTokens_world_state C s f now randErr randByte salt post db userID userAgent ip
    with h | ⟨hash, h⟩
  · rw [h]; exact DB.Step.same db
  · rw [h]; exact DB.Step.insert db _ rfl

theorem Logout_world_step (C : Crypto) (s : Service) (f : Faults) (now : Time)
    (randErr : Option String) (randByte : Nat → Fin 256) (salt : String)
    (post : WebhookRequest → Except String Nat) (db : DB) (accessToken : TokenString) :
    DB.Step db (s.Logout C (world f now randErr randByte salt post) db accessToken).state := by
  unfold Service.Logout
  cases hp : s.parseAccessToken C (world f now randErr randByte salt post).now accessToken with
  | error err =>
    simp only []
    split <;> exact DB.Step.same db
  | ok claims =>
    simp only []
    rcases world_InvalidateAllUserTokens_state f now randErr randByte salt post db claims.UserID
      with h | h
    · have : (s.Logout C (world f now randErr randByte salt post) db accessToken).state = db := by
        unfold Service.Logout
        simp only [hp]
        split <;> (rename_i heq; rw [← h, heq])
      unfold Service.Logout at this
      simp only [hp] at this
      rw [this]
      exact DB.Step.same db
    · have : (s.Logout C (world f now randErr randByte salt post) db accessToken).state
          = db.invalidateUser claims.UserID := by
        unfold Service.Logout
        simp only [hp]
        split <;> (rename_i heq; rw [← h, heq])
      unfold Service.Logout at this
      simp only [hp] at this
      rw [this]
      exact DB.Step.user db _

theorem RefreshTokens_world_step (C : Crypto) (s : Service) (f : Faults) (now : Time)
    (randErr : Option String) (randByte : Nat → Fin 256) (salt : String)
    (post : WebhookRequest → Except String Nat) (db : DB) (U : UUID) (S ua ip : String) :
    DB.Step db
      (s.RefreshTokens C (world f now randErr randByte salt post) db U S ua ip).state := by
  cases hread : (world f now randErr randByte salt post).repo.GetValidUserRefreshTokens db U with
  | error err =>
    unfold Service.RefreshTokens
    simp only [hread]
    split <;> exact DB.Step.same db
  | ok ts =>
    cases hm : Service.findMatch C ts S with
    | none =>
      rw [RefreshTokens_of_no_match C s _ db U S ua ip ts hread hm]
      exact DB.Step.same db
    | some t =>
      by_cases hua : t.UserAgent = ua
      · have hrot : (t.IP ≠ ip →
              Service.Webhook (world f now randErr randByte salt post) U ip = .ok ()) →
            DB.Step db
              (s.RefreshTokens C (world f now randErr randByte salt post) db U S ua ip).state := by
          intro hhook
          rw [RefreshTokens_of_rotate C s _ db U S ua ip ts t hread hm hua hhook]
          simp only []
          rcases world_InvalidateRefreshToken_state f now randErr randByte salt post db
            t.TokenHash with h | h
          · rw [h]
            exact GenerateTokens_world_step C s f now randErr randByte salt post db _ ua ip
          · rw [h]
            rcases GenerateTokens_world_state C s f now randErr randByte salt post
              (db.invalidateHash t.TokenHash) t.UserID ua ip with g | ⟨hash, g⟩
            · rw [g]; exact DB.Step.hash db _
            · rw [g]; exact DB.Step.hashInsert db _ _ rfl
        by_cases hip : t.IP = ip
        · exact hrot (fun h => absurd hip h)
        · cases hw : Service.Webhook (world f now randErr randByte salt post) U ip with
          | error err =>
            rw [RefreshTokens_of_hook_error C s _ db U S ua ip ts t err hread hm hua hip hw]
            exact DB.Step.same db
          | ok u => exact hrot (fun _ => hw)
      · rw [RefreshTokens_of_mismatch C s _ db U S ua ip ts t hread hm hua]
        simp only []
        rcases world_InvalidateAllUserTokens_state f now randErr randByte salt post db t.UserID
          with h | h
        · rw [h]; exact DB.Step.same db
        · rw [h]; exact DB.Step.user db _

theorem Call_run_step (C : Crypto) (s : Service) (db : DB) (call : Call) :
    DB.Step db (call.run C s db) := by
  cases call with
  | GenerateTokens f now randErr randByte salt post userID userAgent ip =>
    exact GenerateTokens_world_step C s f now randErr randByte salt post db userID userAgent ip
  | RefreshTokens f now randErr randByte salt post userID raw userAgent ip =>
    exact RefreshTokens_world_step C s f now randErr randByte salt post db userID raw userAgent ip
  | GetCurrentUserID now accessToken => exact DB.Step.same db
  | Logout f now randErr randByte salt post accessToken =>
    exact Logout_world_step C s f now randErr randByte salt post db accessToken

theorem runAll_evolves (C : Crypto) (s : Service) (calls : List Call) :
    ∀ db : DB, db.evolves (runAll C s db calls) := by
  induction calls with
  | nil => intro db; exact evolves_refl db
  | cons call rest ih =>
    intro db
    exact evolves_trans (Step_evolves (Call_run_step C s db call)) (ih (call.run C s db))

/-- C13: across every sequence of `GenerateTokens`, `RefreshTokens`, `GetCurrentUserID`
and `Logout` calls against Postgres, whatever queries fail, every session stored before
the sequence is still stored after it, at its place, with every field but `IsValid`
unchanged and valid only if it was valid before (an invalid session stays invalid); and
each single call stores new sessions only with `IsValid = true`. -/
theorem C13_session_lifecycle (C : Crypto) (s : Service) (db : DB) (calls : List Call)
    (call : Call) :
    db.evolves (runAll C s db calls) ∧ db.creates (call.run C s db) :=
  ⟨runAll_evolves C s calls db, Step_creates (Call_run_step C s db call)⟩

/-! ## Discarded invalidation errors -/

theorem world_InvalidateRefreshToken_users (f : Faults) (now : Time) (randErr : Option String)
    (randByte : Nat → Fin 256) (salt : String) (post : WebhookRequest → Except String Nat)
    (db : DB) (tokenHash : String) :
    ((world f now randErr randByte salt post).repo.InvalidateRefreshToken db tokenHash).2.users
      = db.users := by
  rcases world_InvalidateRefreshToken_state f now randErr randByte salt post db tokenHash
    with h | h
  · rw [h]
  · rw [h]
    rfl

theorem GenerateTokens_world_result_congr (C : Crypto) (s : Service) (f1 f2 : Faults) (now : Time)
    (randErr : Option String) (randByte : Nat → Fin 256) (salt : String)
    (post : WebhookRequest → Except String Nat)
    (db1 db2 : DB) (userID : UUID) (userAgent ip : String)
    (husers : db1.users = db2.users) (h2 : f1.GetUserByID = f2.GetUserByID)
    (h3 : f1.CreateRefreshToken = f2.CreateRefreshToken) :
    (s.GenerateTokens C (world f1 now randErr randByte salt post) db1 userID userAgent ip).result
      = (s.GenerateTokens C (world f2 now randErr randByte salt post) db2
          userID userAgent ip).result := by
  unfold Service.GenerateTokens
  simp only [world, Postgres, Postgres.GetUserByID, Service.generateAccessToken,
    generateRandomBase64, Postgres.CreateRefreshToken, h2, h3, husers]
  cases f2.GetUserByID with
  | some e => simp [errors.Is]
  | none =>
    cases db2.users.find? (fun u => decide (u.ID = userID)) with
    | none => simp [errors.Is]
    | some user =>
      cases randErr with
      | some e => simp
      | none =>
        cases h4 : C.GenerateFromPassword salt
            (base64.RawURLEncoding.EncodeToString ((List.range 32).map randByte)) with
        | error e => simp [h4]
        | ok hash =>
          cases f2.CreateRefreshToken with
          | some e => simp [h4]
          | none => simp [h4]

theorem RefreshTokens_world_result_congr (C : Crypto) (s : Service) (f1 f2 : Faults) (now : Time)
    (randErr : Option String) (randByte : Nat → Fin 256) (salt : String)
    (post : WebhookRequest → Except String Nat) (db : DB) (U : UUID) (S ua ip : String)
    (h1 : f1.GetValidUserRefreshTokens = f2.GetValidUserRefreshTokens)
    (h2 : f1.GetUserByID = f2.GetUserByID)
    (h3 : f1.CreateRefreshToken = f2.CreateRefreshToken) :
    (s.RefreshTokens C (world f1 now randErr randByte salt post) db U S ua ip).result
      = (s.RefreshTokens C (world f2 now randErr randByte salt post) db U S ua ip).result := by
  cases hf : f1.GetValidUserRefreshTokens with
  | some e =>
    have hf2 : f2.GetValidUserRefreshTokens = some e := by rw [← h1, hf]
    unfold Service.RefreshTokens
    simp only [world, Postgres, Postgres.GetValidUserRefreshTokens, hf, hf2]
  | none =>
    have hf2 : f2.GetValidUserRefreshTokens = none := by rw [← h1, hf]
    have hr1 := world_GetValid f1 now randErr randByte salt post db U hf
    have hr2 := world_GetValid f2 now randErr randByte salt post db U hf2
    cases hm : Service.findMatch C (db.refresh_tokens.filter (RefreshToken.isLive now U)) S with
    | none =>
      rw [RefreshTokens_of_no_match C s _ db U S ua ip _ hr1 hm,
        RefreshTokens_of_no_match C s _ db U S ua ip _ hr2 hm]
    | some t =>
      by_cases hua : t.UserAgent = ua
      · have hrot : (t.IP ≠ ip →
              Service.Webhook (world f1 now randErr randByte salt post) U ip = .ok ()) →
            (s.RefreshTokens C (world f1 now randErr randByte salt post) db U S ua ip).result
              = (s.RefreshTokens C (world f2 now randErr randByte salt post) db U S ua ip).result := by
          intro hhook
          rw [RefreshTokens_of_rotate C s _ db U S ua ip _ t hr1 hm hua hhook,
            RefreshTokens_of_rotate C s _ db U S ua ip _ t hr2 hm hua hhook]
          simp only []
          rw [GenerateTokens_world_result_congr C s f1 f2 now randErr randByte salt post _ _
            t.UserID ua ip
            ((world_InvalidateRefreshToken_users f1 now randErr randByte salt post db _).trans
              (world_InvalidateRefreshToken_users f2 now randErr randByte salt post db _).symm)
            h2 h3]
        by_cases hip : t.IP = ip
        · exact hrot (fun h => absurd hip h)
        · cases hw : Service.Webhook (world f1 now randErr randByte salt post) U ip with
          | error err =>
            rw [RefreshTokens_of_hook_error C s _ db U S ua ip _ t err hr1 hm hua hip hw,
              RefreshTokens_of_hook_error C s _ db U S ua ip _ t err hr2 hm hua hip hw]
          | ok u => exact hrot (fun _ => hw)
      · rw [RefreshTokens_of_mismatch C s _ db U S ua ip _ t hr1 hm hua,
          RefreshTokens_of_mismatch C s _ db U S ua ip _ t hr2 hm hua]

theorem findMatch_append_first (C : Crypto) (ts more : List RefreshToken) (t : RefreshToken)
    (raw : String) (h : Service.findMatch C ts raw = some t) :
    Service.findMatch C (ts ++ more) raw = some t := by
  unfold Service.findMatch at h ⊢
  rw [List.find?_append, h]
  rfl

/-- C14: an error of the store's `InvalidateRefreshToken` or `InvalidateAllUserTokens`
during `RefreshTokens` is discarded.  The call returns what it returns when both
queries run.  On the mismatch path with `InvalidateAllUserTokens` failing it returns
`er.ErrUserAgentMismatch` and the store is as it was; on the same-user-agent path with
`InvalidateRefreshToken` failing (the other collaborators succeeding) it returns the new
pair, the store is the old one plus the new session, and the presented secret still
matches the same live session. -/
theorem C14_invalidation_errors_swallowed (C : Crypto) (s : Service) (f : Faults) (now : Time)
    (randErr : Option String) (randByte : Nat → Fin 256) (salt : String)
    (post : WebhookRequest → Except String Nat) (db : DB) (U : UUID) (S ua ip : String) :
    (s.RefreshTokens C (world f now randErr randByte salt post) db U S ua ip).result
      = (s.RefreshTokens C (world f.invalidating now randErr randByte salt post) db
          U S ua ip).result
    ∧ (∀ (t : RefreshToken) (e : String),
        f.GetValidUserRefreshTokens = none →
        Service.findMatch C (db.refresh_tokens.filter (RefreshToken.isLive now U)) S = some t →
        t.UserAgent ≠ ua → f.InvalidateAllUserTokens = some e →
        (s.RefreshTokens C (world f now randErr randByte salt post) db U S ua ip).result
            = .error er.ErrUserAgentMismatch
        ∧ (s.RefreshTokens C (world f now randErr randByte salt post) db U S ua ip).state = db)
    ∧ (∀ (t : RefreshToken) (e hash : String) (user : User),
        f.GetValidUserRefreshTokens = none →
        Service.findMatch C (db.refresh_tokens.filter (RefreshToken.isLive now U)) S = some t →
        t.UserAgent = ua →
        (t.IP ≠ ip → Service.Webhook (world f now randErr randByte salt post) U ip = .ok ()) →
        f.InvalidateRefreshToken = some e →
        f.GetUserByID = none → f.CreateRefreshToken = none → randErr = none →
        db.users.find? (fun u => decide (u.ID = U)) = some user →
        C.GenerateFromPassword salt (refreshSecret randByte) = .ok hash →
        (s.RefreshTokens C (world f now randErr randByte salt post) db U S ua ip).result
            = .ok (issuedAccessToken C s now U, refreshSecret randByte)
        ∧ (s.RefreshTokens C (world f now randErr randByte salt post) db U S ua ip).state
            = db.insert (newSession s now U hash ua ip)
        ∧ Service.findMatch C
            ((s.RefreshTokens C (world f now randErr randByte salt post) db
              U S ua ip).state.refresh_tokens.filter (RefreshToken.isLive now U)) S = some t) := by
  refine ⟨RefreshTokens_world_result_congr C s f f.invalidating now randErr randByte salt post db
    U S ua ip rfl rfl rfl, ?_, ?_⟩
  · intro t e hf hm hua hfa
    rw [RefreshTokens_of_mismatch C s _ db U S ua ip _ t
      (world_GetValid f now randErr randByte salt post db U hf) hm hua]
    refine ⟨rfl, ?_⟩
    simp [world, Postgres, Postgres.InvalidateAllUserTokens, hfa]
  · intro t e hash user hf hm hua hhook hfi hf3 hf4 hr huser hhash
    subst hr
    have hU : t.UserID = U := isLive_userID (List.mem_filter.1 (findMatch_some C _ S t hm).1).2
    have hdb : ((world f now none randByte salt post).repo.InvalidateRefreshToken db
        t.TokenHash).2 = db := by
      simp [world, Postgres, Postgres.InvalidateRefreshToken, hfi]
    rw [RefreshTokens_of_rotate C s _ db U S ua ip _ t
      (world_GetValid f now none randByte salt post db U hf) hm hua hhook, hdb, hU,
      GenerateTokens_world C s f now randByte salt post db U ua ip hash user hf3 hf4 huser hhash]
    refine ⟨rfl, rfl, ?_⟩
    simp only [DB.insert, List.filter_append]
    exact findMatch_append_first C _ _ t S hm

/-- Witness for C14: the session of `u1` is rotated while the UPDATE by hash fails (a
new pair is returned and the old secret still matches), and presented with another
user-agent while the UPDATE by user fails (the store is unchanged). -/
theorem C14_invalidation_errors_swallowed_witness :
    (exampleService.RefreshTokens exampleCrypto
        (world brokenHashUpdate 5 none (fun _ => 2) "s1" (fun _ => .ok 200)) exampleIssued
        u1 exampleSecret "Mozilla" "1.2.3.4").result
      = .ok (issuedAccessToken exampleCrypto exampleService 5 u1,
          "AgICAgICAgICAgICAgICAgICAgICAgICAgICAgICAgI")
    ∧ Service.findMatch exampleCrypto
        ((exampleService.RefreshTokens exampleCrypto
            (world brokenHashUpdate 5 none (fun _ => 2) "s1" (fun _ => .ok 200)) exampleIssued
            u1 exampleSecret "Mozilla" "1.2.3.4").state.refresh_tokens.filter
          (RefreshToken.isLive 5 u1)) exampleSecret
      = some { ID := 1, UserID := u1,
               TokenHash := "AQEBAQEBAQEBAQEBAQEBAQEBAQEBAQEBAQEBAQEBAQE$s0",
               UserAgent := "Mozilla", IP := "1.2.3.4", IssuedAt := 0,
               ExpiresAt := 3600000000000, IsValid := true }
    ∧ (exampleService.RefreshTokens exampleCrypto
        (world brokenUserUpdate 5 none (fun _ => 2) "s1" (fun _ => .ok 200)) exampleIssued
        u1 exampleSecret "Chrome" "1.2.3.4").result = .error er.ErrUserAgentMismatch
    ∧ (exampleService.RefreshTokens exampleCrypto
        (world brokenUserUpdate 5 none (fun _ => 2) "s1" (fun _ => .ok 200)) exampleIssued
        u1 exampleSecret "Chrome" "1.2.3.4").state = exampleIssued :=
  have h := C14_invalidation_errors_swallowed exampleCrypto exampleService brokenHashUpdate 5
    none (fun _ => 2) "s1" (fun _ => .ok 200) exampleIssued u1 exampleSecret "Mozilla" "1.2.3.4"
  have g := C14_invalidation_errors_swallowed exampleCrypto exampleService brokenUserUpdate 5
    none (fun _ => 2) "s1" (fun _ => .ok 200) exampleIssued u1 exampleSecret "Chrome" "1.2.3.4"
  have h3 := h.2.2
    { ID := 1, UserID := u1, TokenHash := "AQEBAQEBAQEBAQEBAQEBAQEBAQEBAQEBAQEBAQEBAQE$s0",
      UserAgent := "Mozilla", IP := "1.2.3.4", IssuedAt := 0, ExpiresAt := 3600000000000,
      IsValid := true }
    "connection reset" "AgICAgICAgICAgICAgICAgICAgICAgICAgICAgICAgI$s1"
    { ID := u1, CreatedAt := 0, UpdatedAt := 0 }
    rfl (by decide) rfl (fun hne => absurd rfl hne) rfl rfl rfl rfl (by decide) rfl
  have g2 := g.2.1
    { ID := 1, UserID := u1, TokenHash := "AQEBAQEBAQEBAQEBAQEBAQEBAQEBAQEBAQEBAQEBAQE$s0",
      UserAgent := "Mozilla", IP := "1.2.3.4", IssuedAt := 0, ExpiresAt := 3600000000000,
      IsValid := true }
    "connection reset" rfl (by decide) (by decide) rfl
  ⟨h3.1, h3.2.2, g2.1, g2.2⟩

/-! ## Sessions of another user -/

theorem filter_map_fixed (l : List RefreshToken) (g : RefreshToken → RefreshToken)
    (p : RefreshToken → Bool)
    (hfix : ∀ x ∈ l, p x = true → g x = x)
    (hout : ∀ x ∈ l, p x = false → p (g x) = false) :
    (l.map g).filter p = l.filter p := by
  induction l with
  | nil => rfl
  | cons a rest ih =>
    have ihr := ih (fun x hx => hfix x (List.mem_cons_of_mem a hx))
      (fun x hx => hout x (List.mem_cons_of_mem a hx))
    cases hp : p a with
    | true =>
      have hga : g a = a := hfix a (List.mem_cons_self a rest) hp
      simp only [List.map_cons, hga, List.filter_cons, hp, if_true, ihr]
    | false =>
      have hga : p (g a) = false := hout a (List.mem_cons_self a rest) hp
      simp only [List.map_cons, List.filter_cons, hp, hga, ihr]
      simp

theorem sessionsOf_invalidateUser (db : DB) (U V : UUID) (hUV : U ≠ V) :
    (db.invalidateUser U).sessionsOf V = db.sessionsOf V := by
  unfold DB.sessionsOf DB.invalidateUser
  apply filter_map_fixed
  · intro x _ hx
    have hxV : x.UserID = V := by simpa using hx
    have : x.UserID ≠ U := fun h => hUV (h.symm.trans hxV)
    rw [if_neg this]
  · intro x _ hx
    by_cases h : x.UserID = U
    · rw [if_pos h]; exact hx
    · rw [if_neg h]; exact hx

theorem sessionsOf_invalidateHash (db : DB) (V : UUID) (tokenHash : String)
    (hfree : ∀ x ∈ db.refresh_tokens, x.UserID = V → x.TokenHash ≠ tokenHash) :
    (db.invalidateHash tokenHash).sessionsOf V = db.sessionsOf V := by
  unfold DB.sessionsOf DB.invalidateHash
  apply filter_map_fixed
  · intro x hmem hx
    have hxV : x.UserID = V := by simpa using hx
    rw [if_neg (hfree x hmem hxV)]
  · intro x _ hx
    by_cases h : x.TokenHash = tokenHash
    · rw [if_pos h]; exact hx
    · rw [if_neg h]; exact hx

theorem sessionsOf_insert (db : DB) (V : UUID) (token : RefreshToken)
    (hne : token.UserID ≠ V) : (db.insert token).sessionsOf V = db.sessionsOf V := by
  unfold DB.sessionsOf DB.insert
  simp [List.filter_append, hne]

theorem RefreshTokens_world_state (C : Crypto) (s : Service) (f : Faults) (now : Time)
    (randErr : Option String) (randByte : Nat → Fin 256) (salt : String)
    (post : WebhookRequest → Except String Nat) (db : DB) (U : UUID) (S ua ip : String) :
    (s.RefreshTokens C (world f now randErr randByte salt post) db U S ua ip).state = db
    ∨ (s.RefreshTokens C (world f now randErr randByte salt post) db U S ua ip).state
        = db.invalidateUser U
    ∨ (∃ hash, (s.RefreshTokens C (world f now randErr randByte salt post) db U S ua ip).state
        = db.insert (newSession s now U hash ua ip))
    ∨ ∃ t, t ∈ db.refresh_tokens ∧ RefreshToken.isLive now U t = true
        ∧ ((s.RefreshTokens C (world f now randErr randByte salt post) db U S ua ip).state
            = db.invalidateHash t.TokenHash
          ∨ ∃ hash, (s.RefreshTokens C (world f now randErr randByte salt post) db
              U S ua ip).state
              = (db.invalidateHash t.TokenHash).insert (newSession s now U hash ua ip)) := by
  cases hread : (world f now randErr randByte salt post).repo.GetValidUserRefreshTokens db U with
  | error err =>
    left
    unfold Service.RefreshTokens
    simp only [hread]
    split <;> rfl
  | ok ts =>
    obtain ⟨-, hts⟩ := world_read_ok f now randErr randByte salt post db U ts hread
    cases hm : Service.findMatch C ts S with
    | none =>
      left
      rw [RefreshTokens_of_no_match C s _ db U S ua ip ts hread hm]
    | some t =>
      have hmem : t ∈ db.refresh_tokens ∧ RefreshToken.isLive now U t = true := by
        have := (findMatch_some C ts S t hm).1
        rw [hts] at this
        exact List.mem_filter.1 this
      have hU : t.UserID = U := isLive_userID hmem.2
      by_cases hua : t.UserAgent = ua
      · have hrot : (t.IP ≠ ip →
              Service.Webhook (world f now randErr randByte salt post) U ip = .ok ()) →
            ((s.RefreshTokens C (world f now randErr randByte salt post) db U S ua ip).state = db
            ∨ (s.RefreshTokens C (world f now randErr randByte salt post) db U S ua ip).state
                = db.invalidateUser U
            ∨ (∃ hash, (s.RefreshTokens C (world f now randErr randByte salt post) db
                  U S ua ip).state = db.insert (newSession s now U hash ua ip))
            ∨ ∃ t, t ∈ db.refresh_tokens ∧ RefreshToken.isLive now U t = true
                ∧ ((s.RefreshTokens C (world f now randErr randByte salt post) db
                      U S ua ip).state = db.invalidateHash t.TokenHash
                  ∨ ∃ hash, (s.RefreshTokens C (world f now randErr randByte salt post) db
                      U S ua ip).state
                      = (db.invalidateHash t.TokenHash).insert
                          (newSession s now U hash ua ip))) := by
          intro hhook
          rw [RefreshTokens_of_rotate C s _ db U S ua ip ts t hread hm hua hhook, hU]
          simp only []
          rcases world_InvalidateRefreshToken_state f now randErr randByte salt post db
            t.TokenHash with h | h
          · rw [h]
            rcases GenerateTokens_world_state C s f now randErr randByte salt post db U ua ip
              with g | ⟨hash, g⟩
            · exact Or.inl g
            · exact Or.inr (Or.inr (Or.inl ⟨hash, g⟩))
          · rw [h]
            rcases GenerateTokens_world_state C s f now randErr randByte salt post
              (db.invalidateHash t.TokenHash) U ua ip with g | ⟨hash, g⟩
            · exact Or.inr (Or.inr (Or.inr ⟨t, hmem.1, hmem.2, Or.inl g⟩))
            · exact Or.inr (Or.inr (Or.inr ⟨t, hmem.1, hmem.2, Or.inr ⟨hash, g⟩⟩))
        by_cases hip : t.IP = ip
        · exact hrot (fun h => absurd hip h)
        · cases hw : Service.Webhook (world f now randErr randByte salt post) U ip with
          | error err =>
            left
            rw [RefreshTokens_of_hook_error C s _ db U S ua ip ts t err hread hm hua hip hw]
          | ok u => exact hrot (fun _ => hw)
      · rw [RefreshTokens_of_mismatch C s _ db U S ua ip ts t hread hm hua, hU]
        simp only []
        rcases world_InvalidateAllUserTokens_state f now randErr randByte salt post db U
          with h | h
        · exact Or.inl h
        · exact Or.inr (Or.inl h)

theorem Logout_world_state (C : Crypto) (s : Service) (f : Faults) (now : Time)
    (randErr : Option String) (randByte : Nat → Fin 256) (salt : String)
    (post : WebhookRequest → Except String Nat) (db : DB) (accessToken : TokenString)
    (claims : AccessTokenClaims)
    (hparse : s.parseAccessToken C now accessToken = .ok claims) :
    (s.Logout C (world f now randErr randByte salt post) db accessToken).state = db
      ∨ (s.Logout C (world f now randErr randByte salt post) db accessToken).state
          = db.invalidateUser claims.UserID := by
  have hnow : (world f now randErr randByte salt post).now = now := rfl
  cases hf : f.InvalidateAllUserTokens with
  | some e =>
    left
    unfold Service.Logout
    rw [hnow]
    simp [hparse, world, Postgres, Postgres.InvalidateAllUserTokens, hf]
  | none =>
    right
    unfold Service.Logout
    rw [hnow]
    simp [hparse, world, Postgres, Postgres.InvalidateAllUserTokens, hf]

/-- C15: for distinct users `U` and `V`, in a store where a secret `S` verifies only
against sessions of `U` and no session of `V` shares a token hash with a session of `U`:
`RefreshTokens(V, S, ...)` whose read succeeds fails with `er.ErrInvalidToken`; and no
`RefreshTokens` call made for `U` (whatever secret, user-agent, IP and failing queries,
the mass invalidation included) and no `Logout` with a token of `U` changes the sessions
of `V`: they are the same rows, field by field, in the same order. -/
theorem C15_cross_user_isolation (C : Crypto) (s : Service) (db : DB) (U V : UUID) (S : String)
    (hUV : U ≠ V)
    (honly : ∀ x ∈ db.refresh_tokens, C.CompareHashAndPassword x.TokenHash S = true →
      x.UserID = U)
    (hdistinct : ∀ x ∈ db.refresh_tokens, ∀ y ∈ db.refresh_tokens,
      x.UserID = U → y.UserID = V → x.TokenHash ≠ y.TokenHash) :
    (∀ (f : Faults) (now : Time) (randErr : Option String) (randByte : Nat → Fin 256)
        (salt : String) (post : WebhookRequest → Except String Nat) (ua ip : String),
        f.GetValidUserRefreshTokens = none →
        (s.RefreshTokens C (world f now randErr randByte salt post) db V S ua ip).result
          = .error er.ErrInvalidToken)
    ∧ (∀ (f : Faults) (now : Time) (randErr : Option String) (randByte : Nat → Fin 256)
        (salt : String) (post : WebhookRequest → Except String Nat) (raw ua ip : String),
        (s.RefreshTokens C (world f now randErr randByte salt post) db U raw ua ip).state.sessionsOf V
          = db.sessionsOf V)
    ∧ (∀ (f : Faults) (now : Time) (randErr : Option String) (randByte : Nat → Fin 256)
        (salt : String) (post : WebhookRequest → Except String Nat)
        (accessToken : TokenString) (claims : AccessTokenClaims),
        s.parseAccessToken C now accessToken = .ok claims → claims.UserID = U →
        (s.Logout C (world f now randErr randByte salt post) db accessToken).state.sessionsOf V
          = db.sessionsOf V) := by
  refine ⟨?_, ?_, ?_⟩
  · intro f now randErr randByte salt post ua ip hf
    have h := RefreshTokens_world_dead C s f now randErr randByte salt post db V S ua ip hf
      (by
        intro t ht hl
        cases hc : C.CompareHashAndPassword t.TokenHash S with
        | false => rfl
        | true =>
          have h1 : t.UserID = U := honly t ht hc
          have h2 : t.UserID = V := isLive_userID hl
          exact absurd (h1.symm.trans h2) hUV)
    exact congrArg Outcome.result h
  · intro f now randErr randByte salt post raw ua ip
    have hnew : ∀ hash, (newSession s now U hash ua ip).UserID ≠ V := fun _ => hUV
    rcases RefreshTokens_world_state C s f now randErr randByte salt post db U raw ua ip
      with h | h | ⟨hash, h⟩ | ⟨t, ht, hl, h | ⟨hash, h⟩⟩
    · rw [h]
    · rw [h]; exact sessionsOf_invalidateUser db U V hUV
    · rw [h]; exact sessionsOf_insert db V _ (hnew hash)
    · rw [h]
      exact sessionsOf_invalidateHash db V _
        (fun x hx hxV he => hdistinct t ht x hx (isLive_userID hl) hxV he.symm)
    · rw [h, sessionsOf_insert _ V _ (hnew hash)]
      exact sessionsOf_invalidateHash db V _
        (fun x hx hxV he => hdistinct t ht x hx (isLive_userID hl) hxV he.symm)
  · intro f now randErr randByte salt post accessToken claims hparse hU
    rcases Logout_world_state C s f now randErr randByte salt post db accessToken claims hparse
      with h | h
    · rw [h]
    · rw [h, hU]; exact sessionsOf_invalidateUser db U V hUV

/-- Witness for C15: in the store with users `u1` and `u2`, the secret of `u1` is
presented for `u2`, and `u1` presents it with another user-agent, which invalidates
every session of `u1` and leaves the session of `u2` as it was. -/
theorem C15_cross_user_isolation_witness :
    (exampleService.RefreshTokens exampleCrypto (exampleWorld 5 2 "s1" 200) twoUsers
        u2 exampleSecret "Mozilla" "1.2.3.4").result = .error er.ErrInvalidToken
    ∧ (exampleService.RefreshTokens exampleCrypto (exampleWorld 5 2 "s1" 200) twoUsers
        u1 exampleSecret "Chrome" "1.2.3.4").state.sessionsOf u2 = twoUsers.sessionsOf u2 :=
  have h := C15_cross_user_isolation exampleCrypto exampleService twoUsers u1 u2
    exampleSecret (by decide)
    (by
      intro x hx hc
      simp only [twoUsers, List.mem_cons, List.mem_singleton, List.not_mem_nil, or_false] at hx
      rcases hx with rfl | rfl
      · rfl
      · exact absurd hc (by decide))
    (by
      intro x hx y hy hxU hyV
      simp only [twoUsers, List.mem_cons, List.mem_singleton, List.not_mem_nil, or_false] at hx hy
      rcases hx with rfl | rfl <;> rcases hy with rfl | rfl
      · exact absurd hyV (by decide)
      · decide
      · exact absurd hxU (by decide)
      · exact absurd hxU (by decide))
  ⟨h.1 Faults.healthy 5 none (fun _ => 2) "s1" (fun _ => .ok 200) "Mozilla" "1.2.3.4" rfl,
   h.2.1 Faults.healthy 5 none (fun _ => 2) "s1" (fun _ => .ok 200) exampleSecret "Chrome"
     "1.2.3.4"⟩

/-! ## Consumption before issue -/

theorem map_eq_self_mem (l : List RefreshToken) (g : RefreshToken → RefreshToken)
    (h : l.map g = l) : ∀ x ∈ l, g x = x := by
  induction l with
  | nil => intro x hx; cases hx
  | cons a rest ih =>
    simp only [List.map_cons, List.cons.injEq] at h
    intro x hx
    rcases List.mem_cons.1 hx with rfl | hx
    · exact h.1
    · exact ih h.2 x hx

theorem invalidateUser_ne (db : DB) (t : RefreshToken) (ht : t ∈ db.refresh_tokens)
    (hv : t.IsValid = true) : db.invalidateUser t.UserID ≠ db := by
  intro h
  have hrows := congrArg DB.refresh_tokens h
  simp only [DB.invalidateUser] at hrows
  have := map_eq_self_mem _ _ hrows t ht
  simp only [if_true] at this
  have hv2 := congrArg RefreshToken.IsValid this
  simp only [hv] at hv2
  cases hv2

theorem invalidateHash_ne (db : DB) (t : RefreshToken) (ht : t ∈ db.refresh_tokens)
    (hv : t.IsValid = true) : db.invalidateHash t.TokenHash ≠ db := by
  intro h
  have hrows := congrArg DB.refresh_tokens h
  simp only [DB.invalidateHash] at hrows
  have := map_eq_self_mem _ _ hrows t ht
  simp only [if_true] at this
  have hv2 := congrArg RefreshToken.IsValid this
  simp only [hv] at hv2
  cases hv2

theorem GenerateTokens_world_error_state (C : Crypto) (s : Service) (f : Faults) (now : Time)
    (randErr : Option String) (randByte : Nat → Fin 256) (salt : String)
    (post : WebhookRequest → Except String Nat) (db : DB) (userID : UUID) (userAgent ip : String)
    (err : Err)
    (h : (s.GenerateTokens C (world f now randErr randByte salt post) db
      userID userAgent ip).result = .error err) :
    (s.GenerateTokens C (world f now randErr randByte salt post) db userID userAgent ip).state
      = db := by
  unfold Service.GenerateTokens at h ⊢
  simp only [world, Postgres, Postgres.GetUserByID, Service.generateAccessToken,
    generateRandomBase64, Postgres.CreateRefreshToken] at h ⊢
  cases h1 : f.GetUserByID with
  | some e => simp [errors.Is]
  | none =>
    cases h2 : db.users.find? (fun u => decide (u.ID = userID)) with
    | none => simp [errors.Is]
    | some user =>
      cases h3 : randErr with
      | some e => simp
      | none =>
        cases h4 : C.GenerateFromPassword salt
            (base64.RawURLEncoding.EncodeToString ((List.range 32).map randByte)) with
        | error e => simp [h4]
        | ok hash =>
          cases h5 : f.CreateRefreshToken with
          | some e => simp [h4]
          | none => simp [h1, h2, h3, h4, h5] at h

theorem GenerateTokens_trace_head {σ : Type} (C : Crypto) (s : Service) (env : Env σ) (db : σ)
    (userID : UUID) (userAgent ip : String) :
    ∃ rest, (s.GenerateTokens C env db userID userAgent ip).trace
      = Event.GenerateTokens userID userAgent ip :: rest := by
  unfold Service.GenerateTokens
  simp only [Service.generateAccessToken]
  repeat' split
  all_goals exact ⟨_, rfl⟩

/-! ## C2: device binding -/

/-- C2, as stated, fails: the session of `u1` is presented with user-agent `Chrome`
while the UPDATE by user fails.  `RefreshTokens` returns `er.ErrUserAgentMismatch` and
discards the store's error, the store is as it was, the session of `u1` is still valid,
and the next `RefreshTokens` with the same secret and the original user-agent returns a
new pair instead of `er.ErrInvalidToken`. -/
theorem C2_failed_update_counterexample :
    (exampleService.RefreshTokens exampleCrypto
        (world brokenUserUpdate 5 none (fun _ => 2) "s1" (fun _ => .ok 200)) exampleIssued
        u1 exampleSecret "Chrome" "1.2.3.4").result = .error er.ErrUserAgentMismatch
    ∧ (exampleService.RefreshTokens exampleCrypto
        (world brokenUserUpdate 5 none (fun _ => 2) "s1" (fun _ => .ok 200)) exampleIssued
        u1 exampleSecret "Chrome" "1.2.3.4").state = exampleIssued
    ∧ (∃ x ∈ exampleIssued.refresh_tokens, x.UserID = u1 ∧ x.IsValid = true)
    ∧ (exampleService.RefreshTokens exampleCrypto (exampleWorld 6 3 "s2" 200)
        (exampleService.RefreshTokens exampleCrypto
          (world brokenUserUpdate 5 none (fun _ => 2) "s1" (fun _ => .ok 200)) exampleIssued
          u1 exampleSecret "Chrome" "1.2.3.4").state
        u1 exampleSecret "Mozilla" "1.2.3.4").result
      = .ok (issuedAccessToken exampleCrypto exampleService 6 u1,
          "AwMDAwMDAwMDAwMDAwMDAwMDAwMDAwMDAwMDAwMDAwM") := by
  refine ⟨rfl, rfl, ⟨_, List.mem_singleton.2 rfl, rfl, rfl⟩, rfl⟩

/-- C2, amended: when the presented secret matches a live session of `U` whose stored
user-agent differs from the presented one, `RefreshTokens` fails with
`er.ErrUserAgentMismatch` and calls the issuer not at all (its only calls are the read
and `InvalidateAllUserTokens`).  When that `InvalidateAllUserTokens` call succeeds, every
session of `U` is invalid afterwards and a later `RefreshTokens` for `U`, in particular
with `S` and the original user-agent, fails with `er.ErrInvalidToken`; when it fails,
its error is discarded and the store is as it was. -/
theorem C2_device_binding (C : Crypto) (s : Service) (f f2 : Faults) (now now2 : Time)
    (randErr randErr2 : Option String) (randByte randByte2 : Nat → Fin 256) (salt salt2 : String)
    (post post2 : WebhookRequest → Except String Nat) (db : DB) (U : UUID) (S ua ip ip2 : String)
    (t : RefreshToken)
    (hf : f.GetValidUserRefreshTokens = none)
    (hf2 : f2.GetValidUserRefreshTokens = none)
    (hmatch : Service.findMatch C (db.refresh_tokens.filter (RefreshToken.isLive now U)) S
      = some t)
    (hua : t.UserAgent ≠ ua) :
    (s.RefreshTokens C (world f now randErr randByte salt post) db U S ua ip).result
        = .error er.ErrUserAgentMismatch
    ∧ (s.RefreshTokens C (world f now randErr randByte salt post) db U S ua ip).trace
        = [.GetValidUserRefreshTokens U, .InvalidateAllUserTokens U]
    ∧ (f.InvalidateAllUserTokens = none →
        (∀ x ∈ (s.RefreshTokens C (world f now randErr randByte salt post) db
              U S ua ip).state.refresh_tokens,
            x.UserID = U → x.IsValid = false)
        ∧ (s.RefreshTokens C (world f2 now2 randErr2 randByte2 salt2 post2)
            (s.RefreshTokens C (world f now randErr randByte salt post) db U S ua ip).state
            U S t.UserAgent ip2).result = .error er.ErrInvalidToken)
    ∧ (f.InvalidateAllUserTokens ≠ none →
        (s.RefreshTokens C (world f now randErr randByte salt post) db U S ua ip).state = db) := by
  have hmem := findMatch_some C _ S t hmatch
  have hU : t.UserID = U := isLive_userID (List.mem_filter.1 hmem.1).2
  have h1 := RefreshTokens_of_mismatch C s (world f now randErr randByte salt post) db U S ua ip
    _ t (world_GetValid f now randErr randByte salt post db U hf) hmatch hua
  rw [hU] at h1
  rw [h1]
  refine ⟨rfl, rfl, ?_, ?_⟩
  · intro hfa
    rw [world_InvalidateAllUserTokens f now randErr randByte salt post db U hfa]
    refine ⟨fun x hx hxu => invalidateUser_invalid db U x hx hxu, ?_⟩
    have h2 := RefreshTokens_world_dead C s f2 now2 randErr2 randByte2 salt2 post2
      (db.invalidateUser U) U S t.UserAgent ip2 hf2
      (by
        intro x hx hl
        rw [invalidateUser_not_live db U now2 x hx] at hl
        exact absurd hl (by decide))
    exact congrArg Outcome.result h2
  · intro hfa
    cases hfe : f.InvalidateAllUserTokens with
    | none => exact absurd hfe hfa
    | some e => simp [world, Postgres, Postgres.InvalidateAllUserTokens, hfe]

/-- Witness for C2: the session issued for `u1` with user-agent `Mozilla` is presented
with user-agent `Chrome`, then again with `Mozilla`, no query failing. -/
theorem C2_device_binding_witness :
    (exampleService.RefreshTokens exampleCrypto (exampleWorld 5 2 "s1" 200) exampleIssued
        u1 exampleSecret "Chrome" "1.2.3.4").result = .error er.ErrUserAgentMismatch
    ∧ (exampleService.RefreshTokens exampleCrypto (exampleWorld 6 3 "s2" 200)
        (exampleService.RefreshTokens exampleCrypto (exampleWorld 5 2 "s1" 200) exampleIssued
          u1 exampleSecret "Chrome" "1.2.3.4").state
        u1 exampleSecret "Mozilla" "1.2.3.4").result = .error er.ErrInvalidToken :=
  have h := C2_device_binding exampleCrypto exampleService Faults.healthy Faults.healthy 5 6
    none none (fun _ => 2) (fun _ => 3) "s1" "s2" (fun _ => .ok 200) (fun _ => .ok 200)
    exampleIssued u1 exampleSecret "Chrome" "1.2.3.4" "1.2.3.4"
    { ID := 1, UserID := u1, TokenHash := "AQEBAQEBAQEBAQEBAQEBAQEBAQEBAQEBAQEBAQEBAQE$s0",
      UserAgent := "Mozilla", IP := "1.2.3.4", IssuedAt := 0, ExpiresAt := 3600000000000,
      IsValid := true }
    rfl rfl (by decide) (by decide)
  ⟨h.1, (h.2.2.1 rfl).2⟩

/-! ## C4: the notification count and what follows an accepted notification -/

theorem world_InvalidateRefreshToken_failed (f : Faults) (now : Time) (randErr : Option String)
    (randByte : Nat → Fin 256) (salt : String) (post : WebhookRequest → Except String Nat)
    (db : DB) (tokenHash : String) (hf : f.InvalidateRefreshToken ≠ none) :
    ((world f now randErr randByte salt post).repo.InvalidateRefreshToken db tokenHash).2
      = db := by
  cases hfe : f.InvalidateRefreshToken with
  | none => exact absurd hfe hf
  | some e => simp [world, Postgres, Postgres.InvalidateRefreshToken, hfe]

theorem issueKind_users (C : Crypto) (f : Faults) (randErr : Option String)
    (randByte : Nat → Fin 256) (salt : String) (db1 db2 : DB) (userID : UUID)
    (h : db1.users = db2.users) :
    issueKind C f randErr randByte salt db1 userID
      = issueKind C f randErr randByte salt db2 userID := by
  unfold issueKind
  rw [h]

theorem terminal_error_ne_Success {α : Type} (e : Err) :
    terminal (.error e : Except Err α) ≠ .Success := by
  unfold terminal
  simp only []
  repeat' split
  all_goals exact fun h => by cases h

theorem GenerateTokens_world_mem (C : Crypto) (s : Service) (f : Faults) (now : Time)
    (randErr : Option String) (randByte : Nat → Fin 256) (salt : String)
    (post : WebhookRequest → Except String Nat) (db : DB) (userID : UUID) (userAgent ip : String)
    (x : RefreshToken) (hx : x ∈ db.refresh_tokens) :
    x ∈ (s.GenerateTokens C (world f now randErr randByte salt post) db
      userID userAgent ip).state.refresh_tokens := by
  rcases GenerateTokens_world_state C s f now randErr randByte salt post db userID userAgent ip
    with h | ⟨hash, h⟩
  · rw [h]; exact hx
  · rw [h]
    simp only [DB.insert, List.mem_append]
    exact Or.inl hx

theorem GenerateTokens_world_of_Success (C : Crypto) (s : Service) (f : Faults) (now : Time)
    (randErr : Option String) (randByte : Nat → Fin 256) (salt : String)
    (post : WebhookRequest → Except String Nat) (db : DB) (userID : UUID) (userAgent ip : String)
    (h : issueKind C f randErr randByte salt db userID = .Success) :
    (s.GenerateTokens C (world f now randErr randByte salt post) db userID userAgent ip).result
      = .ok (issuedAccessToken C s now userID, refreshSecret randByte) := by
  have ht := terminal_reissue C s f now randErr randByte salt post db userID userAgent ip
  rw [h] at ht
  cases hg : (s.GenerateTokens C (world f now randErr randByte salt post) db
      userID userAgent ip).result with
  | error e =>
    rw [hg] at ht
    exact absurd ht (terminal_error_ne_Success _)
  | ok pair =>
    obtain ⟨h1, h2, h3, ⟨user, huser⟩, ⟨hash, hhash⟩⟩ :=
      GenerateTokens_world_inv C s f now randErr randByte salt post db userID userAgent ip pair hg
    subst h3
    rw [GenerateTokens_world C s f now randByte salt post db userID userAgent ip hash user
      h1 h2 huser hhash] at hg
    exact hg.symm

theorem RefreshTokens_world_reissue (C : Crypto) (s : Service) (f : Faults) (now : Time)
    (randErr : Option String) (randByte : Nat → Fin 256) (salt : String)
    (post : WebhookRequest → Except String Nat) (db : DB) (U : UUID) (S ua ip : String)
    (t : RefreshToken)
    (hf : f.GetValidUserRefreshTokens = none)
    (hm : Service.findMatch C (db.refresh_tokens.filter (RefreshToken.isLive now U)) S = some t)
    (hua : t.UserAgent = ua)
    (hhook : t.IP ≠ ip → Service.Webhook (world f now randErr randByte salt post) U ip = .ok ()) :
    s.RefreshTokens C (world f now randErr randByte salt post) db U S ua ip
      = ⟨match (s.GenerateTokens C (world f now randErr randByte salt post)
            ((world f now randErr randByte salt post).repo.InvalidateRefreshToken db
              t.TokenHash).2 U ua ip).result with
          | .error err => .error (.errorf "failed to generate new tokens" err)
          | .ok pair => .ok pair,
         (s.GenerateTokens C (world f now randErr randByte salt post)
            ((world f now randErr randByte salt post).repo.InvalidateRefreshToken db
              t.TokenHash).2 U ua ip).state,
         rotateTrace (world f now randErr randByte salt post) U ip t
           ++ (s.GenerateTokens C (world f now randErr randByte salt post)
                ((world f now randErr randByte salt post).repo.InvalidateRefreshToken db
                  t.TokenHash).2 U ua ip).trace⟩ := by
  have hU : t.UserID = U := isLive_userID (List.mem_filter.1 (findMatch_some C _ S t hm).1).2
  rw [RefreshTokens_of_rotate C s _ db U S ua ip _ t
    (world_GetValid f now randErr randByte salt post db U hf) hm hua hhook, hU]

/-- C4, as stated, fails in its last sentence.  The session of `u1`, issued from
`1.2.3.4`, is presented from `5.6.7.8` and the webhook endpoint answers 200.  When the
UPDATE by hash fails, its error is discarded: one notification is sent and a new pair
is returned, and the matched session is still valid.  When the INSERT fails, one
notification is sent and the matched session is made invalid, and no pair is
returned. -/
theorem C4_accepted_notification_counterexample :
    (posts (exampleService.RefreshTokens exampleCrypto
        (world brokenHashUpdate 5 none (fun _ => 2) "s1" (fun _ => .ok 200)) exampleIssued
        u1 exampleSecret "Mozilla" "5.6.7.8").trace
        = [{ NewIP := "5.6.7.8", UserID := u1, Ts := 0 }]
      ∧ (exampleService.RefreshTokens exampleCrypto
          (world brokenHashUpdate 5 none (fun _ => 2) "s1" (fun _ => .ok 200)) exampleIssued
          u1 exampleSecret "Mozilla" "5.6.7.8").result
          = .ok (issuedAccessToken exampleCrypto exampleService 5 u1,
              "AgICAgICAgICAgICAgICAgICAgICAgICAgICAgICAgI")
      ∧ (exampleService.RefreshTokens exampleCrypto
          (world brokenHashUpdate 5 none (fun _ => 2) "s1" (fun _ => .ok 200)) exampleIssued
          u1 exampleSecret "Mozilla" "5.6.7.8").state.refresh_tokens.map
            (fun x => (x.TokenHash, x.IsValid))
          = [("AQEBAQEBAQEBAQEBAQEBAQEBAQEBAQEBAQEBAQEBAQE$s0", true),
             ("AgICAgICAgICAgICAgICAgICAgICAgICAgICAgICAgI$s1", true)])
    ∧ (posts (exampleService.RefreshTokens exampleCrypto
        (world brokenInsert 5 none (fun _ => 2) "s1" (fun _ => .ok 200)) exampleIssued
        u1 exampleSecret "Mozilla" "5.6.7.8").trace
        = [{ NewIP := "5.6.7.8", UserID := u1, Ts := 0 }]
      ∧ (exampleService.RefreshTokens exampleCrypto
          (world brokenInsert 5 none (fun _ => 2) "s1" (fun _ => .ok 200)) exampleIssued
          u1 exampleSecret "Mozilla" "5.6.7.8").result
          = .error (.errorf "failed to generate new tokens"
              (.errorf "failed to create refresh token"
                (.errorf "failed to create refresh token for user 00000000-0000-0000-0000-000000000001"
                  (.foreign "disk full"))))
      ∧ (exampleService.RefreshTokens exampleCrypto
          (world brokenInsert 5 none (fun _ => 2) "s1" (fun _ => .ok 200)) exampleIssued
          u1 exampleSecret "Mozilla" "5.6.7.8").state.refresh_tokens.map
            (fun x => (x.TokenHash, x.IsValid))
          = [("AQEBAQEBAQEBAQEBAQEBAQEBAQEBAQEBAQEBAQEBAQE$s0", false)]) := by
  refine ⟨⟨rfl, rfl, rfl⟩, rfl, rfl, rfl⟩

/-- C4, amended: the webhook is called exactly once, with `new_ip` the presented IP and
`guid` the user ID, when the presented secret matches a live session whose user-agent
equals the presented one and whose stored IP differs; it is called zero times in every
other case (failed read, no match, user-agent mismatch, same IP).  When that call is
answered with a 2xx status, the call goes on to the UPDATE by hash and to the issuer:
the matched session is stored invalid when the UPDATE succeeds, and every session is
stored as it was when the UPDATE fails (its error is discarded); the new pair is
returned when the issuer succeeds (user lookup, random source, hash and INSERT), and
the issuer's error, wrapped, when it does not. -/
theorem C4_notification_count (C : Crypto) (s : Service) (f : Faults) (now : Time)
    (randErr : Option String) (randByte : Nat → Fin 256) (salt : String)
    (post : WebhookRequest → Except String Nat) (db : DB) (U : UUID) (S ua ip : String) :
    posts (s.RefreshTokens C (world f now randErr randByte salt post) db U S ua ip).trace
      = (match Postgres.GetValidUserRefreshTokens f now db U with
         | .error _ => []
         | .ok ts =>
           match Service.findMatch C ts S with
           | none => []
           | some t =>
             if t.UserAgent = ua ∧ t.IP ≠ ip then [{ NewIP := ip, UserID := U, Ts := now.Unix }]
             else [])
    ∧ ∀ (t : RefreshToken) (status : Nat),
        f.GetValidUserRefreshTokens = none →
        Service.findMatch C (db.refresh_tokens.filter (RefreshToken.isLive now U)) S = some t →
        t.UserAgent = ua → t.IP ≠ ip →
        post { NewIP := ip, UserID := U, Ts := now.Unix } = .ok status →
        200 ≤ status → status < 300 →
        (f.InvalidateRefreshToken = none →
          { t with IsValid := false }
            ∈ (s.RefreshTokens C (world f now randErr randByte salt post) db
                U S ua ip).state.refresh_tokens)
        ∧ (f.InvalidateRefreshToken ≠ none →
          ∀ x ∈ db.refresh_tokens,
            x ∈ (s.RefreshTokens C (world f now randErr randByte salt post) db
                  U S ua ip).state.refresh_tokens)
        ∧ (issueKind C f randErr randByte salt db U = .Success →
          (s.RefreshTokens C (world f now randErr randByte salt post) db U S ua ip).result
            = .ok (issuedAccessToken C s now U, refreshSecret randByte))
        ∧ (issueKind C f randErr randByte salt db U ≠ .Success →
          ∃ err,
            (s.RefreshTokens C (world f now randErr randByte salt post) db U S ua ip).result
              = .error (.errorf "failed to generate new tokens" err)) := by
  refine ⟨posts_RefreshTokens C s (world f now randErr randByte salt post) db U S ua ip, ?_⟩
  intro t status hf hmatch hua hip hpost hlo hhi
  have hw : Service.Webhook (world f now randErr randByte salt post) U ip = .ok () :=
    Webhook_ok _ U ip status hpost hlo hhi
  have hmem := (List.mem_filter.1 (findMatch_some C _ S t hmatch).1).1
  rw [RefreshTokens_world_reissue C s f now randErr randByte salt post db U S ua ip t hf hmatch
    hua (fun _ => hw)]
  have hk : issueKind C f randErr randByte salt
      ((world f now randErr randByte salt post).repo.InvalidateRefreshToken db t.TokenHash).2 U
      = issueKind C f randErr randByte salt db U :=
    issueKind_users C f randErr randByte salt _ db U
      (world_InvalidateRefreshToken_users f now randErr randByte salt post db t.TokenHash)
  refine ⟨?_, ?_, ?_, ?_⟩
  · intro hinv
    apply GenerateTokens_world_mem
    rw [world_InvalidateRefreshToken f now randErr randByte salt post db t.TokenHash hinv]
    exact mem_invalidateHash db t hmem
  · intro hinv x hx
    apply GenerateTokens_world_mem
    rw [world_InvalidateRefreshToken_failed f now randErr randByte salt post db t.TokenHash hinv]
    exact hx
  · intro hs
    rw [← hk] at hs
    simp only [GenerateTokens_world_of_Success C s f now randErr randByte salt post _ U ua ip hs]
  · intro hs
    rw [← hk, ← terminal_reissue C s f now randErr randByte salt post _ U ua ip] at hs
    cases hg : (s.GenerateTokens C (world f now randErr randByte salt post)
        ((world f now randErr randByte salt post).repo.InvalidateRefreshToken db
          t.TokenHash).2 U ua ip).result with
    | error e => exact ⟨e, rfl⟩
    | ok pair =>
      rw [hg] at hs
      exact absurd rfl hs

/-- Witness for C4: the session issued for `u1` from `1.2.3.4` is presented from
`5.6.7.8` and the webhook endpoint answers 200, no query failing. -/
theorem C4_notification_count_witness :
    posts (exampleService.RefreshTokens exampleCrypto (exampleWorld 5 2 "s1" 200) exampleIssued
        u1 exampleSecret "Mozilla" "5.6.7.8").trace
      = [{ NewIP := "5.6.7.8", UserID := u1, Ts := 0 }]
    ∧ ({ ID := 1, UserID := u1, TokenHash := "AQEBAQEBAQEBAQEBAQEBAQEBAQEBAQEBAQEBAQEBAQE$s0",
         UserAgent := "Mozilla", IP := "1.2.3.4", IssuedAt := 0, ExpiresAt := 3600000000000,
         IsValid := false } : RefreshToken)
        ∈ (exampleService.RefreshTokens exampleCrypto (exampleWorld 5 2 "s1" 200) exampleIssued
            u1 exampleSecret "Mozilla" "5.6.7.8").state.refresh_tokens
    ∧ (exampleService.RefreshTokens exampleCrypto (exampleWorld 5 2 "s1" 200) exampleIssued
        u1 exampleSecret "Mozilla" "5.6.7.8").result
        = .ok (issuedAccessToken exampleCrypto exampleService 5 u1,
            "AgICAgICAgICAgICAgICAgICAgICAgICAgICAgICAgI") :=
  have h := C4_notification_count exampleCrypto exampleService Faults.healthy 5 none (fun _ => 2)
    "s1" (fun _ => .ok 200) exampleIssued u1 exampleSecret "Mozilla" "5.6.7.8"
  have h2 := h.2
    { ID := 1, UserID := u1, TokenHash := "AQEBAQEBAQEBAQEBAQEBAQEBAQEBAQEBAQEBAQEBAQE$s0",
      UserAgent := "Mozilla", IP := "1.2.3.4", IssuedAt := 0, ExpiresAt := 3600000000000,
      IsValid := true }
    200 rfl (by decide) rfl (by decide) rfl (by decide) (by decide)
  ⟨h.1, h2.1 rfl, h2.2.2.1 (by decide)⟩

/-! ## C12: the store after a successful rotation -/

theorem exampleCrypto_hidden (slt p h : String)
    (hh : exampleCrypto.GenerateFromPassword slt p = .ok h) : h ≠ p := by
  simp only [exampleCrypto, Except.ok.injEq] at hh
  subst hh
  intro he
  have := congrArg String.length he
  simp only [String.length_append] at this
  have h1 : ("$" : String).length = 1 := by decide
  omega

/-- C12, as stated, fails: the session of `u1` is rotated with the right secret,
user-agent and IP while the UPDATE by hash fails.  The call discards that error and
returns a new pair; the store afterwards holds the matched session unchanged, still
valid, next to the new session. -/
theorem C12_matched_session_valid_counterexample :
    (exampleService.RefreshTokens exampleCrypto
        (world brokenHashUpdate 5 none (fun _ => 2) "s1" (fun _ => .ok 200)) exampleIssued
        u1 exampleSecret "Mozilla" "1.2.3.4").result
      = .ok (issuedAccessToken exampleCrypto exampleService 5 u1,
          "AgICAgICAgICAgICAgICAgICAgICAgICAgICAgICAgI")
    ∧ Service.findMatch exampleCrypto
        (exampleIssued.refresh_tokens.filter (RefreshToken.isLive 5 u1)) exampleSecret
      = some { ID := 1, UserID := u1,
               TokenHash := "AQEBAQEBAQEBAQEBAQEBAQEBAQEBAQEBAQEBAQEBAQE$s0",
               UserAgent := "Mozilla", IP := "1.2.3.4", IssuedAt := 0,
               ExpiresAt := 3600000000000, IsValid := true }
    ∧ (exampleService.RefreshTokens exampleCrypto
        (world brokenHashUpdate 5 none (fun _ => 2) "s1" (fun _ => .ok 200)) exampleIssued
        u1 exampleSecret "Mozilla" "1.2.3.4").state.refresh_tokens.map
          (fun x => (x.UserID, x.TokenHash, x.UserAgent, x.IP, x.IsValid))
      = [(u1, "AQEBAQEBAQEBAQEBAQEBAQEBAQEBAQEBAQEBAQEBAQE$s0", "Mozilla", "1.2.3.4", true),
         (u1, "AgICAgICAgICAgICAgICAgICAgICAgICAgICAgICAgI$s1", "Mozilla", "1.2.3.4", true)] := by
  refine ⟨rfl, by decide, rfl⟩

/-- C12, amended: for every successful `RefreshTokens(U, S, ua, ip)` against Postgres,
in a store whose token hashes are pairwise distinct, the table afterwards is the table
before followed by one new session, where exactly the matched session has been set
invalid when the UPDATE by hash succeeded, and no session has been changed when that
UPDATE failed (its error is discarded).  The new session has user `U`, is valid, has the
user-agent and IP presented in this call, is issued at the call's clock value and
expires `refreshTTL` later, and its hash verifies against the returned raw secret and is
not the raw secret itself.  The users table is unchanged. -/
theorem C12_rotation_result_state (C : Crypto) (s : Service) (f : Faults) (now : Time)
    (randErr : Option String) (randByte : Nat → Fin 256) (salt : String)
    (post : WebhookRequest → Except String Nat) (db : DB) (U : UUID) (S ua ip : String)
    (pair : TokenString × String)
    (hverify : ∀ slt p h, C.GenerateFromPassword slt p = .ok h →
      C.CompareHashAndPassword h p = true)
    (hhidden : ∀ slt p h, C.GenerateFromPassword slt p = .ok h → h ≠ p)
    (hnodup : (db.refresh_tokens.map fun x => x.TokenHash).Nodup)
    (hok : (s.RefreshTokens C (world f now randErr randByte salt post) db U S ua ip).result
      = .ok pair) :
    ∃ (t row : RefreshToken),
      Service.findMatch C (db.refresh_tokens.filter (RefreshToken.isLive now U)) S = some t
      ∧ t ∈ db.refresh_tokens ∧ t.IsValid = true
      ∧ (f.InvalidateRefreshToken = none →
          (s.RefreshTokens C (world f now randErr randByte salt post) db
              U S ua ip).state.refresh_tokens
            = (db.refresh_tokens.map fun x => if x = t then { x with IsValid := false } else x)
              ++ [row])
      ∧ (f.InvalidateRefreshToken ≠ none →
          (s.RefreshTokens C (world f now randErr randByte salt post) db
              U S ua ip).state.refresh_tokens
            = db.refresh_tokens ++ [row])
      ∧ row.UserID = U ∧ row.IsValid = true ∧ row.UserAgent = ua ∧ row.IP = ip
      ∧ row.IssuedAt = now ∧ row.ExpiresAt = now + s.refreshTTL
      ∧ C.CompareHashAndPassword row.TokenHash pair.2 = true
      ∧ row.TokenHash ≠ pair.2
      ∧ (s.RefreshTokens C (world f now randErr randByte salt post) db U S ua ip).state.users
          = db.users := by
  obtain ⟨t, user, hash, hf1, hf3, hf4, hr, hm, hua, hhook, huser, hhash⟩ :=
    RefreshTokens_world_ok_inv C s f now randErr randByte salt post db U S ua ip pair hok
  subst hr
  have hmem := (List.mem_filter.1 (findMatch_some C _ S t hm).1)
  have husers := world_InvalidateRefreshToken_users f now none randByte salt post db t.TokenHash
  have hgen := GenerateTokens_world C s f now randByte salt post
    ((world f now none randByte salt post).repo.InvalidateRefreshToken db t.TokenHash).2
    U ua ip hash user hf3 hf4 (by rw [husers]; exact huser) hhash
  have hrot := RefreshTokens_world_reissue C s f now none randByte salt post db U S ua ip t
    hf1 hm hua hhook
  rw [hgen] at hrot
  rw [hrot] at hok ⊢
  simp only [Except.ok.injEq] at hok
  have hsecret : pair.2 = refreshSecret randByte := by rw [← hok]
  have hlen : ((world f now none randByte salt post).repo.InvalidateRefreshToken db
      t.TokenHash).2.refresh_tokens.length = db.refresh_tokens.length := by
    rcases world_InvalidateRefreshToken_state f now none randByte salt post db t.TokenHash
      with h | h <;> rw [h]
    simp [DB.invalidateHash]
  refine ⟨t, { newSession s now U hash ua ip with ID := db.refresh_tokens.length + 1 },
    hm, hmem.1, isLive_valid hmem.2, ?_, ?_, rfl, rfl, rfl, rfl, rfl, rfl, ?_, ?_, ?_⟩
  · intro hinv
    simp only [DB.insert, hlen]
    rw [world_InvalidateRefreshToken f now none randByte salt post db t.TokenHash hinv,
      invalidateHash_eq_of_nodup db t hmem.1 hnodup]
  · intro hinv
    simp only [DB.insert, hlen]
    rw [world_InvalidateRefreshToken_failed f now none randByte salt post db t.TokenHash hinv]
  · rw [hsecret]; exact hverify _ _ _ hhash
  · rw [hsecret]; exact hhidden _ _ _ hhash
  · simp only [DB.insert]
    exact husers

/-- Witness for C12: the session issued for `u1` at time 0 is rotated at time 5, no
query failing. -/
theorem C12_rotation_result_state_witness :
    ∃ (t row : RefreshToken),
      Service.findMatch exampleCrypto
        (exampleIssued.refresh_tokens.filter (RefreshToken.isLive 5 u1)) exampleSecret = some t
      ∧ t ∈ exampleIssued.refresh_tokens ∧ t.IsValid = true
      ∧ (exampleService.RefreshTokens exampleCrypto (exampleWorld 5 2 "s1" 200) exampleIssued
          u1 exampleSecret "Mozilla" "1.2.3.4").state.refresh_tokens
          = (exampleIssued.refresh_tokens.map fun x =>
              if x = t then { x with IsValid := false } else x) ++ [row]
      ∧ row.UserID = u1 ∧ row.IsValid = true ∧ row.UserAgent = "Mozilla"
      ∧ row.IP = "1.2.3.4" ∧ row.IssuedAt = 5
      ∧ row.ExpiresAt = 5 + exampleService.refreshTTL
      ∧ exampleCrypto.CompareHashAndPassword row.TokenHash
          "AgICAgICAgICAgICAgICAgICAgICAgICAgICAgICAgI" = true
      ∧ row.TokenHash ≠ "AgICAgICAgICAgICAgICAgICAgICAgICAgICAgICAgI" :=
  have ⟨t, row, h1, h2, h3, h4, _, h6, h7, h8, h9, h10, h11, h12, h13, _⟩ :=
    C12_rotation_result_state exampleCrypto exampleService Faults.healthy 5 none (fun _ => 2)
      "s1" (fun _ => .ok 200) exampleIssued u1 exampleSecret "Mozilla" "1.2.3.4"
      (issuedAccessToken exampleCrypto exampleService 5 u1,
        "AgICAgICAgICAgICAgICAgICAgICAgICAgICAgICAgI")
      exampleCrypto_law exampleCrypto_hidden (by decide) rfl
  ⟨t, row, h1, h2, h3, h4 rfl, h6, h7, h8, h9, h10, h11, h12, h13⟩

/-! ## C16: consume before issue -/

theorem RefreshTokens_world_reissue_fail_iff (C : Crypto) (s : Service) (f : Faults) (now : Time)
    (randErr : Option String) (randByte : Nat → Fin 256) (salt : String)
    (post : WebhookRequest → Except String Nat) (db : DB) (U : UUID) (S ua ip : String)
    (t : RefreshToken)
    (hf : f.GetValidUserRefreshTokens = none)
    (hm : Service.findMatch C (db.refresh_tokens.filter (RefreshToken.isLive now U)) S = some t)
    (hua : t.UserAgent = ua)
    (hhook : t.IP ≠ ip → Service.Webhook (world f now randErr randByte salt post) U ip = .ok ()) :
    ((∃ err, (s.RefreshTokens C (world f now randErr randByte salt post) db U S ua ip).result
        = .error err)
      ∧ (s.RefreshTokens C (world f now randErr randByte salt post) db U S ua ip).state = db)
    ↔ (f.InvalidateRefreshToken ≠ none
        ∧ issueKind C f randErr randByte salt db U ≠ .Success) := by
  have hmem := List.mem_filter.1 (findMatch_some C _ S t hm).1
  have hvalid : t.IsValid = true := isLive_valid hmem.2
  have hk : issueKind C f randErr randByte salt
      ((world f now randErr randByte salt post).repo.InvalidateRefreshToken db t.TokenHash).2 U
      = issueKind C f randErr randByte salt db U :=
    issueKind_users C f randErr randByte salt _ db U
      (world_InvalidateRefreshToken_users f now randErr randByte salt post db t.TokenHash)
  have hterm := terminal_reissue C s f now randErr randByte salt post
    ((world f now randErr randByte salt post).repo.InvalidateRefreshToken db t.TokenHash).2 U ua ip
  rw [hk] at hterm
  rw [RefreshTokens_world_reissue C s f now randErr randByte salt post db U S ua ip t hf hm
    hua hhook]
  cases hg : (s.GenerateTokens C (world f now randErr randByte salt post)
      ((world f now randErr randByte salt post).repo.InvalidateRefreshToken db
        t.TokenHash).2 U ua ip).result with
  | ok pair =>
    rw [hg] at hterm
    constructor
    · intro h
      obtain ⟨err, herr⟩ := h.1
      cases herr
    · intro h
      exact absurd hterm.symm h.2
  | error e =>
    rw [hg] at hterm
    have hne : issueKind C f randErr randByte salt db U ≠ .Success := by
      rw [← hterm]
      exact terminal_error_ne_Success _
    have hstate := GenerateTokens_world_error_state C s f now randErr randByte salt post
      ((world f now randErr randByte salt post).repo.InvalidateRefreshToken db t.TokenHash).2
      U ua ip e hg
    simp only [hstate]
    cases hinv : f.InvalidateRefreshToken with
    | none =>
      rw [world_InvalidateRefreshToken f now randErr randByte salt post db t.TokenHash hinv]
      constructor
      · intro h
        exact absurd h.2 (invalidateHash_ne db t hmem.1 hvalid)
      · intro h
        exact absurd rfl h.1
    | some e2 =>
      have hinv2 : f.InvalidateRefreshToken ≠ none := by rw [hinv]; exact fun h => by cases h
      rw [world_InvalidateRefreshToken_failed f now randErr randByte salt post db t.TokenHash
        hinv2]
      exact ⟨fun _ => ⟨Option.some_ne_none e2, hne⟩, fun _ => ⟨⟨_, rfl⟩, rfl⟩⟩

/-- C16, as stated, fails in both halves.  First half: the session of `u1` is presented
with the right secret, user-agent and IP while the UPDATE by hash and the INSERT both
fail; `GenerateTokens` fails and the call returns its error, and the matched session is
not invalid: the store is as it was.  Second half: the same session is presented with
user-agent `Chrome` while the UPDATE by user fails; the call fails with
`er.ErrUserAgentMismatch` and leaves the store as it was, although the read succeeded,
the secret matched and no notification was sent. -/
theorem C16_unchanged_store_counterexample :
    ((exampleService.RefreshTokens exampleCrypto
        (world { brokenInsert with InvalidateRefreshToken := some "connection reset" }
          5 none (fun _ => 2) "s1" (fun _ => .ok 200)) exampleIssued
        u1 exampleSecret "Mozilla" "1.2.3.4").result
        = .error (.errorf "failed to generate new tokens"
            (.errorf "failed to create refresh token"
              (.errorf "failed to create refresh token for user 00000000-0000-0000-0000-000000000001"
                (.foreign "disk full"))))
      ∧ (exampleService.RefreshTokens exampleCrypto
          (world { brokenInsert with InvalidateRefreshToken := some "connection reset" }
            5 none (fun _ => 2) "s1" (fun _ => .ok 200)) exampleIssued
          u1 exampleSecret "Mozilla" "1.2.3.4").state = exampleIssued
      ∧ (exampleService.RefreshTokens exampleCrypto
          (world { brokenInsert with InvalidateRefreshToken := some "connection reset" }
            5 none (fun _ => 2) "s1" (fun _ => .ok 200)) exampleIssued
          u1 exampleSecret "Mozilla" "1.2.3.4").trace
          = [.GetValidUserRefreshTokens u1,
             .InvalidateRefreshToken "AQEBAQEBAQEBAQEBAQEBAQEBAQEBAQEBAQEBAQEBAQE$s0",
             .GenerateTokens u1 "Mozilla" "1.2.3.4",
             .GetUserByID u1,
             .CreateRefreshToken (newSession exampleService 5 u1
               "AgICAgICAgICAgICAgICAgICAgICAgICAgICAgICAgI$s1" "Mozilla" "1.2.3.4")])
    ∧ ((exampleService.RefreshTokens exampleCrypto
        (world brokenUserUpdate 5 none (fun _ => 2) "s1" (fun _ => .ok 200)) exampleIssued
        u1 exampleSecret "Chrome" "5.6.7.8").result = .error er.ErrUserAgentMismatch
      ∧ (exampleService.RefreshTokens exampleCrypto
          (world brokenUserUpdate 5 none (fun _ => 2) "s1" (fun _ => .ok 200)) exampleIssued
          u1 exampleSecret "Chrome" "5.6.7.8").state = exampleIssued
      ∧ (exampleService.RefreshTokens exampleCrypto
          (world brokenUserUpdate 5 none (fun _ => 2) "s1" (fun _ => .ok 200)) exampleIssued
          u1 exampleSecret "Chrome" "5.6.7.8").trace
          = [.GetValidUserRefreshTokens u1, .InvalidateAllUserTokens u1])
    ∧ ∀ x ∈ exampleIssued.refresh_tokens, x.IsValid = true := by
  refine ⟨⟨rfl, rfl, rfl⟩, ⟨rfl, rfl, rfl⟩, ?_⟩
  intro x hx
  simp only [exampleIssued, List.mem_singleton] at hx
  rw [hx]

/-- C16, amended: in `RefreshTokens` against Postgres the UPDATE by hash of the matched
session is attempted before the issuer is called.  For every call that matches a live
session with the same user-agent and passes the IP check, the trace has
`InvalidateRefreshToken` directly before `GenerateTokens`; and if that `GenerateTokens`
fails, the call returns the error wrapped as "failed to generate new tokens" and no
tokens, and no session has been added, while the matched session is stored invalid when
the UPDATE succeeded and the store is as it was when the UPDATE failed (its error is
discarded).  The call fails and leaves the store as it was exactly on the read failure,
on no match, on the notifier failure, on a user-agent mismatch whose UPDATE by user
fails, and on an issuer failure whose preceding UPDATE by hash has failed. -/
theorem C16_consume_before_issue (C : Crypto) (s : Service) (f : Faults) (now : Time)
    (randErr : Option String) (randByte : Nat → Fin 256) (salt : String)
    (post : WebhookRequest → Except String Nat) (db : DB) (U : UUID) (S ua ip : String) :
    (∀ t : RefreshToken, f.GetValidUserRefreshTokens = none →
      Service.findMatch C (db.refresh_tokens.filter (RefreshToken.isLive now U)) S = some t →
      t.UserAgent = ua →
      (t.IP ≠ ip → Service.Webhook (world f now randErr randByte salt post) U ip = .ok ()) →
      (∃ pre rest,
        (s.RefreshTokens C (world f now randErr randByte salt post) db U S ua ip).trace
          = pre ++ Event.InvalidateRefreshToken t.TokenHash
              :: Event.GenerateTokens U ua ip :: rest)
      ∧ ∀ err, (s.GenerateTokens C (world f now randErr randByte salt post)
            ((world f now randErr randByte salt post).repo.InvalidateRefreshToken db
              t.TokenHash).2 U ua ip).result = .error err →
          (s.RefreshTokens C (world f now randErr randByte salt post) db U S ua ip).result
              = .error (.errorf "failed to generate new tokens" err)
          ∧ (s.RefreshTokens C (world f now randErr randByte salt post) db
              U S ua ip).state.refresh_tokens.length = db.refresh_tokens.length
          ∧ (f.InvalidateRefreshToken = none →
              (s.RefreshTokens C (world f now randErr randByte salt post) db U S ua ip).state
                = db.invalidateHash t.TokenHash
              ∧ { t with IsValid := false }
                ∈ (s.RefreshTokens C (world f now randErr randByte salt post) db
                    U S ua ip).state.refresh_tokens)
          ∧ (f.InvalidateRefreshToken ≠ none →
              (s.RefreshTokens C (world f now randErr randByte salt post) db U S ua ip).state
                = db))
    ∧ (((∃ err, (s.RefreshTokens C (world f now randErr randByte salt post) db
            U S ua ip).result = .error err)
        ∧ (s.RefreshTokens C (world f now randErr randByte salt post) db U S ua ip).state = db)
      ↔ (f.GetValidUserRefreshTokens ≠ none
        ∨ (f.GetValidUserRefreshTokens = none
            ∧ Service.findMatch C (db.refresh_tokens.filter (RefreshToken.isLive now U)) S = none)
        ∨ (f.GetValidUserRefreshTokens = none
            ∧ ∃ t, Service.findMatch C (db.refresh_tokens.filter (RefreshToken.isLive now U)) S
                = some t
              ∧ t.UserAgent = ua ∧ t.IP ≠ ip
              ∧ ∃ err, Service.Webhook (world f now randErr randByte salt post) U ip
                  = .error err)
        ∨ (f.GetValidUserRefreshTokens = none
            ∧ ∃ t, Service.findMatch C (db.refresh_tokens.filter (RefreshToken.isLive now U)) S
                = some t
              ∧ t.UserAgent ≠ ua ∧ f.InvalidateAllUserTokens ≠ none)
        ∨ (f.GetValidUserRefreshTokens = none
            ∧ ∃ t, Service.findMatch C (db.refresh_tokens.filter (RefreshToken.isLive now U)) S
                = some t
              ∧ t.UserAgent = ua
              ∧ (t.IP ≠ ip →
                  Service.Webhook (world f now randErr randByte salt post) U ip = .ok ())
              ∧ f.InvalidateRefreshToken ≠ none
              ∧ issueKind C f randErr randByte salt db U ≠ .Success))) := by
  constructor
  · intro t hf hm hua hhook
    have hmem := List.mem_filter.1 (findMatch_some C _ S t hm).1
    rw [RefreshTokens_world_reissue C s f now randErr randByte salt post db U S ua ip t hf hm
      hua hhook]
    constructor
    · obtain ⟨rest, hrest⟩ := GenerateTokens_trace_head C s
        (world f now randErr randByte salt post)
        ((world f now randErr randByte salt post).repo.InvalidateRefreshToken db t.TokenHash).2
        U ua ip
      refine ⟨[Event.GetValidUserRefreshTokens U]
        ++ (if t.IP ≠ ip then
              [Event.Post (Service.webhookRequest (world f now randErr randByte salt post) U ip)]
            else []), rest, ?_⟩
      simp only [hrest, rotateTrace, List.append_assoc, List.singleton_append]
    · intro err herr
      have hstate := GenerateTokens_world_error_state C s f now randErr randByte salt post
        ((world f now randErr randByte salt post).repo.InvalidateRefreshToken db t.TokenHash).2
        U ua ip err herr
      simp only [herr, hstate]
      refine ⟨trivial, ?_, ?_, ?_⟩
      · rcases world_InvalidateRefreshToken_state f now randErr randByte salt post db
          t.TokenHash with h | h <;> rw [h]
        simp [DB.invalidateHash]
      · intro hinv
        rw [world_InvalidateRefreshToken f now randErr randByte salt post db t.TokenHash hinv]
        exact ⟨rfl, mem_invalidateHash db t hmem.1⟩
      · intro hinv
        exact world_InvalidateRefreshToken_failed f now randErr randByte salt post db
          t.TokenHash hinv
  · cases hf : f.GetValidUserRefreshTokens with
    | some e =>
      have hres : s.RefreshTokens C (world f now randErr randByte salt post) db U S ua ip
          = ⟨.error (.errorf ("failed to get valid refresh tokens for user " ++ U.String)
                (.errorf ("failed to get valid refresh tokens for user " ++ U.String) (.foreign e))),
             db, [.GetValidUserRefreshTokens U]⟩ := by
        unfold Service.RefreshTokens
        simp only [world, Postgres, Postgres.GetValidUserRefreshTokens, hf]
        rw [if_neg (by simp [errors.Is])]
      rw [hres]
      simp
    | none =>
      have hread := world_GetValid f now randErr randByte salt post db U hf
      cases hm : Service.findMatch C (db.refresh_tokens.filter (RefreshToken.isLive now U)) S with
      | none =>
        rw [RefreshTokens_of_no_match C s _ db U S ua ip _ hread hm]
        simp
      | some t =>
        have hmem := List.mem_filter.1 (findMatch_some C _ S t hm).1
        have hU : t.UserID = U := isLive_userID hmem.2
        have hvalid : t.IsValid = true := isLive_valid hmem.2
        by_cases hua : t.UserAgent = ua
        · by_cases hpass : t.IP ≠ ip →
              Service.Webhook (world f now randErr randByte salt post) U ip = .ok ()
          · rw [RefreshTokens_world_reissue_fail_iff C s f now randErr randByte salt post db
              U S ua ip t hf hm hua hpass]
            constructor
            · intro h
              exact Or.inr (Or.inr (Or.inr (Or.inr ⟨rfl, t, rfl, hua, hpass, h.1, h.2⟩)))
            · intro h
              rcases h with h | h | h | h | h
              · exact absurd rfl h
              · cases h.2
              · obtain ⟨-, t2, ht2, -, hip2, err, herr⟩ := h
                cases ht2
                rw [hpass hip2] at herr
                cases herr
              · obtain ⟨-, t2, ht2, hua2, -⟩ := h
                cases ht2
                exact absurd hua hua2
              · obtain ⟨-, t2, ht2, -, -, h1, h2⟩ := h
                exact ⟨h1, h2⟩
          · have hip : t.IP ≠ ip := fun h => hpass (fun hne => absurd h hne)
            cases hw : Service.Webhook (world f now randErr randByte salt post) U ip with
            | ok u => exact absurd (fun _ => hw) hpass
            | error err =>
              rw [RefreshTokens_of_hook_error C s _ db U S ua ip _ t err hread hm hua hip hw]
              constructor
              · intro _
                exact Or.inr (Or.inr (Or.inl ⟨rfl, t, rfl, hua, hip, err, rfl⟩))
              · intro _
                exact ⟨⟨_, rfl⟩, rfl⟩
        · rw [RefreshTokens_of_mismatch C s _ db U S ua ip _ t hread hm hua]
          cases hall : f.InvalidateAllUserTokens with
          | none =>
            rw [world_InvalidateAllUserTokens f now randErr randByte salt post db t.UserID hall]
            constructor
            · intro h
              exact absurd h.2 (invalidateUser_ne db t hmem.1 hvalid)
            · intro h
              rcases h with h | h | h | h | h
              · exact absurd rfl h
              · cases h.2
              · obtain ⟨-, t2, ht2, hua2, -⟩ := h
                cases ht2
                exact absurd hua2 hua
              · exact absurd rfl h.2.choose_spec.2.2
              · obtain ⟨-, t2, ht2, hua2, -⟩ := h
                cases ht2
                exact absurd hua2 hua
          | some e =>
            have hst : ((world f now randErr randByte salt post).repo.InvalidateAllUserTokens db
                t.UserID).2 = db := by
              simp [world, Postgres, Postgres.InvalidateAllUserTokens, hall]
            rw [hst]
            constructor
            · intro _
              exact Or.inr (Or.inr (Or.inr (Or.inl
                ⟨rfl, t, rfl, hua, Option.some_ne_none e⟩)))
            · intro _
              exact ⟨⟨_, rfl⟩, rfl⟩

/-- Witness for C16: the session of `u1` is presented with the right secret, user-agent
and IP while the INSERT fails and the UPDATE by hash succeeds: the call fails, the
session is stored invalid and the table holds no further row. -/
theorem C16_consume_before_issue_witness :
    (exampleService.RefreshTokens exampleCrypto
        (world brokenInsert 5 none (fun _ => 2) "s1" (fun _ => .ok 200)) exampleIssued
        u1 exampleSecret "Mozilla" "1.2.3.4").result
      = .error (.errorf "failed to generate new tokens"
          (.errorf "failed to create refresh token"
            (.errorf "failed to create refresh token for user 00000000-0000-0000-0000-000000000001"
              (.foreign "disk full"))))
    ∧ (exampleService.RefreshTokens exampleCrypto
        (world brokenInsert 5 none (fun _ => 2) "s1" (fun _ => .ok 200)) exampleIssued
        u1 exampleSecret "Mozilla" "1.2.3.4").state.refresh_tokens.length = 1
    ∧ (exampleService.RefreshTokens exampleCrypto
        (world brokenInsert 5 none (fun _ => 2) "s1" (fun _ => .ok 200)) exampleIssued
        u1 exampleSecret "Mozilla" "1.2.3.4").state
      = exampleIssued.invalidateHash "AQEBAQEBAQEBAQEBAQEBAQEBAQEBAQEBAQEBAQEBAQE$s0" :=
  have h := C16_consume_before_issue exampleCrypto exampleService brokenInsert 5 none
    (fun _ => 2) "s1" (fun _ => .ok 200) exampleIssued u1 exampleSecret "Mozilla" "1.2.3.4"
  have g := (h.1
    { ID := 1, UserID := u1, TokenHash := "AQEBAQEBAQEBAQEBAQEBAQEBAQEBAQEBAQEBAQEBAQE$s0",
      UserAgent := "Mozilla", IP := "1.2.3.4", IssuedAt := 0, ExpiresAt := 3600000000000,
      IsValid := true }
    rfl (by decide) rfl (fun hne => absurd rfl hne)).2
    (.errorf "failed to create refresh token"
      (.errorf "failed to create refresh token for user 00000000-0000-0000-0000-000000000001"
        (.foreign "disk full"))) rfl
  ⟨g.1, g.2.1, (g.2.2.1 rfl).1⟩

end AuthService
